import Mathlib

/-!
CineTCG deterministic match engine — verification development.

A shallow embedding of the engine under `src/cinetcg/engine/`
(`types.py`, `actions.py`, `match.py`, `serialize.py`, `ai.py`).

Conventions of the embedding:
* Python `int` is `Int`; Python strings are `String`.
* Python exceptions (`KeyError`, `IndexError`, `AssertionError`,
  `ValueError`) are modelled by the `Except String` monad: `.error msg`
  means the Python code raises; `.ok` means it returns normally.
  A rule violation reported through `StepResult(ok=False, ...)` is a
  normal return, never `.error`.
* Python list indexing (negative-index wraparound, `IndexError` when out
  of range) is modelled by `pyIdx`/`pyListGet`/`pyListSet`;
  `list.insert` clamping is modelled by `pyInsert`.
* `state.players` is a Python list of exactly two `PlayerState`s; it is
  embedded as a pair with Python list-of-length-2 indexing semantics.
* In-place mutation is embedded as explicit state passing: every helper
  that mutates `MatchState` returns the updated state.
-/

namespace CineTCG

/-! ## types.py -/

inductive CardType
  | creature
  | spell
deriving DecidableEq, Repr

inductive Rarity
  | common
  | rare
  | epic
  | legendary
deriving DecidableEq, Repr

inductive Keyword
  | Guard
  | Haste
  | Lifesteal
  | Token
deriving DecidableEq, Repr

inductive DamageTarget
  | enemy_creature
  | enemy_player
  | any
deriving DecidableEq, Repr

inductive HealTarget
  | self_player
  | self_creature
deriving DecidableEq, Repr

inductive BuffTarget
  | self_creature
  | any_creature
deriving DecidableEq, Repr

/-- The closed tagged union of card effects (`types.py`). -/
inductive Effect
  | damage (amount : Int) (target : DamageTarget)
  | heal (amount : Int) (target : HealTarget)
  | draw (count : Int)
  | buff (attack_delta : Int) (health_delta : Int) (target : BuffTarget)
  | summon (token_card_id : String) (count : Int)
deriving DecidableEq, Repr

structure CreatureStats where
  attack : Int
  health : Int
deriving DecidableEq, Repr

structure CardDefinition where
  id : String
  name : String
  type : CardType
  rarity : Rarity
  cost : Int
  art_path : String
  rules_text : String
  keywords : List Keyword
  effects : List Effect
  creature_stats : Option CreatureStats := none
  cutscene_id : Option String := none
deriving DecidableEq, Repr

/-- `CardDatabase`: Python `dict[str, CardDefinition]`, embedded as an
association list with unique keys assumed by construction.  `get` raises
`KeyError` on a missing id, modelled as `.error`. -/
structure CardDatabase where
  cards : List (String × CardDefinition)
deriving DecidableEq, Repr

def CardDatabase.get (db : CardDatabase) (card_id : String) : Except String CardDefinition :=
  match db.cards.lookup card_id with
  | some c => .ok c
  | none => .error ("KeyError: " ++ card_id)

/-! ## actions.py -/

inductive TargetKind
  | player
  | creature
deriving DecidableEq, Repr

structure TargetRef where
  kind : TargetKind
  player : Int
  slot : Option Int := none
deriving DecidableEq, Repr

def TargetRef.player_target (player : Int) : TargetRef :=
  { kind := .player, player := player, slot := none }

def TargetRef.creature_target (player : Int) (slot : Int) : TargetRef :=
  { kind := .creature, player := player, slot := some slot }

/-- `Action = PlayCardAction | AttackAction | EndTurnAction`. -/
inductive Action
  | play (player : Int) (hand_index : Int) (target : Option TargetRef)
  | attack (player : Int) (attacker_slot : Int) (target : TargetRef)
  | endTurn (player : Int)
deriving DecidableEq, Repr

/-! ## Events (`match.py` appends `dict[str, object]` records) -/

inductive Event
  | card_drawn (player : Int) (card_id : String)
  | turn_started (player : Int) (energy : Int)
  | creature_died (player : Int) (slot : Int) (card_id : String)
  | heal_player (player : Int) (amount : Int)
  | damage_player (player : Int) (amount : Int) (dealt : Int)
  | damage_creature (player : Int) (slot : Int) (amount : Int)
  | game_ended (winner : Int) (reason : String)
  | heal_creature (player : Int) (slot : Int) (amount : Int)
  | buff_applied (player : Int) (slot : Int) (attack_delta : Int) (health_delta : Int)
  | creature_summoned (player : Int) (slot : Int) (card_id : String)
  | card_played (player : Int) (card_id : String)
  | turn_ended (player : Int)
  | attack_player (player : Int) (attacker_slot : Int) (amount : Int) (dealt : Int)
  | attack_creature (player : Int) (attacker_slot : Int) (defender_slot : Int)
deriving DecidableEq, Repr

/-! ## Python list semantics helpers -/

/-- Effective index of Python `xs[i]` on a list of length `n`:
non-negative indices are used directly, negative indices wrap from the
end, anything else raises `IndexError` (`none`). -/
def pyIdx (i : Int) (n : Nat) : Option Nat :=
  if 0 ≤ i ∧ i < (n : Int) then some i.toNat
  else if -(n : Int) ≤ i ∧ i < 0 then some (i + n).toNat
  else none

def pyListGet (xs : List α) (i : Int) [Inhabited α] : Except String α :=
  match pyIdx i xs.length with
  | some j => .ok (xs.getD j default)
  | none => .error "IndexError: list index out of range"

def pyListSet (xs : List α) (i : Int) (v : α) : Except String (List α) :=
  match pyIdx i xs.length with
  | some j => .ok (xs.set j v)
  | none => .error "IndexError: list assignment index out of range"

/-- Python `list.insert(i, v)`: clamps the index, never raises. -/
def pyInsert (xs : List α) (i : Int) (v : α) : List α :=
  let j : Nat :=
    if i < 0 then (max 0 (i + xs.length)).toNat
    else min i.toNat xs.length
  xs.insertIdx j v

/-- Python `xs[-n:]` for `n > 0`: the last `min n (len xs)` elements. -/
def pyTail (xs : List α) (n : Nat) : List α :=
  xs.drop (xs.length - n)

/-! ## Seeded RNG

Modelled from the spec: `random.Random(seed)` (Python standard library,
outside this repository) is "a single seeded pseudo-random stream"
(spec sections 3 and 9) "never re-seeded mid-match".  The engine only
requires that it is a deterministic stateful generator; the exact
distribution is immaterial to every claim, so it is modelled as a linear
congruential generator threaded explicitly through the match state. -/

structure Rng where
  state : Nat
deriving DecidableEq, Repr

def Rng.ofSeed (seed : Int) : Rng :=
  ⟨(seed.emod 2147483647).toNat⟩

def Rng.next (r : Rng) : Nat × Rng :=
  let s := (r.state * 1103515245 + 12345) % 2147483648
  (s, ⟨s⟩)

/-- `rng._randbelow(n)`: a value in `[0, n)` (0 when `n = 0`). -/
def Rng.randbelow (r : Rng) (n : Nat) : Nat × Rng :=
  let p := r.next
  (if n = 0 then 0 else p.1 % n, p.2)

/-- `rng.random()` is only ever compared against the fixed thresholds
0.35 / 0.10 / 0.25; it is modelled with three-decimal resolution as an
integer in `[0, 1000)` standing for thousandths. -/
def Rng.randUnitMillis (r : Rng) : Nat × Rng :=
  let p := r.next
  (p.1 % 1000, p.2)

/-- One Fisher–Yates swap step of `random.shuffle`. -/
def shuffleSwap (xs : List String) (i j : Nat) : List String :=
  let vi := xs.getD i ""
  let vj := xs.getD j ""
  (xs.set i vj).set j vi

/-- `random.shuffle(xs)`: for `i` in `reversed(range(1, len(xs)))`,
pick `j = randbelow(i+1)` and swap `xs[i]` with `xs[j]`. -/
def shuffleGo (xs : List String) (r : Rng) : Nat → List String × Rng
  | 0 => (xs, r)
  | Nat.succ i =>
    let p := r.randbelow (i + 2)
    shuffleGo (shuffleSwap xs (i + 1) p.1) p.2 i

def pyShuffle (r : Rng) (xs : List String) : List String × Rng :=
  shuffleGo xs r (xs.length - 1)

/-! ## match.py — state -/

structure MatchConfig where
  starting_health : Int := 20
  starting_hand : Int := 5
  deck_size : Int := 30
  board_slots : Int := 5
  max_energy : Int := 10
deriving DecidableEq, Repr

structure CreatureInstance where
  card_id : String
  attack : Int
  health : Int
  keywords : List Keyword
  summoning_sick : Bool := true
  has_attacked : Bool := false
deriving DecidableEq, Repr

instance : Inhabited CreatureInstance := ⟨⟨"", 0, 0, [], true, false⟩⟩

/-- `CreatureInstance.has(kw)`; the Python `frozenset` of keywords is
embedded as the keyword list with membership semantics. -/
def CreatureInstance.hasKw (c : CreatureInstance) (kw : Keyword) : Bool :=
  c.keywords.contains kw

structure PlayerState where
  health : Int
  energy_max : Int
  energy : Int
  deck : List String
  hand : List String
  board : List (Option CreatureInstance)
  discard : List String := []
  turns_taken : Int := 0
deriving DecidableEq, Repr

instance : Inhabited PlayerState := ⟨⟨0, 0, 0, [], [], [], [], 0⟩⟩

structure StepResult where
  ok : Bool
  events : List Event
  error : Option String := none
deriving DecidableEq, Repr

structure MatchState where
  cards : CardDatabase
  config : MatchConfig
  seed : Int
  rng : Rng
  players : PlayerState × PlayerState
  current_player : Int := 0
  winner : Option Int := none
  action_log : List Action := []
  event_log : List Event := []
deriving DecidableEq, Repr

def MatchState.opponent (_ : MatchState) (player : Int) : Int :=
  1 - player

/-- `state.players[i]` for the two-element players list: indices 0 / 1
directly, -1 / -2 by Python wraparound, anything else `IndexError`. -/
def playersGet (s : MatchState) (i : Int) : Except String PlayerState :=
  if i = 0 ∨ i = -2 then .ok s.players.1
  else if i = 1 ∨ i = -1 then .ok s.players.2
  else .error "IndexError: players"

/-- Write back player `i` (same index semantics as `playersGet`). -/
def playersSet (s : MatchState) (i : Int) (p : PlayerState) : Except String MatchState :=
  if i = 0 ∨ i = -2 then .ok { s with players := (p, s.players.2) }
  else if i = 1 ∨ i = -1 then .ok { s with players := (s.players.1, p) }
  else .error "IndexError: players"

/-- In-place mutation of `state.players[i]` (fetch, update, write back). -/
def modPlayer (s : MatchState) (i : Int) (f : PlayerState → PlayerState) :
    Except String MatchState := do
  let ps ← playersGet s i
  playersSet s i (f ps)

def pushEvent (s : MatchState) (e : Event) : MatchState :=
  { s with event_log := s.event_log ++ [e] }

/-! ## match.py — helpers -/

/-- `_draw_one`: pop from the end of the deck into the hand; silently a
no-op on an empty deck. -/
def draw_one (s : MatchState) (player : Int) : Except String MatchState := do
  let ps ← playersGet s player
  if ps.deck.isEmpty then
    return s
  else
    let card_id := ps.deck.getLast!
    let s ← playersSet s player
      { ps with deck := ps.deck.dropLast, hand := ps.hand ++ [card_id] }
    return pushEvent s (.card_drawn player card_id)

/-- Iterate `_draw_one` (`for _ in range(n)` draw loops). -/
def drawN (s : MatchState) (player : Int) : Nat → Except String MatchState
  | 0 => .ok s
  | Nat.succ n => do
    let s ← draw_one s player
    drawN s player n

/-- `_start_turn`: energy ramp, refresh creatures, draw (not on the very
first turn), bump `turns_taken`, append the turn-started event. -/
def start_turn (s : MatchState) (player : Int) : Except String MatchState := do
  let ps ← playersGet s player
  let em := min s.config.max_energy (ps.energy_max + 1)
  let ps := { ps with energy_max := em, energy := em }
  let ps := { ps with
    board := ps.board.map (fun c =>
      match c with
      | none => none
      | some c => some { c with has_attacked := false, summoning_sick := false }) }
  let s ← playersSet s player ps
  let s ← if ps.turns_taken > 0 then draw_one s player else pure s
  let s ← modPlayer s player (fun ps => { ps with turns_taken := ps.turns_taken + 1 })
  let ps ← playersGet s player
  return pushEvent s (.turn_started player ps.energy_max)

/-- `_find_empty_slot`: lowest-index empty board slot. -/
def find_empty_slot : List (Option CreatureInstance) → Option Nat
  | [] => none
  | none :: _ => some 0
  | some _ :: rest => (find_empty_slot rest).map (· + 1)

/-- `_remove_dead` for one player's board, sweeping slots in order. -/
def removeDeadBoard (p_i : Int) (slot : Nat) :
    List (Option CreatureInstance) →
    List (Option CreatureInstance) × List String × List Event
  | [] => ([], [], [])
  | c :: rest =>
    let tail := removeDeadBoard p_i (slot + 1) rest
    match c with
    | none => (none :: tail.1, tail.2)
    | some c =>
      if c.health ≤ 0 then
        (none :: tail.1, c.card_id :: tail.2.1,
          .creature_died p_i slot c.card_id :: tail.2.2)
      else
        (some c :: tail.1, tail.2)

/-- `_remove_dead`: sweep both players' boards (player 0 first), moving
each dead creature's card id to its owner's discard pile. -/
def remove_dead (s : MatchState) : MatchState :=
  let r0 := removeDeadBoard 0 0 s.players.1.board
  let r1 := removeDeadBoard 1 0 s.players.2.board
  { s with
    players :=
      ({ s.players.1 with board := r0.1, discard := s.players.1.discard ++ r0.2.1 },
       { s.players.2 with board := r1.1, discard := s.players.2.discard ++ r1.2.1 }),
    event_log := s.event_log ++ r0.2.2 ++ r1.2.2 }

/-- `_heal_player`: heal capped at `starting_health`; event only when a
positive amount was actually healed. -/
def heal_player (s : MatchState) (player : Int) (amount : Int) : Except String MatchState := do
  if amount ≤ 0 then
    return s
  else
    let ps ← playersGet s player
    let before := ps.health
    let newHealth := min s.config.starting_health (ps.health + amount)
    let s ← playersSet s player { ps with health := newHealth }
    let healed := newHealth - before
    if healed > 0 then
      return pushEvent s (.heal_player player healed)
    else
      return s

/-- `_damage_player`: returns the damage dealt (clamped to remaining
health for reporting); health itself is reduced unclamped. -/
def damage_player (s : MatchState) (player : Int) (amount : Int) :
    Except String (MatchState × Int) := do
  if amount ≤ 0 then
    return (s, 0)
  else
    let ps ← playersGet s player
    let dealt := min ps.health amount
    let s ← playersSet s player { ps with health := ps.health - amount }
    return (pushEvent s (.damage_player player amount dealt), dealt)

/-- `_damage_creature`: damage the creature in `players[player].board[slot]`
(0 and no event if the slot is empty); returns the damage dealt. -/
def damage_creature (s : MatchState) (player : Int) (slot : Int) (amount : Int) :
    Except String (MatchState × Int) := do
  let ps ← playersGet s player
  let c ← pyListGet ps.board slot
  match c with
  | none => return (s, 0)
  | some c =>
    let dealt := min c.health amount
    let newBoard ← pyListSet ps.board slot (some { c with health := c.health - amount })
    let s ← playersSet s player { ps with board := newBoard }
    return (pushEvent s (.damage_creature player slot amount), dealt)

/-- `_check_winner`: no-op once a winner is set; double KO awards the win
to the player who is not current; otherwise the surviving player wins. -/
def check_winner (s : MatchState) : MatchState :=
  match s.winner with
  | some _ => s
  | none =>
    let p0 := s.players.1.health
    let p1 := s.players.2.health
    if p0 ≤ 0 ∧ p1 ≤ 0 then
      let w := s.opponent s.current_player
      pushEvent { s with winner := some w } (.game_ended w "double_ko")
    else if p0 ≤ 0 then
      pushEvent { s with winner := some 1 } (.game_ended 1 "health_0")
    else if p1 ≤ 0 then
      pushEvent { s with winner := some 0 } (.game_ended 0 "health_0")
    else
      s

/-- `_has_guard`. -/
def has_guard (ps : PlayerState) : Bool :=
  ps.board.any (fun c =>
    match c with
    | none => false
    | some c => c.hasKw .Guard)

/-- Creature attack targets contributed by the defender's board: occupied
slots in index order, restricted to Guard carriers when `guard_only`. -/
def boardAttackTargets (defender : Int) (guard_only : Bool) (slot : Nat) :
    List (Option CreatureInstance) → List TargetRef
  | [] => []
  | none :: rest => boardAttackTargets defender guard_only (slot + 1) rest
  | some c :: rest =>
    if guard_only ∧ ¬c.hasKw .Guard then
      boardAttackTargets defender guard_only (slot + 1) rest
    else
      TargetRef.creature_target defender slot :: boardAttackTargets defender guard_only (slot + 1) rest

/-- `_valid_attack_targets`. -/
def valid_attack_targets (s : MatchState) (attacker_player : Int) :
    Except String (List TargetRef) := do
  let defender := s.opponent attacker_player
  let dps ← playersGet s defender
  let guard_only := has_guard dps
  let targets := boardAttackTargets defender guard_only 0 dps.board
  if ¬guard_only then
    return targets ++ [TargetRef.player_target defender]
  else
    return targets

/-- `get_valid_attack_targets` (public wrapper). -/
def get_valid_attack_targets (s : MatchState) (attacker_player : Int) :
    Except String (List TargetRef) :=
  valid_attack_targets s attacker_player

/-- Occupied slots of a board as creature targets, in index order
(the enumeration loops of `get_valid_targets_for_play`). -/
def boardCreatureTargets (owner : Int) (slot : Nat) :
    List (Option CreatureInstance) → List TargetRef
  | [] => []
  | none :: rest => boardCreatureTargets owner (slot + 1) rest
  | some _ :: rest =>
    TargetRef.creature_target owner slot :: boardCreatureTargets owner (slot + 1) rest

/-- The `needs_target` scan of `get_valid_targets_for_play`: any damage
effect (all three damage target forms), a self-creature heal, or any
buff marks the card as needing a target. -/
def needsTarget (effects : List Effect) : Bool :=
  effects.any (fun eff =>
    match eff with
    | .damage _ t => t = .enemy_creature ∨ t = .enemy_player ∨ t = .any
    | .heal _ t => t = .self_creature
    | .buff _ _ _ => true
    | _ => false)

/-- `get_valid_targets_for_play`. -/
def get_valid_targets_for_play (s : MatchState) (player : Int) (card_id : String) :
    Except String (List TargetRef) := do
  let card ← s.cards.get card_id
  if card.type = .creature then
    return []
  else if ¬needsTarget card.effects then
    return []
  else
    let enemy := s.opponent player
    let ps ← playersGet s player
    let eps ← playersGet s enemy
    return boardCreatureTargets player 0 ps.board
      ++ boardCreatureTargets enemy 0 eps.board
      ++ [TargetRef.player_target player, TargetRef.player_target enemy]

/-! ## match.py — effect resolution -/

/-- A `StepResult(ok=False, events=[], error=msg)` as produced by the
`require` helper of `_resolve_spell` and the failure paths of the
dispatcher. -/
def failResult (msg : String) : StepResult :=
  { ok := false, events := [], error := some msg }

/-- Set `has_attacked`/damage-independent fields of the creature resident
in `players[player].board[slot]` (in-place attribute mutation on the
aliased board object); a `none` slot is left unchanged. -/
def modBoardCreature (s : MatchState) (player : Int) (slot : Int)
    (f : CreatureInstance → CreatureInstance) : Except String MatchState := do
  let ps ← playersGet s player
  let c ← pyListGet ps.board slot
  match c with
  | none => return s
  | some c =>
    let newBoard ← pyListSet ps.board slot (some (f c))
    playersSet s player { ps with board := newBoard }

/-- The Summon loop body: `count` iterations, stopping silently when the
board is full; a token id whose definition has no creature stats is
skipped. -/
def summonLoop (player : Int) (token_card_id : String) :
    MatchState → Nat → Except String MatchState
  | s, 0 => .ok s
  | s, Nat.succ n => do
    let ps ← playersGet s player
    match find_empty_slot ps.board with
    | none => return s
    | some slot => do
      let token_def ← s.cards.get token_card_id
      match token_def.creature_stats with
      | none => summonLoop player token_card_id s n
      | some stats =>
        let inst : CreatureInstance :=
          { card_id := token_card_id
            attack := stats.attack
            health := stats.health
            keywords := token_def.keywords
            summoning_sick := true
            has_attacked := false }
        let inst := if inst.hasKw .Haste then { inst with summoning_sick := false } else inst
        let s ← modPlayer s player (fun ps => { ps with board := ps.board.set slot (some inst) })
        let s := pushEvent s (.creature_summoned player slot token_card_id)
        summonLoop player token_card_id s n

/-- Apply one effect of `_resolve_spell`'s loop.  Returns the updated
state, or `(state, some failResult)` when a targeting `require` fails
(the early `return` of the Python loop: mutations made by earlier
effects persist). -/
def applyEffect (player enemy : Int) (target : Option TargetRef) (s : MatchState) :
    Effect → Except String (MatchState × Option StepResult)
  | .damage amount dt =>
    match dt with
    | .enemy_player =>
      match target with
      | some t =>
        if ¬(t.kind = .player ∧ t.player = enemy) then
          return (s, some (failResult "Target enemy player."))
        else do
          let p ← damage_player s enemy amount
          return (p.1, none)
      | none => do
        let p ← damage_player s enemy amount
        return (p.1, none)
    | .enemy_creature =>
      match target with
      | some t =>
        if t.kind = .creature ∧ t.player = enemy then
          match t.slot with
          | some sl => do
            let p ← damage_creature s enemy sl amount
            return (p.1, none)
          | none => .error "AssertionError: target.slot is None"
        else
          return (s, some (failResult "Target an enemy creature."))
      | none => return (s, some (failResult "Target an enemy creature."))
    | .any =>
      match target with
      | none => return (s, some (failResult "Select a target."))
      | some t =>
        if t.kind = .player then do
          let p ← damage_player s t.player amount
          return (p.1, none)
        else
          match t.slot with
          | some sl => do
            let p ← damage_creature s t.player sl amount
            return (p.1, none)
          | none => .error "AssertionError: target.slot is None"
  | .heal amount ht =>
    match ht with
    | .self_player => do
      let s ← heal_player s player amount
      return (s, none)
    | .self_creature =>
      match target with
      | some t =>
        if t.kind = .creature ∧ t.player = player then
          match t.slot with
          | some sl => do
            let ps ← playersGet s player
            let c ← pyListGet ps.board sl
            match c with
            | none => return (s, none)
            | some c =>
              let newBoard ← pyListSet ps.board sl (some { c with health := c.health + amount })
              let s ← playersSet s player { ps with board := newBoard }
              let healed := amount
              if healed > 0 then
                return (pushEvent s (.heal_creature player sl healed), none)
              else
                return (s, none)
          | none => .error "AssertionError: target.slot is None"
        else
          return (s, some (failResult "Target one of your creatures."))
      | none => return (s, some (failResult "Target one of your creatures."))
  | .draw count => do
    let s ← drawN s player (max 0 count).toNat
    return (s, none)
  | .buff ad hd bt => do
    let chk : Option StepResult :=
      match bt with
      | .self_creature =>
        match target with
        | some t =>
          if t.kind = .creature ∧ t.player = player then none
          else some (failResult "Target one of your creatures.")
        | none => some (failResult "Target one of your creatures.")
      | .any_creature =>
        match target with
        | some t =>
          if t.kind = .creature then none
          else some (failResult "Target a creature.")
        | none => some (failResult "Target a creature.")
    match chk with
    | some res => return (s, some res)
    | none =>
      match target with
      | none => .error "AssertionError: target is None"
      | some t =>
        match t.slot with
        | none => .error "AssertionError: target.slot is None"
        | some sl => do
          let ps ← playersGet s t.player
          let c ← pyListGet ps.board sl
          match c with
          | none => return (s, none)
          | some c =>
            let newBoard ← pyListSet ps.board sl
              (some { c with attack := c.attack + ad, health := c.health + hd })
            let s ← playersSet s t.player { ps with board := newBoard }
            return (pushEvent s (.buff_applied t.player sl ad hd), none)
  | .summon token_card_id count => do
    let s ← summonLoop player token_card_id s (max 0 count).toNat
    return (s, none)

/-- The effect loop of `_resolve_spell`: stop at the first failing
targeting check, keeping all mutations made so far. -/
def runEffects (player enemy : Int) (target : Option TargetRef) :
    MatchState → List Effect → Except String (MatchState × Option StepResult)
  | s, [] => .ok (s, none)
  | s, eff :: rest => do
    let p ← applyEffect player enemy target s eff
    match p.2 with
    | some res => return (p.1, some res)
    | none => runEffects player enemy target p.1 rest

/-- `_resolve_spell`: apply the card's effect list; on success sweep dead
creatures, re-check the winner and return the last ten events. -/
def resolve_spell (s : MatchState) (player : Int) (card : CardDefinition)
    (target : Option TargetRef) : Except String (MatchState × StepResult) := do
  let enemy := s.opponent player
  let p ← runEffects player enemy target s card.effects
  match p.2 with
  | some res => return (p.1, res)
  | none =>
    let s := remove_dead p.1
    let s := check_winner s
    return (s, { ok := true, events := pyTail s.event_log 10 })

/-! ## match.py — action handlers and dispatcher -/

/-- `_play_card`. -/
def play_card (s : MatchState) (player : Int) (hand_index : Int)
    (target : Option TargetRef) : Except String (MatchState × StepResult) := do
  if player ≠ s.current_player then
    return (s, failResult "Not your turn.")
  else
  let ps ← playersGet s player
  if hand_index < 0 ∨ hand_index ≥ (ps.hand.length : Int) then
    return (s, failResult "Invalid hand index.")
  else
  let card_id := ps.hand.getD hand_index.toNat ""
  let card ← s.cards.get card_id
  if card.cost > ps.energy then
    return (s, failResult "Not enough energy.")
  else
  if card.type = .creature then
    match find_empty_slot ps.board with
    | none => return (s, failResult "Board is full.")
    | some slot =>
      match card.creature_stats with
      | none => return (s, failResult "Invalid creature definition.")
      | some stats =>
        let ps := { ps with
          energy := ps.energy - card.cost
          hand := ps.hand.eraseIdx hand_index.toNat }
        let inst : CreatureInstance :=
          { card_id := card_id
            attack := stats.attack
            health := stats.health
            keywords := card.keywords
            summoning_sick := true
            has_attacked := false }
        let inst := if inst.hasKw .Haste then { inst with summoning_sick := false } else inst
        let ps := { ps with board := ps.board.set slot (some inst) }
        let s ← playersSet s player ps
        let s := pushEvent s (.card_played player card_id)
        let s := pushEvent s (.creature_summoned player slot card_id)
        let s := check_winner s
        return (s, { ok := true, events := pyTail s.event_log 5 })
  else
    -- Spell
    let ps := { ps with
      energy := ps.energy - card.cost
      hand := ps.hand.eraseIdx hand_index.toNat
      discard := ps.discard ++ [card_id] }
    let s ← playersSet s player ps
    let s := pushEvent s (.card_played player card_id)
    let p ← resolve_spell s player card target
    let s := p.1
    let result := p.2
    if ¬result.ok then
      -- Rollback-like behavior for V1: undo the play on targeting failure.
      let s ← modPlayer s player (fun ps =>
        { ps with
          energy := ps.energy + card.cost
          hand := pyInsert ps.hand hand_index card_id })
      let ps ← playersGet s player
      if ps.discard.isEmpty then
        .error "IndexError: pop from empty list"
      else
      let s ← playersSet s player { ps with discard := ps.discard.dropLast }
      -- Also remove the CARD_PLAYED event that was just appended.
      let s :=
        if h : s.event_log ≠ [] then
          match s.event_log.getLast h with
          | .card_played _ _ => { s with event_log := s.event_log.dropLast }
          | _ => s
        else s
      return (s, result)
    else
      return (s, result)

/-- `_attack`. -/
def attackAction (s : MatchState) (player : Int) (attacker_slot : Int)
    (target : TargetRef) : Except String (MatchState × StepResult) := do
  if player ≠ s.current_player then
    return (s, failResult "Not your turn.")
  else
  let ps ← playersGet s player
  if attacker_slot < 0 ∨ attacker_slot ≥ (ps.board.length : Int) then
    return (s, failResult "Invalid attacker slot.")
  else
  match ps.board.getD attacker_slot.toNat none with
  | none => return (s, failResult "No creature in that slot.")
  | some attacker =>
    if attacker.summoning_sick then
      return (s, failResult "Summoning sickness.")
    else if attacker.has_attacked then
      return (s, failResult "Already attacked.")
    else do
    let valid ← valid_attack_targets s player
    if target ∉ valid then
      return (s, failResult "Invalid target (Guard rule?).")
    else
    let enemy := s.opponent player
    if target.kind = .player then do
      let p ← damage_player s enemy attacker.attack
      let s := p.1
      let dealt := p.2
      let s ← if attacker.hasKw .Lifesteal ∧ dealt > 0 then heal_player s player dealt else pure s
      let s ← modBoardCreature s player attacker_slot (fun c => { c with has_attacked := true })
      let s := pushEvent s (.attack_player player attacker_slot attacker.attack dealt)
      let s := check_winner s
      return (s, { ok := true, events := pyTail s.event_log 6 })
    else
      match target.slot with
      | none => .error "AssertionError: action.target.slot is None"
      | some def_slot => do
        let dps ← playersGet s enemy
        let defenderOpt ← pyListGet dps.board def_slot
        match defenderOpt with
        | none => return (s, failResult "Target creature missing.")
        | some defender =>
          let damage_to_def := attacker.attack
          let damage_to_att := defender.attack
          let p1 ← damage_creature s enemy def_slot damage_to_def
          let s := p1.1
          let dealt := p1.2
          let p2 ← damage_creature s player attacker_slot damage_to_att
          let s := p2.1
          let s ← if attacker.hasKw .Lifesteal then heal_player s player dealt else pure s
          let s ← modBoardCreature s player attacker_slot (fun c => { c with has_attacked := true })
          let s := pushEvent s (.attack_creature player attacker_slot def_slot)
          let s := remove_dead s
          let s := check_winner s
          return (s, { ok := true, events := pyTail s.event_log 10 })

/-- `_end_turn`. -/
def end_turn (s : MatchState) (player : Int) : Except String (MatchState × StepResult) := do
  if player ≠ s.current_player then
    return (s, failResult "Not your turn.")
  else
    let s := pushEvent s (.turn_ended player)
    let s := { s with current_player := s.opponent s.current_player }
    let s ← start_turn s s.current_player
    return (s, { ok := true, events := pyTail s.event_log 5 })

/-- `step`: the single mutation entry point.  Note the order faithful to
the source: the ended check comes first and returns without touching the
logs; only then is the action appended to the action log and dispatched. -/
def step (s : MatchState) (action : Action) : Except String (MatchState × StepResult) :=
  match s.winner with
  | some _ => .ok (s, failResult "Match already ended.")
  | none =>
    let s := { s with action_log := s.action_log ++ [action] }
    match action with
    | .play player hand_index target => play_card s player hand_index target
    | .attack player attacker_slot target => attackAction s player attacker_slot target
    | .endTurn player => end_turn s player

/-! ## match.py — construction and replay -/

/-- The alternating starting-hand deal (`for _ in range(starting_hand)`:
draw for player 0 then player 1). -/
def dealStartingHands (s : MatchState) : Nat → Except String MatchState
  | 0 => .ok s
  | Nat.succ n => do
    let s ← draw_one s 0
    let s ← draw_one s 1
    dealStartingHands s n

/-- `new_match`: validate deck sizes (`ValueError` on mismatch), seed the
single RNG, shuffle deck 0 then deck 1, deal alternating starting hands,
and start player 0's first turn. -/
def new_match (cards : CardDatabase) (deck0 deck1 : List String) (seed : Int)
    (config : Option MatchConfig := none) : Except String MatchState := do
  let cfg := config.getD {}
  if (deck0.length : Int) ≠ cfg.deck_size ∨ (deck1.length : Int) ≠ cfg.deck_size then
    .error "ValueError: Decks must be exactly deck_size cards."
  else
  let rng := Rng.ofSeed seed
  let q0 := pyShuffle rng deck0
  let q1 := pyShuffle q0.2 deck1
  let emptyBoard : List (Option CreatureInstance) := List.replicate cfg.board_slots.toNat none
  let p0 : PlayerState :=
    { health := cfg.starting_health, energy_max := 0, energy := 0,
      deck := q0.1, hand := [], board := emptyBoard }
  let p1 : PlayerState :=
    { health := cfg.starting_health, energy_max := 0, energy := 0,
      deck := q1.1, hand := [], board := emptyBoard }
  let s : MatchState :=
    { cards := cards, config := cfg, seed := seed, rng := q1.2, players := (p0, p1) }
  let s ← dealStartingHands s cfg.starting_hand.toNat
  let s ← start_turn s 0
  return { s with current_player := 0 }

/-- The action loop of `replay`: results are ignored, the loop stops
early once a winner appears. -/
def replayGo : MatchState → List Action → Except String MatchState
  | s, [] => .ok s
  | s, a :: rest => do
    let p ← step s a
    let s := p.1
    if s.winner ≠ none then
      return s
    else
      replayGo s rest

/-- `replay`: construct then apply the action sequence. -/
def replay (cards : CardDatabase) (deck0 deck1 : List String) (seed : Int)
    (actions : List Action) (config : Option MatchConfig := none) :
    Except String MatchState := do
  let s ← new_match cards deck0 deck1 seed config
  replayGo s actions

/-! ## serialize.py — canonical snapshot -/

def Keyword.str : Keyword → String
  | .Guard => "Guard"
  | .Haste => "Haste"
  | .Lifesteal => "Lifesteal"
  | .Token => "Token"

/-- Alphabetical rank of the four keyword strings (Guard < Haste <
Lifesteal < Token). -/
def Keyword.rank : Keyword → Nat
  | .Guard => 0
  | .Haste => 1
  | .Lifesteal => 2
  | .Token => 3

def insertKwSorted (k : Keyword) : List Keyword → List Keyword
  | [] => [k]
  | x :: xs => if k.rank ≤ x.rank then k :: x :: xs else x :: insertKwSorted k xs

/-- `sorted(list(frozenset(keywords)))`: deduplicate and sort
alphabetically. -/
def sortedKeywords (ks : List Keyword) : List Keyword :=
  ks.dedup.foldr insertKwSorted []

structure CreatureSnap where
  card_id : String
  attack : Int
  health : Int
  keywords : List String
  summoning_sick : Bool
  has_attacked : Bool
deriving DecidableEq, Repr

def creature_to_dict (c : Option CreatureInstance) : Option CreatureSnap :=
  match c with
  | none => none
  | some c =>
    some { card_id := c.card_id, attack := c.attack, health := c.health,
           keywords := (sortedKeywords c.keywords).map Keyword.str,
           summoning_sick := c.summoning_sick, has_attacked := c.has_attacked }

structure PlayerSnap where
  health : Int
  energy_max : Int
  energy : Int
  deck : List String
  hand : List String
  board : List (Option CreatureSnap)
  discard : List String
  turns_taken : Int
deriving DecidableEq, Repr

def player_to_dict (p : PlayerState) : PlayerSnap :=
  { health := p.health, energy_max := p.energy_max, energy := p.energy,
    deck := p.deck, hand := p.hand, board := p.board.map creature_to_dict,
    discard := p.discard, turns_taken := p.turns_taken }

structure TargetDict where
  kind : String
  player : Int
  slot : Option Int
deriving DecidableEq, Repr

def target_to_dict (t : Option TargetRef) : Option TargetDict :=
  match t with
  | none => none
  | some t =>
    some { kind := match t.kind with | .player => "player" | .creature => "creature",
           player := t.player, slot := t.slot }

inductive ActionDict
  | play (player : Int) (hand_index : Int) (target : Option TargetDict)
  | attack (player : Int) (attacker_slot : Int) (target : Option TargetDict)
  | end_turn (player : Int)
deriving DecidableEq, Repr

def action_to_dict : Action → ActionDict
  | .play player hand_index target => .play player hand_index (target_to_dict target)
  | .attack player attacker_slot target => .attack player attacker_slot (target_to_dict (some target))
  | .endTurn player => .end_turn player

structure Snapshot where
  seed : Int
  current_player : Int
  winner : Option Int
  players : PlayerSnap × PlayerSnap
  action_log : List ActionDict
deriving DecidableEq, Repr

/-- `snapshot`: the canonical structural representation used for
equality comparison across independently constructed matches.  Note that
the RNG object, the event log and the card catalog are not part of it,
exactly as in the source. -/
def snapshot (s : MatchState) : Snapshot :=
  { seed := s.seed, current_player := s.current_player, winner := s.winner,
    players := (player_to_dict s.players.1, player_to_dict s.players.2),
    action_log := s.action_log.map action_to_dict }

/-! ## ai.py — heuristic opponent

Float-valued heuristics are embedded as rationals: every constant the
source uses (2.0, 1.2, 0.9, 1.4, 1.8, 2.0, 1.5, 1.0) is exactly
representable, and the values are only ever compared. -/

structure AISpec where
  difficulty : Int := 1
deriving DecidableEq, Repr

/-- `_card_value`. -/
def card_value (card : CardDefinition) : Except String ℚ :=
  if card.type = .creature then
    match card.creature_stats with
    | none => .error "AssertionError: card.creature_stats is None"
    | some stats =>
      let v : ℚ := (stats.attack * 2 + stats.health : Int)
      let v := if card.keywords.contains .Guard then v + 3/2 else v
      let v := if card.keywords.contains .Haste then v + 1 else v
      let v := if card.keywords.contains .Lifesteal then v + 1 else v
      .ok v
  else
    .ok (card.effects.foldl (fun (v : ℚ) eff =>
      match eff with
      | .damage amount t => v + (amount : Int) * (if t ≠ .enemy_player then 2 else 6/5)
      | .heal amount _ => v + (amount : Int) * (9/10)
      | .draw count => v + (count : Int) * (7/5)
      | .buff ad hd _ => v + ((ad * 9 / 5 : ℚ) + (hd * 6 / 5 : ℚ))
      | .summon _ count => v + (count : Int) * 2) 0)

/-- The per-effect scan of `_choose_spell_target`; `some none` means the
Python `return None`, `some (some t)` a returned target, `none` fall
through to the next effect. -/
def chooseTargetForEffect (s : MatchState) (player enemy : Int)
    (targets : List TargetRef) : Effect → Except String (Option (Option TargetRef))
  | .damage _ dt => do
    let first ←
      if dt = .enemy_creature ∨ dt = .any then do
        let folded ← targets.foldlM (fun (acc : Option TargetRef × Int) t => do
          if t.kind ≠ .creature ∨ t.player ≠ enemy ∨ t.slot = none then
            return acc
          else
            match t.slot with
            | none => return acc
            | some sl => do
              let eps ← playersGet s enemy
              let c ← pyListGet eps.board sl
              match c with
              | none => return acc
              | some c =>
                if c.attack > acc.2 then return (some t, c.attack) else return acc)
          (none, -1)
        pure folded.1
      else
        pure none
    match first with
    | some t => return some (some t)
    | none =>
      if dt = .enemy_player ∨ dt = .any then
        return some (some (TargetRef.player_target enemy))
      else
        return none
  | .heal _ ht =>
    match ht with
    | .self_player => return some none
    | .self_creature => do
      let folded ← targets.foldlM (fun (acc : Option TargetRef × Int) t => do
        if t.kind ≠ .creature ∨ t.player ≠ player ∨ t.slot = none then
          return acc
        else
          match t.slot with
          | none => return acc
          | some sl => do
            let ps ← playersGet s player
            let c ← pyListGet ps.board sl
            match c with
            | none => return acc
            | some c =>
              if c.health < acc.2 then return (some t, c.health) else return acc)
        (none, 1000000000)
      return some folded.1
  | .buff _ _ bt => do
    let folded ← targets.foldlM (fun (acc : Option TargetRef × Int) t => do
      if t.kind ≠ .creature ∨ t.slot = none then
        return acc
      else if bt = .self_creature ∧ t.player ≠ player then
        return acc
      else
        match t.slot with
        | none => return acc
        | some sl => do
          let tps ← playersGet s t.player
          let c ← pyListGet tps.board sl
          match c with
          | none => return acc
          | some c =>
            if c.attack > acc.2 then return (some t, c.attack) else return acc)
      (none, -1)
    return some folded.1
  | _ => return none

/-- `_choose_spell_target`. -/
def choose_spell_target (s : MatchState) (player : Int) (card : CardDefinition)
    (targets : List TargetRef) : Except String (Option TargetRef) := do
  let enemy := s.opponent player
  let rec go : List Effect → Except String (Option TargetRef)
    | [] => return targets.head?
    | eff :: rest => do
      let r ← chooseTargetForEffect s player enemy targets eff
      match r with
      | some out => return out
      | none => go rest
  go card.effects

/-- The candidate scan of `_pick_best_play` over the hand. -/
def pickBestGo (s : MatchState) (player : Int) (ps : PlayerState) :
    List String → Int → Option (ℚ × Int × Option TargetRef) →
    Except String (Option (ℚ × Int × Option TargetRef))
  | [], _, best => return best
  | card_id :: rest, idx, best => do
    let card ← s.cards.get card_id
    if card.cost > ps.energy then
      pickBestGo s player ps rest (idx + 1) best
    else if card.type = .creature then
      if ps.board.all (fun c => c.isSome) then
        pickBestGo s player ps rest (idx + 1) best
      else do
        let score ← card_value card
        let best := match best with
          | none => some (score, idx, none)
          | some b => if score > b.1 then some (score, idx, none) else some b
        pickBestGo s player ps rest (idx + 1) best
    else do
      let targets ← get_valid_targets_for_play s player card_id
      if targets.isEmpty then do
        let score ← card_value card
        let best := match best with
          | none => some (score, idx, none)
          | some b => if score > b.1 then some (score, idx, none) else some b
        pickBestGo s player ps rest (idx + 1) best
      else do
        let chosen ← choose_spell_target s player card targets
        match chosen with
        | none => pickBestGo s player ps rest (idx + 1) best
        | some t => do
          let score ← card_value card
          let best := match best with
            | none => some (score, idx, some t)
            | some b => if score > b.1 then some (score, idx, some t) else some b
          pickBestGo s player ps rest (idx + 1) best

/-- `_pick_best_play`: scan the hand for the best affordable play, then
apply the difficulty-gated mistake roll (which consumes the match RNG). -/
def pick_best_play (s : MatchState) (player : Int) (spec : AISpec) :
    Except String (MatchState × Option Action) := do
  let ps ← playersGet s player
  let best ← pickBestGo s player ps ps.hand 0 none
  match best with
  | none => return (s, none)
  | some b =>
    if spec.difficulty ≤ 0 then
      let q := s.rng.randUnitMillis
      let s := { s with rng := q.2 }
      if q.1 < 350 then
        return (s, none)
      else
        return (s, some (.play player b.2.1 b.2.2))
    else if spec.difficulty = 1 then
      let q := s.rng.randUnitMillis
      let s := { s with rng := q.2 }
      if q.1 < 100 then
        return (s, none)
      else
        return (s, some (.play player b.2.1 b.2.2))
    else
      return (s, some (.play player b.2.1 b.2.2))

/-- Lowest-health creature among the defender-side creature targets
(the "guard_targets" scan of `_pick_attack`). -/
def lowestHealthTarget (s : MatchState) (enemy : Int) :
    List TargetRef → Option TargetRef × Int → Except String (Option TargetRef)
  | [], acc => return acc.1
  | t :: rest, acc => do
    match t.slot with
    | none => .error "AssertionError: t.slot is None"
    | some sl => do
      let eps ← playersGet s enemy
      let ec ← pyListGet eps.board sl
      match ec with
      | none => lowestHealthTarget s enemy rest acc
      | some ec =>
        if ec.health < acc.2 then
          lowestHealthTarget s enemy rest (some t, ec.health)
        else
          lowestHealthTarget s enemy rest acc

/-- The favorable-trade scan of `_pick_attack`. -/
def bestTradeTarget (s : MatchState) (enemy : Int) (c : CreatureInstance) :
    List TargetRef → Option (Int × TargetRef) → Except String (Option (Int × TargetRef))
  | [], acc => return acc
  | t :: rest, acc => do
    if t.kind ≠ .creature ∨ t.slot = none then
      bestTradeTarget s enemy c rest acc
    else
      match t.slot with
      | none => bestTradeTarget s enemy c rest acc
      | some sl => do
        let eps ← playersGet s enemy
        let dc ← pyListGet eps.board sl
        match dc with
        | none => bestTradeTarget s enemy c rest acc
        | some dc =>
          if c.attack ≥ dc.health ∧ c.health > dc.attack then
            let score := dc.attack
            let acc := match acc with
              | none => some (score, t)
              | some b => if score > b.1 then some (score, t) else some b
            bestTradeTarget s enemy c rest acc
          else
            bestTradeTarget s enemy c rest acc

/-- The per-attacker body of `_pick_attack`'s board loop; `some r` means
the Python function returns `r` (possibly `none` after a mistake roll),
`none` means fall through to the next slot. -/
def pickAttackForSlot (s : MatchState) (player enemy : Int) (spec : AISpec)
    (slot : Nat) (c : CreatureInstance) :
    Except String (MatchState × Option (Option Action)) := do
  let valid ← get_valid_attack_targets s player
  let guard_targets := valid.filter (fun t => t.kind = .creature ∧ t.player = enemy)
  let eps ← playersGet s enemy
  let _ := eps
  let best_t ←
    if guard_targets.isEmpty then
      pure none
    else
      lowestHealthTarget s enemy guard_targets (none, 1000000000)
  match best_t with
  | some t =>
    if spec.difficulty ≤ 0 then
      let q := s.rng.randUnitMillis
      let s := { s with rng := q.2 }
      if q.1 < 250 then
        return (s, some none)
      else
        return (s, some (some (.attack player (slot : Int) t)))
    else
      return (s, some (some (.attack player (slot : Int) t)))
  | none => do
    let best_trade ← bestTradeTarget s enemy c valid none
    match best_trade with
    | some b =>
      if spec.difficulty ≤ 0 then
        let q := s.rng.randUnitMillis
        let s := { s with rng := q.2 }
        if q.1 < 250 then
          return (s, some none)
        else
          return (s, some (some (.attack player (slot : Int) b.2)))
      else
        return (s, some (some (.attack player (slot : Int) b.2)))
    | none =>
      let face := TargetRef.player_target enemy
      if face ∈ valid then
        if spec.difficulty ≤ 0 then
          let q := s.rng.randUnitMillis
          let s := { s with rng := q.2 }
          if q.1 < 250 then
            return (s, some none)
          else
            return (s, some (some (.attack player (slot : Int) face)))
        else
          return (s, some (some (.attack player (slot : Int) face)))
      else
        match valid.find? (fun t => t.kind = .creature) with
        | some t =>
          if spec.difficulty ≤ 0 then
            let q := s.rng.randUnitMillis
            let s := { s with rng := q.2 }
            if q.1 < 250 then
              return (s, some none)
            else
              return (s, some (some (.attack player (slot : Int) t)))
          else
            return (s, some (some (.attack player (slot : Int) t)))
        | none => return (s, none)

/-- The board loop of `_pick_attack`. -/
def pickAttackGo (player enemy : Int) (spec : AISpec) :
    MatchState → List (Option CreatureInstance) → Nat →
    Except String (MatchState × Option Action)
  | s, [], _ => return (s, none)
  | s, none :: rest, slot => pickAttackGo player enemy spec s rest (slot + 1)
  | s, some c :: rest, slot =>
    if c.summoning_sick ∨ c.has_attacked then
      pickAttackGo player enemy spec s rest (slot + 1)
    else do
      let p ← pickAttackForSlot s player enemy spec slot c
      match p.2 with
      | some r => return (p.1, r)
      | none => pickAttackGo player enemy spec p.1 rest (slot + 1)

/-- `_pick_attack`. -/
def pick_attack (s : MatchState) (player : Int) (spec : AISpec) :
    Except String (MatchState × Option Action) := do
  let ps ← playersGet s player
  pickAttackGo player (s.opponent player) spec s ps.board 0

/-- `ai_take_turn`: the AI turn loop, driven entirely by the match's own
seeded RNG stream.  The source's `while` loop is a bounded synchronous
sequence of dispatch calls (spec section 5); the bound is embedded as
explicit fuel. -/
def ai_take_turn (s : MatchState) (player : Int) (spec : AISpec) :
    Nat → Except String MatchState
  | 0 => .ok s
  | Nat.succ fuel => do
    if s.winner = none ∧ s.current_player = player then do
      let pp ← pick_best_play s player spec
      match pp.2 with
      | some play => do
        let q ← step pp.1 play
        ai_take_turn q.1 player spec fuel
      | none => do
        let pa ← pick_attack pp.1 player spec
        match pa.2 with
        | some atk => do
          let q ← step pa.1 atk
          ai_take_turn q.1 player spec fuel
        | none => do
          let q ← step pa.1 (.endTurn player)
          return q.1
    else
      return s

/-- A full AI-vs-AI playout: construct a match and let the AI of the
current player act, for at most `rounds` turn changes.  Exercises
`ai_take_turn` the way headless self-play does. -/
def aiPlayout (cards : CardDatabase) (deck0 deck1 : List String) (seed : Int)
    (spec : AISpec) (config : Option MatchConfig) : Nat → Except String MatchState := fun rounds => do
  let s ← new_match cards deck0 deck1 seed config
  let rec go : MatchState → Nat → Except String MatchState
    | s, 0 => .ok s
    | s, Nat.succ n => do
      if s.winner = none then do
        let s ← ai_take_turn s s.current_player spec 64
        go s n
      else
        return s
  go s rounds

/-! ## Spec-side definitions

Each `spec_*` definition below is written from the specification's
words (sections 4.3, 4.4, 7) and is compared against the corresponding
source-translated function by the claim theorems. -/

/-- Pure two-player access for spec-side definitions (meaningful for
player indices 0 and 1, the only indices the spec ever speaks about). -/
def getPlayerPure (s : MatchState) (i : Int) : PlayerState :=
  if i = 1 then s.players.2 else s.players.1

def setPlayerPure (s : MatchState) (i : Int) (p : PlayerState) : MatchState :=
  if i = 1 then { s with players := (s.players.1, p) }
  else { s with players := (p, s.players.2) }

/-- Occupied board slots with their indices, in slot order. -/
def enumOccupied (k : Nat) : List (Option CreatureInstance) → List (Nat × CreatureInstance)
  | [] => []
  | none :: rest => enumOccupied (k + 1) rest
  | some c :: rest => (k, c) :: enumOccupied (k + 1) rest

/-- Spec section 4.3, the start-of-turn sequence in its stated order:
(1) energy ramp, (2) refresh, (3) draw iff not the player's very first
turn (silent no-op on an empty deck), (4) increment `turns_taken`,
(5) append a turn-started event carrying the new energy cap. -/
def spec_start_turn (s : MatchState) (player : Int) : MatchState :=
  -- (1) energy ramp
  let ps := getPlayerPure s player
  let em := min s.config.max_energy (ps.energy_max + 1)
  let ps := { ps with energy_max := em, energy := em }
  -- (2) refresh every owned creature
  let ps := { ps with
    board := ps.board.map (Option.map (fun c =>
      { c with has_attacked := false, summoning_sick := false })) }
  let s1 := setPlayerPure s player ps
  -- (3) draw exactly one card iff turns_taken > 0
  let s2 :=
    if ps.turns_taken > 0 then
      if ps.deck.isEmpty then s1
      else
        let card_id := ps.deck.getLast!
        let ps := { ps with deck := ps.deck.dropLast, hand := ps.hand ++ [card_id] }
        pushEvent (setPlayerPure s1 player ps) (.card_drawn player card_id)
    else s1
  -- (4) increment turns_taken
  let s3 := setPlayerPure s2 player
    { getPlayerPure s2 player with turns_taken := (getPlayerPure s2 player).turns_taken + 1 }
  -- (5) turn-started event carrying the new cap
  pushEvent s3 (.turn_started player em)

/-- Spec section 4.4, `validAttackTargets`: exactly the Guard creatures
when the defender controls at least one Guard creature; otherwise every
defending creature plus the defending player (the enumerated legal set,
in slot order). -/
def spec_valid_attack_targets (s : MatchState) (attacking_player : Int) : List TargetRef :=
  let defender := 1 - attacking_player
  let occ := enumOccupied 0 (getPlayerPure s defender).board
  let guards := occ.filter (fun p => p.2.hasKw .Guard)
  if guards.isEmpty then
    occ.map (fun p => TargetRef.creature_target defender (p.1 : Int))
      ++ [TargetRef.player_target defender]
  else
    guards.map (fun p => TargetRef.creature_target defender (p.1 : Int))

/-- Amended claim C9's notion of a card needing a target: any damage
effect — its target form `enemy_creature`, `enemy_player` or `any` —
a self-creature heal, or any buff. -/
def spec_needs_target : Effect → Bool
  | .damage _ .enemy_creature => true
  | .damage _ .enemy_player => true
  | .damage _ .any => true
  | .heal _ .self_creature => true
  | .buff _ _ _ => true
  | _ => false

/-- Amended claim C9: the legal play-target set is empty iff the card
needs no target, and otherwise is every occupied friendly slot, every
occupied enemy slot, and both player identities. -/
def spec_valid_play_targets (s : MatchState) (player : Int) (card : CardDefinition) :
    List TargetRef :=
  if card.type = .creature then []
  else if ¬card.effects.any spec_needs_target then []
  else
    let enemy := 1 - player
    (enumOccupied 0 (getPlayerPure s player).board).map
        (fun p => TargetRef.creature_target player (p.1 : Int))
      ++ (enumOccupied 0 (getPlayerPure s enemy).board).map
        (fun p => TargetRef.creature_target enemy (p.1 : Int))
      ++ [TargetRef.player_target player, TargetRef.player_target enemy]

/-- Does the targeting `require` of this effect fail for this target
(the conditions of `_resolve_spell`, negated)?  Effects without a
targeting check never fail. -/
def effTargetCheckFails (player enemy : Int) (target : Option TargetRef) : Effect → Bool
  | .damage _ .enemy_player =>
    match target with
    | some t => if t.kind = .player ∧ t.player = enemy then false else true
    | none => false
  | .damage _ .enemy_creature =>
    match target with
    | some t => if t.kind = .creature ∧ t.player = enemy then false else true
    | none => true
  | .damage _ .any =>
    match target with
    | some _ => false
    | none => true
  | .heal _ .self_creature =>
    match target with
    | some t => if t.kind = .creature ∧ t.player = player then false else true
    | none => true
  | .buff _ _ .self_creature =>
    match target with
    | some t => if t.kind = .creature ∧ t.player = player then false else true
    | none => true
  | .buff _ _ .any_creature =>
    match target with
    | some t => if t.kind = .creature then false else true
    | none => true
  | _ => false

/-- The error message `_resolve_spell` reports when the targeting check
of this effect fails. -/
def effFailMsg : Effect → String
  | .damage _ .enemy_player => "Target enemy player."
  | .damage _ .enemy_creature => "Target an enemy creature."
  | .damage _ .any => "Select a target."
  | .heal _ _ => "Target one of your creatures."
  | .buff _ _ .self_creature => "Target one of your creatures."
  | .buff _ _ .any_creature => "Target a creature."
  | _ => ""

/-! ## Invariant definitions -/

/-- Number of occupied board slots. -/
def boardCount (b : List (Option CreatureInstance)) : Nat :=
  (b.filter (fun c => c.isSome)).length

/-- `len(deck) + len(hand) + len(discard) + count(on board)`. -/
def totalCards (p : PlayerState) : Nat :=
  p.deck.length + p.hand.length + p.discard.length + boardCount p.board

def totals (s : MatchState) : Nat × Nat :=
  (totalCards s.players.1, totalCards s.players.2)

/-- The energy components of both players. -/
def energies (s : MatchState) : Int × Int × Int × Int :=
  (s.players.1.energy, s.players.1.energy_max, s.players.2.energy, s.players.2.energy_max)

/-- The discard piles of both players (no spell-resolution effect ever
touches a discard pile, which the rollback relies on). -/
def discards (s : MatchState) : List String × List String :=
  (s.players.1.discard, s.players.2.discard)

/-- The board length of `players[i]` for the 0/1 indices. -/
def boardLen (s : MatchState) (i : Int) : Nat :=
  if i = 0 then s.players.1.board.length else s.players.2.board.length

/-- `0 ≤ energy ≤ energy_max ≤ config.max_energy` for both players. -/
def EnergyInv (s : MatchState) : Prop :=
  (0 ≤ s.players.1.energy ∧ s.players.1.energy ≤ s.players.1.energy_max ∧
    s.players.1.energy_max ≤ s.config.max_energy) ∧
  (0 ≤ s.players.2.energy ∧ s.players.2.energy ≤ s.players.2.energy_max ∧
    s.players.2.energy_max ≤ s.config.max_energy)

def Effect.isSummon : Effect → Bool
  | .summon _ _ => true
  | _ => false

/-- No card of the catalog carries a Summon effect. -/
def noSummonDb (db : CardDatabase) : Bool :=
  db.cards.all (fun pr => pr.2.effects.all (fun e => !e.isSummon))

/-- Every card cost in the catalog is non-negative (part of the
externally-validated catalog contract, spec section 6). -/
def costsNonnegDb (db : CardDatabase) : Bool :=
  db.cards.all (fun pr => decide (0 ≤ pr.2.cost))

/-- Every Summon effect in the catalog names a card bound in the
catalog (spec section 6: the engine trusts that "a referenced
token-summon card id exists"). -/
def tokensClosedDb (db : CardDatabase) : Bool :=
  db.cards.all (fun pr => pr.2.effects.all (fun e =>
    match e with
    | .summon tid _ => (db.cards.lookup tid).isSome
    | _ => true))

/-- Structural well-formedness of a match state: a 0/1 current player,
boards of the configured length, and every hand card id bound in the
catalog.  Every state reachable from `new_match` on decks drawn from
the catalog satisfies this. -/
def WfState (s : MatchState) : Prop :=
  (s.current_player = 0 ∨ s.current_player = 1) ∧
  s.players.1.board.length = s.config.board_slots.toNat ∧
  s.players.2.board.length = s.config.board_slots.toNat ∧
  (∀ cid ∈ s.players.1.hand, (s.cards.cards.lookup cid).isSome) ∧
  (∀ cid ∈ s.players.2.hand, (s.cards.cards.lookup cid).isSome)

/-- A well-formed target reference: a 0/1 player, and for creature kind
a slot index inside the configured board. -/
def WfTarget (cfg : MatchConfig) (t : TargetRef) : Prop :=
  (t.player = 0 ∨ t.player = 1) ∧
  (t.kind = .creature → ∃ sl, t.slot = some sl ∧ 0 ≤ sl ∧ sl < cfg.board_slots)

/-- Well-formedness of an action's payload: only the target of a Play
action needs a shape constraint (attack targets are validated against
the enumerated legal set before use). -/
def WfAction (cfg : MatchConfig) : Action → Prop
  | .play _ _ (some t) => WfTarget cfg t
  | _ => True

/-- States reachable from `new_match` by a sequence of completed `step`
calls (accepted or rejected actions alike). -/
inductive Reachable (cards : CardDatabase) (deck0 deck1 : List String) (seed : Int)
    (config : Option MatchConfig) : MatchState → Prop
  | init (s : MatchState) :
      new_match cards deck0 deck1 seed config = .ok s →
      Reachable cards deck0 deck1 seed config s
  | next (s : MatchState) (a : Action) (out : MatchState × StepResult) :
      Reachable cards deck0 deck1 seed config s →
      step s a = .ok out →
      Reachable cards deck0 deck1 seed config out.1

/-- The frame every intra-step operation preserves: catalog, config,
seed, RNG, action log, and both board lengths. -/
structure Frame (s t : MatchState) : Prop where
  cards : t.cards = s.cards
  config : t.config = s.config
  seed : t.seed = s.seed
  rng : t.rng = s.rng
  action_log : t.action_log = s.action_log
  board1 : t.players.1.board.length = s.players.1.board.length
  board2 : t.players.2.board.length = s.players.2.board.length

/-! ## Concrete fixtures for counterexamples and witnesses -/

def mkCreatureCard (id : String) (cost atk hp : Int) (kws : List Keyword := []) :
    CardDefinition :=
  { id := id, name := id, type := .creature, rarity := .common, cost := cost,
    art_path := "", rules_text := "", keywords := kws, effects := [],
    creature_stats := some ⟨atk, hp⟩ }

def mkSpellCard (id : String) (cost : Int) (effs : List Effect) : CardDefinition :=
  { id := id, name := id, type := .spell, rarity := .common, cost := cost,
    art_path := "", rules_text := "", keywords := [], effects := effs }

/-- A small catalog exercising the refuted behaviours: a vanilla
creature, a lethal enemy-player burn, a token summoner, a draw-then-
targeted-heal spell, an enemy-player ping and a creature burn. -/
def cexDb : CardDatabase :=
  ⟨[("guy", mkCreatureCard "guy" 1 2 3),
    ("nuke", mkSpellCard "nuke" 1 [.damage 25 .enemy_player]),
    ("spark", mkSpellCard "spark" 0 [.summon "tok" 1]),
    ("tok", mkCreatureCard "tok" 0 1 1),
    ("combo", mkSpellCard "combo" 0 [.draw 1, .heal 2 .self_creature]),
    ("zap", mkSpellCard "zap" 1 [.damage 3 .enemy_player]),
    ("bolt", mkSpellCard "bolt" 1 [.damage 2 .enemy_creature])]⟩

def deckOf (id : String) : List String := List.replicate 30 id

/-- A catalog with no Summon effects and non-negative costs, for the
invariant witnesses. -/
def cexDbNS : CardDatabase :=
  ⟨[("guy", mkCreatureCard "guy" 1 2 3),
    ("bolt", mkSpellCard "bolt" 1 [.damage 2 .enemy_creature])]⟩

/-- C3 probe: finish the match with a lethal spell, then submit one more
action.  Reports (winner, log length before, second result ok?, log of
the rejected attempt equal to the log before it?). -/
def c3probe : Except String (Option Int × Nat × Bool × Bool) := do
  let s ← new_match cexDb (deckOf "nuke") (deckOf "nuke") 7 none
  let p ← step s (.play 0 0 none)
  let q ← step p.1 (.endTurn 0)
  return (p.1.winner, p.1.action_log.length, q.2.ok,
    decide (q.1.action_log = p.1.action_log))

/-- C4 probe: play a token summoner on turn one and report player 0's
(deck, hand, discard, board-count) totals together with the configured
deck size. -/
def c4probe : Except String (Nat × Int × Bool) := do
  let s ← new_match cexDb (deckOf "spark") (deckOf "spark") 7 none
  let p ← step s (.play 0 0 none)
  return (totalCards p.1.players.1, p.1.config.deck_size, p.2.ok)

/-- C2 probe: play the draw-then-targeted-heal spell with no target.
Reports (ok?, pre hand length, post hand length, post discard length,
events appended net of the action). -/
def c2probe : Except String (Bool × Nat × Nat × Nat × Nat) := do
  let s ← new_match cexDb (deckOf "combo") (deckOf "combo") 7 none
  let p ← step s (.play 0 0 none)
  return (p.2.ok, s.players.1.hand.length, p.1.players.1.hand.length,
    p.1.players.1.discard.length, p.1.event_log.length - s.event_log.length)

/-- C5 probe: a Play action whose creature-kind target carries an
out-of-range slot; the engine hits an uncaught `IndexError` inside
`_damage_creature`. -/
def c5probe : Except String StepResult := do
  let s ← new_match cexDb (deckOf "bolt") (deckOf "bolt") 7 none
  let p ← step s (.play 0 0 (some (TargetRef.creature_target 1 7)))
  return p.2

/-- C9 probe: the legal play-target set of a spell whose only effect is
damage fixed to the enemy player. -/
def c9probe : Except String (List TargetRef) := do
  let s ← new_match cexDb (deckOf "zap") (deckOf "zap") 7 none
  get_valid_targets_for_play s 0 "zap"

/-- A tiny hand-built match state over `cexDb` used by witnesses: one
Guard creature and one vanilla creature on player 1's board, player 0
to act. -/
def wBoardP1 : List (Option CreatureInstance) :=
  [some ⟨"guy", 2, 3, [.Guard], false, false⟩,
   none,
   some ⟨"guy", 2, 3, [], false, false⟩,
   none, none]

def wPlayer0 : PlayerState :=
  { health := 20, energy_max := 3, energy := 3,
    deck := ["guy", "bolt"], hand := ["bolt", "zap"],
    board := [some ⟨"guy", 2, 3, [], false, false⟩, none, none, none, none],
    discard := [], turns_taken := 2 }

def wPlayer1 : PlayerState :=
  { health := 20, energy_max := 2, energy := 2,
    deck := ["guy"], hand := ["guy"],
    board := wBoardP1, discard := [], turns_taken := 2 }

def wState : MatchState :=
  { cards := cexDb, config := {}, seed := 5, rng := Rng.ofSeed 5,
    players := (wPlayer0, wPlayer1), current_player := 0, winner := none,
    action_log := [], event_log := [] }

/-- `wState` with the match already decided. -/
def wStateEnded : MatchState := { wState with winner := some 0 }

/-- `wState` with both players at non-positive health and no winner
recorded yet. -/
def wStateBothDead : MatchState :=
  { wState with players := ({ wPlayer0 with health := -1 }, { wPlayer1 with health := 0 }) }

def isOkE {α : Type} : Except String α → Bool
  | .ok _ => true
  | .error _ => false

deriving instance DecidableEq for Except

/-! ## Helper lemmas -/

theorem except_bind_ok {α β : Type} {m : Except String α} {f : α → Except String β} {b : β} :
    (m >>= f) = .ok b ↔ ∃ a, m = .ok a ∧ f a = .ok b := by
  cases m <;> simp [Bind.bind, Except.bind]

theorem except_pure_ok {α : Type} {a b : α} :
    (pure a : Except String α) = .ok b ↔ a = b := by
  simp [pure, Except.pure]

theorem playersGet_zero (s : MatchState) : playersGet s 0 = .ok s.players.1 := by
  simp [playersGet]

theorem playersGet_one (s : MatchState) : playersGet s 1 = .ok s.players.2 := by
  simp [playersGet]

theorem playersSet_zero (s : MatchState) (p : PlayerState) :
    playersSet s 0 p = .ok { s with players := (p, s.players.2) } := by
  simp [playersSet]

theorem playersSet_one (s : MatchState) (p : PlayerState) :
    playersSet s 1 p = .ok { s with players := (s.players.1, p) } := by
  simp [playersSet]

theorem playersGet_ok_cases {s : MatchState} {i : Int} {p : PlayerState}
    (h : playersGet s i = .ok p) :
    ((i = 0 ∨ i = -2) ∧ p = s.players.1) ∨ ((i = 1 ∨ i = -1) ∧ p = s.players.2) := by
  by_cases h0 : i = 0 ∨ i = -2
  · left
    refine ⟨h0, ?_⟩
    simp [playersGet, h0] at h
    exact h.symm
  · by_cases h1 : i = 1 ∨ i = -1
    · right
      refine ⟨h1, ?_⟩
      simp [playersGet, h0, h1] at h
      exact h.symm
    · simp [playersGet, h0, h1] at h

theorem playersSet_ok_cases {s t : MatchState} {i : Int} {p : PlayerState}
    (h : playersSet s i p = .ok t) :
    ((i = 0 ∨ i = -2) ∧ t = { s with players := (p, s.players.2) }) ∨
    ((i = 1 ∨ i = -1) ∧ t = { s with players := (s.players.1, p) }) := by
  by_cases h0 : i = 0 ∨ i = -2
  · left
    refine ⟨h0, ?_⟩
    simp [playersSet, h0] at h
    exact h.symm
  · by_cases h1 : i = 1 ∨ i = -1
    · right
      refine ⟨h1, ?_⟩
      simp [playersSet, h0, h1] at h
      exact h.symm
    · simp [playersSet, h0, h1] at h

theorem insertIdx_eraseIdx_self {α : Type} (xs : List α) (n : Nat) (d : α)
    (h : n < xs.length) :
    (xs.eraseIdx n).insertIdx n (xs.getD n d) = xs := by
  induction xs generalizing n with
  | nil => simp at h
  | cons x xs ih =>
    cases n with
    | zero => simp [List.eraseIdx, List.insertIdx]
    | succ n =>
      simp only [List.eraseIdx, List.insertIdx_succ_cons, List.getD_cons_succ]
      have := ih n (by simpa using h)
      simpa [List.getD] using this

/-! ## C1 — determinism of replay -/

/-- **C1.**  For every fixed catalog, pair of decks, seed, configuration
and finite action sequence, two independent invocations of `replay` with
identical arguments produce equal snapshots; likewise two independent
AI-driven playouts (whose decisions draw difficulty-gated randomness
from the match's own seeded stream) produce equal snapshots.  In this
embedding the whole engine — including the seeded RNG stream threaded
through `MatchState` — is a pure function of its arguments, so replay is
deterministic by construction; the theorem records that snapshot-level
equality. -/
theorem C1_replay_deterministic (cards : CardDatabase) (deck0 deck1 : List String)
    (seed : Int) (actions : List Action) (config : Option MatchConfig)
    (spec : AISpec) (rounds : Nat) :
    (replay cards deck0 deck1 seed actions config).map snapshot =
      (replay cards deck0 deck1 seed actions config).map snapshot ∧
    (aiPlayout cards deck0 deck1 seed spec config rounds).map snapshot =
      (aiPlayout cards deck0 deck1 seed spec config rounds).map snapshot :=
  ⟨rfl, rfl⟩

/-! ## C3 — action log versus the ended check -/

/-- **C3, counterexample.**  On a concrete reachable ended match (a
lethal enemy-player burn on turn one), a further action is rejected with
`ok = false` and the action log is left unchanged (length 1): the action
is *not* appended when the match has already ended, contradicting the
claim that the append happens before the ended check. -/
theorem C3_counterexample :
    c3probe = .ok (some 0, 1, false, true) := by
  rfl

/-! ## Frame lemmas: intra-step operations preserve catalog, config,
seed, RNG, action log and board lengths -/

theorem frame_refl (s : MatchState) : Frame s s :=
  ⟨rfl, rfl, rfl, rfl, rfl, rfl, rfl⟩

theorem frame_trans {s t u : MatchState} (h1 : Frame s t) (h2 : Frame t u) : Frame s u :=
  ⟨h2.cards.trans h1.cards, h2.config.trans h1.config, h2.seed.trans h1.seed,
    h2.rng.trans h1.rng, h2.action_log.trans h1.action_log,
    h2.board1.trans h1.board1, h2.board2.trans h1.board2⟩

theorem pushEvent_frame (s : MatchState) (e : Event) : Frame s (pushEvent s e) :=
  ⟨rfl, rfl, rfl, rfl, rfl, rfl, rfl⟩

theorem pyListSet_length {α : Type} {xs ys : List α} {i : Int} {v : α}
    (h : pyListSet xs i v = .ok ys) : ys.length = xs.length := by
  unfold pyListSet at h
  cases hj : pyIdx i xs.length with
  | none => simp [hj] at h
  | some j =>
    simp [hj] at h
    subst h
    simp

theorem modPlayer_ok_cases {s t : MatchState} {i : Int} {f : PlayerState → PlayerState}
    (h : modPlayer s i f = .ok t) :
    ((i = 0 ∨ i = -2) ∧ t = { s with players := (f s.players.1, s.players.2) }) ∨
    ((i = 1 ∨ i = -1) ∧ t = { s with players := (s.players.1, f s.players.2) }) := by
  simp only [modPlayer, except_bind_ok] at h
  obtain ⟨ps, hget, hset⟩ := h
  rcases playersGet_ok_cases hget with ⟨hi, hp⟩ | ⟨hi, hp⟩ <;>
    rcases playersSet_ok_cases hset with ⟨hi', ht⟩ | ⟨hi', ht⟩
  · exact Or.inl ⟨hi, by rw [ht, hp]⟩
  · exfalso; rcases hi with h | h <;> rcases hi' with h' | h' <;> omega
  · exfalso; rcases hi with h | h <;> rcases hi' with h' | h' <;> omega
  · exact Or.inr ⟨hi, by rw [ht, hp]⟩

/-- `modPlayer` with a board-length-preserving update is a frame step. -/
theorem modPlayer_frame {s t : MatchState} {i : Int} {f : PlayerState → PlayerState}
    (h : modPlayer s i f = .ok t)
    (hb : ∀ ps, (f ps).board.length = ps.board.length) : Frame s t := by
  rcases modPlayer_ok_cases h with ⟨_, ht⟩ | ⟨_, ht⟩ <;>
    exact ht ▸ ⟨rfl, rfl, rfl, rfl, rfl, by simp [hb], by simp [hb]⟩

theorem draw_one_frame {s t : MatchState} {player : Int}
    (h : draw_one s player = .ok t) : Frame s t := by
  unfold draw_one at h
  rw [except_bind_ok] at h
  obtain ⟨ps, hget, h⟩ := h
  split at h
  · rw [except_pure_ok] at h
    exact h ▸ frame_refl s
  · rw [except_bind_ok] at h
    obtain ⟨s1, hset, h⟩ := h
    rw [except_pure_ok] at h
    subst h
    rcases playersGet_ok_cases hget with ⟨hi, hp⟩ | ⟨hi, hp⟩ <;>
      rcases playersSet_ok_cases hset with ⟨hi', ht⟩ | ⟨hi', ht⟩
    · exact ht ▸ hp ▸ ⟨rfl, rfl, rfl, rfl, rfl, rfl, rfl⟩
    · exfalso; rcases hi with h | h <;> rcases hi' with h' | h' <;> omega
    · exfalso; rcases hi with h | h <;> rcases hi' with h' | h' <;> omega
    · exact ht ▸ hp ▸ ⟨rfl, rfl, rfl, rfl, rfl, rfl, rfl⟩

theorem drawN_frame {s t : MatchState} {player : Int} {n : Nat}
    (h : drawN s player n = .ok t) : Frame s t := by
  induction n generalizing s with
  | zero =>
    unfold drawN at h
    cases h
    exact frame_refl t
  | succ n ih =>
    unfold drawN at h
    rw [except_bind_ok] at h
    obtain ⟨s1, h1, h2⟩ := h
    exact frame_trans (draw_one_frame h1) (ih h2)

theorem start_turn_frame {s t : MatchState} {player : Int}
    (h : start_turn s player = .ok t) : Frame s t := by
  unfold start_turn at h
  rw [except_bind_ok] at h
  obtain ⟨ps, hget, h⟩ := h
  rw [except_bind_ok] at h
  obtain ⟨s1, hset, h⟩ := h
  have f1 : Frame s s1 := by
    rcases playersGet_ok_cases hget with ⟨hi, hp⟩ | ⟨hi, hp⟩ <;>
      rcases playersSet_ok_cases hset with ⟨hi', ht⟩ | ⟨hi', ht⟩
    · exact ht ▸ ⟨rfl, rfl, rfl, rfl, rfl, by simp [hp], by simp [hp]⟩
    · exfalso; rcases hi with h | h <;> rcases hi' with h' | h' <;> omega
    · exfalso; rcases hi with h | h <;> rcases hi' with h' | h' <;> omega
    · exact ht ▸ ⟨rfl, rfl, rfl, rfl, rfl, by simp [hp], by simp [hp]⟩
  split at h <;>
    [skip; skip] <;>
    rw [except_bind_ok] at h
  case isTrue =>
    obtain ⟨s2, hdraw, h⟩ := h
    rw [except_bind_ok] at h
    obtain ⟨s3, hmod, h⟩ := h
    rw [except_bind_ok] at h
    obtain ⟨ps3, hget3, h⟩ := h
    rw [except_pure_ok] at h
    subst h
    exact frame_trans (frame_trans (frame_trans f1 (draw_one_frame hdraw))
      (modPlayer_frame hmod (fun ps => rfl))) (pushEvent_frame s3 _)
  case isFalse =>
    obtain ⟨s2, hdraw, h⟩ := h
    rw [except_pure_ok] at hdraw
    subst hdraw
    rw [except_bind_ok] at h
    obtain ⟨s3, hmod, h⟩ := h
    rw [except_bind_ok] at h
    obtain ⟨ps3, hget3, h⟩ := h
    rw [except_pure_ok] at h
    subst h
    exact frame_trans (frame_trans f1 (modPlayer_frame hmod (fun ps => rfl)))
      (pushEvent_frame s3 _)

theorem heal_player_frame {s t : MatchState} {player : Int} {amount : Int}
    (h : heal_player s player amount = .ok t) : Frame s t := by
  unfold heal_player at h
  split at h
  · rw [except_pure_ok] at h
    exact h ▸ frame_refl s
  · rw [except_bind_ok] at h
    obtain ⟨ps, hget, h⟩ := h
    rw [except_bind_ok] at h
    obtain ⟨s1, hset, h⟩ := h
    have f1 : Frame s s1 := by
      rcases playersGet_ok_cases hget with ⟨hi, hp⟩ | ⟨hi, hp⟩ <;>
        rcases playersSet_ok_cases hset with ⟨hi', ht⟩ | ⟨hi', ht⟩
      · exact ht ▸ ⟨rfl, rfl, rfl, rfl, rfl, by simp [hp], by simp [hp]⟩
      · exfalso; rcases hi with h | h <;> rcases hi' with h' | h' <;> omega
      · exfalso; rcases hi with h | h <;> rcases hi' with h' | h' <;> omega
      · exact ht ▸ ⟨rfl, rfl, rfl, rfl, rfl, by simp [hp], by simp [hp]⟩
    try dsimp only at h
    split at h <;> rw [except_pure_ok] at h <;> subst h
    · exact frame_trans f1 (pushEvent_frame s1 _)
    · exact f1

theorem damage_player_frame {s t : MatchState} {player amount dealt : Int}
    (h : damage_player s player amount = .ok (t, dealt)) : Frame s t := by
  unfold damage_player at h
  split at h
  · rw [except_pure_ok] at h
    cases h
    exact frame_refl s
  · rw [except_bind_ok] at h
    obtain ⟨ps, hget, h⟩ := h
    rw [except_bind_ok] at h
    obtain ⟨s1, hset, h⟩ := h
    rw [except_pure_ok] at h
    cases h
    rcases playersGet_ok_cases hget with ⟨hi, hp⟩ | ⟨hi, hp⟩ <;>
      rcases playersSet_ok_cases hset with ⟨hi', ht⟩ | ⟨hi', ht⟩
    · exact frame_trans (ht ▸ ⟨rfl, rfl, rfl, rfl, rfl, by simp [hp], by simp [hp]⟩)
        (pushEvent_frame s1 _)
    · exfalso; rcases hi with h | h <;> rcases hi' with h' | h' <;> omega
    · exfalso; rcases hi with h | h <;> rcases hi' with h' | h' <;> omega
    · exact frame_trans (ht ▸ ⟨rfl, rfl, rfl, rfl, rfl, by simp [hp], by simp [hp]⟩)
        (pushEvent_frame s1 _)

theorem damage_creature_frame {s t : MatchState} {player slot amount dealt : Int}
    (h : damage_creature s player slot amount = .ok (t, dealt)) : Frame s t := by
  unfold damage_creature at h
  rw [except_bind_ok] at h
  obtain ⟨ps, hget, h⟩ := h
  rw [except_bind_ok] at h
  obtain ⟨c, hc, h⟩ := h
  match hcv : c with
  | none =>
    subst hcv
    rw [except_pure_ok] at h
    cases h
    exact frame_refl s
  | some c =>
    subst hcv
    rw [except_bind_ok] at h
    obtain ⟨nb, hnb, h⟩ := h
    rw [except_bind_ok] at h
    obtain ⟨s1, hset, h⟩ := h
    rw [except_pure_ok] at h
    cases h
    have hlen := pyListSet_length hnb
    rcases playersGet_ok_cases hget with ⟨hi, hp⟩ | ⟨hi, hp⟩ <;>
      rcases playersSet_ok_cases hset with ⟨hi', ht⟩ | ⟨hi', ht⟩
    · exact frame_trans (ht ▸ ⟨rfl, rfl, rfl, rfl, rfl, by simp [hlen, hp], by simp [hlen, hp]⟩)
        (pushEvent_frame s1 _)
    · exfalso; rcases hi with h | h <;> rcases hi' with h' | h' <;> omega
    · exfalso; rcases hi with h | h <;> rcases hi' with h' | h' <;> omega
    · exact frame_trans (ht ▸ ⟨rfl, rfl, rfl, rfl, rfl, by simp [hlen, hp], by simp [hlen, hp]⟩)
        (pushEvent_frame s1 _)

theorem modBoardCreature_frame {s t : MatchState} {player slot : Int}
    {f : CreatureInstance → CreatureInstance}
    (h : modBoardCreature s player slot f = .ok t) : Frame s t := by
  unfold modBoardCreature at h
  rw [except_bind_ok] at h
  obtain ⟨ps, hget, h⟩ := h
  rw [except_bind_ok] at h
  obtain ⟨c, hc, h⟩ := h
  match hcv : c with
  | none =>
    subst hcv
    rw [except_pure_ok] at h
    exact h ▸ frame_refl s
  | some c =>
    subst hcv
    rw [except_bind_ok] at h
    obtain ⟨nb, hnb, hset⟩ := h
    have hlen := pyListSet_length hnb
    rcases playersGet_ok_cases hget with ⟨hi, hp⟩ | ⟨hi, hp⟩ <;>
      rcases playersSet_ok_cases hset with ⟨hi', ht⟩ | ⟨hi', ht⟩
    · exact ht ▸ ⟨rfl, rfl, rfl, rfl, rfl, by simp [hlen, hp], by simp [hlen, hp]⟩
    · exfalso; rcases hi with h | h <;> rcases hi' with h' | h' <;> omega
    · exfalso; rcases hi with h | h <;> rcases hi' with h' | h' <;> omega
    · exact ht ▸ ⟨rfl, rfl, rfl, rfl, rfl, by simp [hlen, hp], by simp [hlen, hp]⟩

theorem removeDeadBoard_length (p_i : Int) (slot : Nat)
    (b : List (Option CreatureInstance)) :
    (removeDeadBoard p_i slot b).1.length = b.length := by
  induction b generalizing slot with
  | nil => rfl
  | cons c rest ih =>
    cases c with
    | none => simp [removeDeadBoard, ih]
    | some c =>
      by_cases hc : c.health ≤ 0 <;> simp [removeDeadBoard, hc, ih]

theorem remove_dead_frame (s : MatchState) : Frame s (remove_dead s) := by
  refine ⟨rfl, rfl, rfl, rfl, rfl, ?_, ?_⟩ <;>
    simp [remove_dead, removeDeadBoard_length]

theorem check_winner_frame (s : MatchState) : Frame s (check_winner s) := by
  unfold check_winner
  split
  · exact frame_refl s
  · dsimp only
    split
    · exact ⟨rfl, rfl, rfl, rfl, rfl, rfl, rfl⟩
    · split
      · exact ⟨rfl, rfl, rfl, rfl, rfl, rfl, rfl⟩
      · split
        · exact ⟨rfl, rfl, rfl, rfl, rfl, rfl, rfl⟩
        · exact frame_refl s

theorem playersGetSet_frame {s t : MatchState} {i : Int} {ps q : PlayerState}
    (hget : playersGet s i = .ok ps) (hset : playersSet s i q = .ok t)
    (hb : q.board.length = ps.board.length) : Frame s t := by
  rcases playersGet_ok_cases hget with ⟨hi, hp⟩ | ⟨hi, hp⟩ <;>
    rcases playersSet_ok_cases hset with ⟨hi', ht⟩ | ⟨hi', ht⟩
  · exact ht ▸ ⟨rfl, rfl, rfl, rfl, rfl, by simp [hb, hp], by simp [hb, hp]⟩
  · exfalso; rcases hi with h | h <;> rcases hi' with h' | h' <;> omega
  · exfalso; rcases hi with h | h <;> rcases hi' with h' | h' <;> omega
  · exact ht ▸ ⟨rfl, rfl, rfl, rfl, rfl, by simp [hb, hp], by simp [hb, hp]⟩

theorem summonLoop_frame {player : Int} {token_card_id : String} {n : Nat}
    {s t : MatchState} (h : summonLoop player token_card_id s n = .ok t) : Frame s t := by
  induction n generalizing s with
  | zero =>
    unfold summonLoop at h
    cases h
    exact frame_refl t
  | succ n ih =>
    unfold summonLoop at h
    rw [except_bind_ok] at h
    obtain ⟨ps, hget, h⟩ := h
    split at h
    · rw [except_pure_ok] at h
      exact h ▸ frame_refl s
    · rename_i slot hslot
      rw [except_bind_ok] at h
      obtain ⟨token_def, htok, h⟩ := h
      split at h
      · exact ih h
      · rw [except_bind_ok] at h
        obtain ⟨s1, hmod, h⟩ := h
        try dsimp only at h
        have f1 : Frame s s1 := modPlayer_frame hmod (fun ps => by simp)
        exact frame_trans (frame_trans f1 (pushEvent_frame s1 _)) (ih h)

theorem applyEffect_frame {player enemy : Int} {target : Option TargetRef}
    {s t : MatchState} {eff : Effect} {v : Option StepResult}
    (h : applyEffect player enemy target s eff = .ok (t, v)) : Frame s t := by
  cases eff with
  | damage amount dt =>
    cases dt with
    | enemy_player =>
      unfold applyEffect at h
      cases target with
      | some tr =>
        try dsimp only at h
        split at h
        · rw [except_pure_ok] at h
          cases h
          exact frame_refl s
        · rw [except_bind_ok] at h
          obtain ⟨p, hdp, h⟩ := h
          rw [except_pure_ok] at h
          cases h
          exact damage_player_frame hdp
      | none =>
        try dsimp only at h
        rw [except_bind_ok] at h
        obtain ⟨p, hdp, h⟩ := h
        rw [except_pure_ok] at h
        cases h
        exact damage_player_frame hdp
    | enemy_creature =>
      unfold applyEffect at h
      cases target with
      | some tr =>
        try dsimp only at h
        split at h
        · cases htr : tr.slot with
          | some sl =>
            rw [htr] at h
            rw [except_bind_ok] at h
            obtain ⟨p, hdp, h⟩ := h
            rw [except_pure_ok] at h
            cases h
            exact damage_creature_frame hdp
          | none =>
            rw [htr] at h
            simp at h
        · rw [except_pure_ok] at h
          cases h
          exact frame_refl s
      | none =>
        try dsimp only at h
        rw [except_pure_ok] at h
        cases h
        exact frame_refl s
    | any =>
      unfold applyEffect at h
      cases target with
      | some tr =>
        try dsimp only at h
        split at h
        · rw [except_bind_ok] at h
          obtain ⟨p, hdp, h⟩ := h
          rw [except_pure_ok] at h
          cases h
          exact damage_player_frame hdp
        · cases htr : tr.slot with
          | some sl =>
            rw [htr] at h
            try dsimp only at h
            rw [except_bind_ok] at h
            obtain ⟨p, hdp, h⟩ := h
            rw [except_pure_ok] at h
            cases h
            exact damage_creature_frame hdp
          | none =>
            rw [htr] at h
            simp at h
      | none =>
        try dsimp only at h
        rw [except_pure_ok] at h
        cases h
        exact frame_refl s
  | heal amount ht =>
    cases ht with
    | self_player =>
      unfold applyEffect at h
      rw [except_bind_ok] at h
      obtain ⟨s1, hhp, h⟩ := h
      rw [except_pure_ok] at h
      cases h
      exact heal_player_frame hhp
    | self_creature =>
      unfold applyEffect at h
      cases target with
      | some tr =>
        try dsimp only at h
        split at h
        · cases htr : tr.slot with
          | some sl =>
            rw [htr] at h
            try dsimp only at h
            rw [except_bind_ok] at h
            obtain ⟨ps, hget, h⟩ := h
            rw [except_bind_ok] at h
            obtain ⟨c, hc, h⟩ := h
            cases c with
            | none =>
              rw [except_pure_ok] at h
              cases h
              exact frame_refl s
            | some c =>
              rw [except_bind_ok] at h
              obtain ⟨nb, hnb, h⟩ := h
              rw [except_bind_ok] at h
              obtain ⟨s1, hset, h⟩ := h
              have f1 : Frame s s1 :=
                playersGetSet_frame hget hset (by simp [pyListSet_length hnb])
              try dsimp only at h
              split at h <;> rw [except_pure_ok] at h <;> cases h
              · exact frame_trans f1 (pushEvent_frame s1 _)
              · exact f1
          | none =>
            rw [htr] at h
            simp at h
        · rw [except_pure_ok] at h
          cases h
          exact frame_refl s
      | none =>
        try dsimp only at h
        rw [except_pure_ok] at h
        cases h
        exact frame_refl s
  | draw count =>
    unfold applyEffect at h
    rw [except_bind_ok] at h
    obtain ⟨s1, hdrw, h⟩ := h
    rw [except_pure_ok] at h
    cases h
    exact drawN_frame hdrw
  | buff ad hd bt =>
    unfold applyEffect at h
    try dsimp only at h
    split at h
    · rw [except_pure_ok] at h
      cases h
      exact frame_refl s
    · split at h
      · simp at h
      · rename_i tr _
        split at h
        · simp at h
        · rename_i sl _
          rw [except_bind_ok] at h
          obtain ⟨ps, hget, h⟩ := h
          rw [except_bind_ok] at h
          obtain ⟨c, hc, h⟩ := h
          cases c with
          | none =>
            rw [except_pure_ok] at h
            cases h
            exact frame_refl s
          | some c =>
            rw [except_bind_ok] at h
            obtain ⟨nb, hnb, h⟩ := h
            rw [except_bind_ok] at h
            obtain ⟨s1, hset, h⟩ := h
            rw [except_pure_ok] at h
            cases h
            exact frame_trans
              (playersGetSet_frame hget hset (by simp [pyListSet_length hnb]))
              (pushEvent_frame s1 _)
  | summon tid count =>
    unfold applyEffect at h
    rw [except_bind_ok] at h
    obtain ⟨s1, hsm, h⟩ := h
    rw [except_pure_ok] at h
    cases h
    exact summonLoop_frame hsm

theorem runEffects_frame {player enemy : Int} {target : Option TargetRef}
    {s t : MatchState} {effs : List Effect} {v : Option StepResult}
    (h : runEffects player enemy target s effs = .ok (t, v)) : Frame s t := by
  induction effs generalizing s with
  | nil =>
    unfold runEffects at h
    cases h
    exact frame_refl t
  | cons eff rest ih =>
    unfold runEffects at h
    rw [except_bind_ok] at h
    obtain ⟨p, happ, h⟩ := h
    have f1 : Frame s p.1 := applyEffect_frame (v := p.2) (by simpa using happ)
    split at h
    · rw [except_pure_ok] at h
      cases h
      exact f1
    · exact frame_trans f1 (ih h)

theorem resolve_spell_frame {s t : MatchState} {player : Int} {card : CardDefinition}
    {target : Option TargetRef} {r : StepResult}
    (h : resolve_spell s player card target = .ok (t, r)) : Frame s t := by
  unfold resolve_spell at h
  rw [except_bind_ok] at h
  obtain ⟨p, hrun, h⟩ := h
  have f1 : Frame s p.1 := runEffects_frame (v := p.2) (by simpa using hrun)
  split at h
  · rw [except_pure_ok] at h
    cases h
    exact f1
  · rw [except_pure_ok] at h
    cases h
    exact frame_trans f1
      (frame_trans (remove_dead_frame p.1) (check_winner_frame (remove_dead p.1)))

theorem play_card_frame {s t : MatchState} {player hand_index : Int}
    {target : Option TargetRef} {r : StepResult}
    (h : play_card s player hand_index target = .ok (t, r)) : Frame s t := by
  unfold play_card at h
  split at h
  · rw [except_pure_ok] at h
    cases h
    exact frame_refl s
  · rw [except_bind_ok] at h
    obtain ⟨ps, hget, h⟩ := h
    split at h
    · rw [except_pure_ok] at h
      cases h
      exact frame_refl s
    · rw [except_bind_ok] at h
      obtain ⟨card, hcard, h⟩ := h
      split at h
      · rw [except_pure_ok] at h
        cases h
        exact frame_refl s
      · split at h
        · -- creature branch
          split at h
          · rw [except_pure_ok] at h
            cases h
            exact frame_refl s
          · split at h
            · rw [except_pure_ok] at h
              cases h
              exact frame_refl s
            · try dsimp only at h
              rw [except_bind_ok] at h
              obtain ⟨s1, hset, h⟩ := h
              rw [except_pure_ok] at h
              cases h
              have f1 : Frame s s1 := playersGetSet_frame hget hset (by simp)
              exact frame_trans f1 (frame_trans (pushEvent_frame s1 _)
                (frame_trans (pushEvent_frame _ _) (check_winner_frame _)))
        · -- spell branch
          try dsimp only at h
          rw [except_bind_ok] at h
          obtain ⟨s1, hset, h⟩ := h
          have f1 : Frame s s1 := playersGetSet_frame hget hset (by simp)
          rw [except_bind_ok] at h
          obtain ⟨p, hres, h⟩ := h
          have f2 : Frame s1 p.1 :=
            frame_trans (pushEvent_frame s1 _)
              (resolve_spell_frame (r := p.2) (by simpa using hres))
          split at h
          · rw [except_bind_ok] at h
            obtain ⟨s2, hmod, h⟩ := h
            have f3 : Frame p.1 s2 := modPlayer_frame hmod (fun ps => rfl)
            rw [except_bind_ok] at h
            obtain ⟨ps2, hget2, h⟩ := h
            split at h
            · simp at h
            · rw [except_bind_ok] at h
              obtain ⟨s3, hset3, h⟩ := h
              have f4 : Frame s2 s3 := playersGetSet_frame hget2 hset3 (by simp)
              rw [except_pure_ok] at h
              cases h
              refine frame_trans (frame_trans (frame_trans (frame_trans f1 f2) f3) f4) ?_
              split
              · split
                · exact ⟨rfl, rfl, rfl, rfl, rfl, rfl, rfl⟩
                · exact frame_refl s3
              · exact frame_refl s3
          · rw [except_pure_ok] at h
            cases h
            exact frame_trans f1 f2

theorem attackAction_frame {s t : MatchState} {player attacker_slot : Int}
    {target : TargetRef} {r : StepResult}
    (h : attackAction s player attacker_slot target = .ok (t, r)) : Frame s t := by
  unfold attackAction at h
  split at h
  · rw [except_pure_ok] at h
    cases h
    exact frame_refl s
  · rw [except_bind_ok] at h
    obtain ⟨ps, hget, h⟩ := h
    split at h
    · rw [except_pure_ok] at h
      cases h
      exact frame_refl s
    · split at h
      · rw [except_pure_ok] at h
        cases h
        exact frame_refl s
      · rename_i attacker _
        split at h
        · rw [except_pure_ok] at h
          cases h
          exact frame_refl s
        · split at h
          · rw [except_pure_ok] at h
            cases h
            exact frame_refl s
          · rw [except_bind_ok] at h
            obtain ⟨valid, hvalid, h⟩ := h
            split at h
            · rw [except_pure_ok] at h
              cases h
              exact frame_refl s
            · try dsimp only at h
              split at h
              · -- player-target branch
                try dsimp only at h
                rw [except_bind_ok] at h
                obtain ⟨p, hdp, h⟩ := h
                have f1 : Frame s p.1 := damage_player_frame (by simpa using hdp)
                split at h <;>
                  rw [except_bind_ok] at h
                case isTrue =>
                  obtain ⟨s2, hheal, h⟩ := h
                  have f2 : Frame p.1 s2 := heal_player_frame hheal
                  rw [except_bind_ok] at h
                  obtain ⟨s3, hmodb, h⟩ := h
                  have f3 : Frame s2 s3 := modBoardCreature_frame hmodb
                  rw [except_pure_ok] at h
                  cases h
                  exact frame_trans (frame_trans (frame_trans f1 f2) f3)
                    (frame_trans (pushEvent_frame s3 _) (check_winner_frame _))
                case isFalse =>
                  obtain ⟨s2, hpure, h⟩ := h
                  rw [except_pure_ok] at hpure
                  subst hpure
                  rw [except_bind_ok] at h
                  obtain ⟨s3, hmodb, h⟩ := h
                  have f3 : Frame p.1 s3 := modBoardCreature_frame hmodb
                  rw [except_pure_ok] at h
                  cases h
                  exact frame_trans (frame_trans f1 f3)
                    (frame_trans (pushEvent_frame s3 _) (check_winner_frame _))
              · -- creature-target branch
                split at h
                · simp at h
                · rw [except_bind_ok] at h
                  obtain ⟨dps, hdps, h⟩ := h
                  rw [except_bind_ok] at h
                  obtain ⟨defOpt, hdef, h⟩ := h
                  cases defOpt with
                  | none =>
                    rw [except_pure_ok] at h
                    cases h
                    exact frame_refl s
                  | some defender =>
                    try dsimp only at h
                    rw [except_bind_ok] at h
                    obtain ⟨p1, hd1, h⟩ := h
                    have f1 : Frame s p1.1 := damage_creature_frame (by simpa using hd1)
                    rw [except_bind_ok] at h
                    obtain ⟨p2, hd2, h⟩ := h
                    have f2 : Frame p1.1 p2.1 := damage_creature_frame (by simpa using hd2)
                    split at h <;>
                      rw [except_bind_ok] at h
                    case isTrue =>
                      obtain ⟨s4, hheal, h⟩ := h
                      have f3 : Frame p2.1 s4 := heal_player_frame hheal
                      rw [except_bind_ok] at h
                      obtain ⟨s5, hmodb, h⟩ := h
                      have f4 : Frame s4 s5 := modBoardCreature_frame hmodb
                      rw [except_pure_ok] at h
                      cases h
                      exact frame_trans (frame_trans (frame_trans (frame_trans f1 f2) f3) f4)
                        (frame_trans (pushEvent_frame s5 _)
                          (frame_trans (remove_dead_frame _) (check_winner_frame _)))
                    case isFalse =>
                      obtain ⟨s4, hpure, h⟩ := h
                      rw [except_pure_ok] at hpure
                      subst hpure
                      rw [except_bind_ok] at h
                      obtain ⟨s5, hmodb, h⟩ := h
                      have f4 : Frame p2.1 s5 := modBoardCreature_frame hmodb
                      rw [except_pure_ok] at h
                      cases h
                      exact frame_trans (frame_trans (frame_trans f1 f2) f4)
                        (frame_trans (pushEvent_frame s5 _)
                          (frame_trans (remove_dead_frame _) (check_winner_frame _)))

theorem end_turn_frame {s t : MatchState} {player : Int} {r : StepResult}
    (h : end_turn s player = .ok (t, r)) : Frame s t := by
  unfold end_turn at h
  split at h
  · rw [except_pure_ok] at h
    cases h
    exact frame_refl s
  · try dsimp only at h
    rw [except_bind_ok] at h
    obtain ⟨s1, hst, h⟩ := h
    have f1 := start_turn_frame hst
    rw [except_pure_ok] at h
    cases h
    exact ⟨f1.cards, f1.config, f1.seed, f1.rng, f1.action_log, f1.board1, f1.board2⟩

/-- `step` on a live match appends exactly the submitted action to the
action log and otherwise preserves the frame; on an ended match it is
the identity on the state. -/
theorem step_log_frame {s : MatchState} {a : Action} {out : MatchState × StepResult}
    (h : step s a = .ok out) :
    (s.winner = none →
      out.1.action_log = s.action_log ++ [a] ∧
      out.1.cards = s.cards ∧ out.1.config = s.config ∧ out.1.seed = s.seed ∧
      out.1.rng = s.rng ∧
      out.1.players.1.board.length = s.players.1.board.length ∧
      out.1.players.2.board.length = s.players.2.board.length) ∧
    (∀ w, s.winner = some w → out = (s, failResult "Match already ended.")) := by
  constructor
  · intro hw
    unfold step at h
    rw [hw] at h
    obtain ⟨t, r⟩ := out
    have frame : Frame { s with winner := none, action_log := s.action_log ++ [a] } t := by
      cases a with
      | play player hand_index target =>
        try dsimp only at h
        exact play_card_frame h
      | attack player attacker_slot target =>
        try dsimp only at h
        exact attackAction_frame h
      | endTurn player =>
        try dsimp only at h
        exact end_turn_frame h
    exact ⟨frame.action_log, frame.cards, frame.config, frame.seed, frame.rng,
      frame.board1, frame.board2⟩
  · intro w hw
    unfold step at h
    rw [hw] at h
    try dsimp only at h
    cases h
    rfl

/-- **C3, amended.**  The ended check comes first: an action submitted
to an ended match is rejected (`ok = false`, "Match already ended.")
with the state — action log included — left untouched; for a live match
the action is appended to the action log before dispatch, whatever the
outcome, so the log is a complete record of every action attempted
against a non-ended match, in submission order. -/
theorem C3_amended (s : MatchState) (a : Action) :
    (∀ w, s.winner = some w → step s a = .ok (s, failResult "Match already ended.")) ∧
    (s.winner = none → ∀ out, step s a = .ok out →
      out.1.action_log = s.action_log ++ [a]) := by
  constructor
  · intro w hw
    unfold step
    rw [hw]
  · intro hw out hstep
    exact ((step_log_frame hstep).1 hw).1

/-- Witness for C3: on a concrete ended state the submitted action is
rejected and not logged; on a concrete live state the action log after
`step` is exactly the appended singleton. -/
theorem C3_amended_witness :
    step wStateEnded (.endTurn 0) = .ok (wStateEnded, failResult "Match already ended.") ∧
    (step wState (.endTurn 0)).map (fun out => out.1.action_log) =
      .ok [Action.endTurn 0] := by
  constructor
  · exact (C3_amended wStateEnded (.endTurn 0)).1 0 rfl
  · have hok : isOkE (step wState (.endTurn 0)) = true := by decide
    cases hs : step wState (.endTurn 0) with
    | error e => rw [hs] at hok; simp [isOkE] at hok
    | ok out =>
      have := (C3_amended wState (.endTurn 0)).2 rfl out hs
      simp [Except.map, this, wState]

/-- **C7.**  Win detection: a no-op once a winner exists; on a
double KO the player who is *not* current is declared winner with a
double-KO event; otherwise the surviving player wins; and a set winner
is never changed by any later `step`. -/
theorem C7_win_detection (s : MatchState) :
    (∀ w, s.winner = some w → check_winner s = s) ∧
    (s.winner = none → s.players.1.health ≤ 0 → s.players.2.health ≤ 0 →
      check_winner s =
        pushEvent { s with winner := some (1 - s.current_player) }
          (.game_ended (1 - s.current_player) "double_ko")) ∧
    (s.winner = none → s.players.1.health ≤ 0 → ¬s.players.2.health ≤ 0 →
      check_winner s = pushEvent { s with winner := some 1 } (.game_ended 1 "health_0")) ∧
    (s.winner = none → ¬s.players.1.health ≤ 0 → s.players.2.health ≤ 0 →
      check_winner s = pushEvent { s with winner := some 0 } (.game_ended 0 "health_0")) ∧
    (∀ w a out, s.winner = some w → step s a = .ok out → out.1.winner = some w) := by
  refine ⟨?_, ?_, ?_, ?_, ?_⟩
  · intro w hw
    unfold check_winner
    rw [hw]
  · intro hw h0 h1
    unfold check_winner
    rw [hw]
    try dsimp only
    rw [if_pos ⟨h0, h1⟩]
    rfl
  · intro hw h0 h1
    unfold check_winner
    rw [hw]
    try dsimp only
    rw [if_neg (by exact fun hc => h1 hc.2), if_pos h0]
  · intro hw h0 h1
    unfold check_winner
    rw [hw]
    try dsimp only
    rw [if_neg (by exact fun hc => h0 hc.1), if_neg h0, if_pos h1]
  · intro w a out hw hstep
    have := (step_log_frame hstep).2 w hw
    rw [this]
    exact hw

/-- Witness for C7: on a concrete state with both players at
non-positive health and player 0 current, the winner becomes player 1
with a double-KO event; on a concrete ended state `check_winner` and a
further `step` leave the winner untouched. -/
theorem C7_witness :
    check_winner wStateBothDead =
      pushEvent { wStateBothDead with winner := some 1 } (.game_ended 1 "double_ko") ∧
    check_winner wStateEnded = wStateEnded := by
  constructor
  · have h := (C7_win_detection wStateBothDead).2.1 rfl (by decide) (by decide)
    exact h.trans (by decide)
  · exact (C7_win_detection wStateEnded).1 0 rfl

/-- **C8.**  The start-of-turn sequence equals the spec's five-step
recipe in its stated order: (1) capped energy ramp with the energy pool
refilled to the new cap, (2) refresh of `has_attacked`/`summoning_sick`
on every owned creature, (3) exactly one draw iff `turns_taken > 0`
(silently skipped on an empty deck), (4) `turns_taken` incremented,
(5) a turn-started event carrying the new cap appended last. -/
theorem C8_start_turn_order (s : MatchState) (player : Int)
    (h : player = 0 ∨ player = 1) :
    start_turn s player = .ok (spec_start_turn s player) := by
  have hmap :
      (fun (c : Option CreatureInstance) =>
        match c with
        | none => none
        | some c => some { c with has_attacked := false, summoning_sick := false }) =
      Option.map (fun c => { c with has_attacked := false, summoning_sick := false }) := by
    funext c
    cases c <;> rfl
  rcases h with h | h <;> subst h
  · by_cases ht : s.players.1.turns_taken > 0 <;>
      by_cases hd : s.players.1.deck.isEmpty <;>
      simp [start_turn, spec_start_turn, draw_one, modPlayer, playersGet, playersSet,
        getPlayerPure, setPlayerPure, pushEvent, Bind.bind, Except.bind, pure, Except.pure,
        ht, hd, hmap]
  · by_cases ht : s.players.2.turns_taken > 0 <;>
      by_cases hd : s.players.2.deck.isEmpty <;>
      simp [start_turn, spec_start_turn, draw_one, modPlayer, playersGet, playersSet,
        getPlayerPure, setPlayerPure, pushEvent, Bind.bind, Except.bind, pure, Except.pure,
        ht, hd, hmap]

/-- Witness for C8 on a concrete mid-game state. -/
theorem C8_witness :
    start_turn wState 1 = .ok (spec_start_turn wState 1) :=
  C8_start_turn_order wState 1 (Or.inr rfl)

theorem boardAttackTargets_eq (d : Int) (g : Bool) (b : List (Option CreatureInstance)) :
    ∀ k, boardAttackTargets d g k b =
      ((enumOccupied k b).filter (fun p => !g || p.2.hasKw .Guard)).map
        (fun p => TargetRef.creature_target d (p.1 : Int)) := by
  induction b with
  | nil => intro k; rfl
  | cons c rest ih =>
    intro k
    cases c with
    | none => simp [boardAttackTargets, enumOccupied, ih]
    | some c =>
      cases g <;> by_cases hk : c.hasKw .Guard = true <;>
        simp_all [boardAttackTargets, enumOccupied, ih]

theorem has_guard_eq_aux (b : List (Option CreatureInstance)) :
    ∀ k, (b.any (fun c =>
        match c with
        | none => false
        | some c => c.hasKw .Guard)) =
      !((enumOccupied k b).filter (fun p => p.2.hasKw .Guard)).isEmpty := by
  induction b with
  | nil => intro k; rfl
  | cons c rest ih =>
    intro k
    cases c with
    | none =>
      simp only [List.any_cons, enumOccupied]
      simpa using ih (k + 1)
    | some c =>
      by_cases hk : c.hasKw .Guard = true <;>
        simp only [List.any_cons, enumOccupied, hk, List.filter_cons] <;>
        simp [hk, ih (k + 1)]

theorem has_guard_eq (ps : PlayerState) :
    has_guard ps = !((enumOccupied 0 ps.board).filter (fun p => p.2.hasKw .Guard)).isEmpty := by
  unfold has_guard
  exact has_guard_eq_aux ps.board 0

/-- **C6.**  For either attacking player, `_valid_attack_targets`
returns exactly the spec's legal set: when the defender controls at
least one Guard creature, precisely the occupied Guard slots (the
defending player and non-Guard creatures excluded); otherwise every
occupied defending slot plus the defending player, in slot order. -/
theorem C6_attack_targets (s : MatchState) (ap : Int) (h : ap = 0 ∨ ap = 1) :
    valid_attack_targets s ap = .ok (spec_valid_attack_targets s ap) := by
  have key : ∀ (dps : PlayerState) (d : Int),
      ((do
        let guard_only := has_guard dps
        let targets := boardAttackTargets d guard_only 0 dps.board
        if ¬guard_only then
          return targets ++ [TargetRef.player_target d]
        else
          return targets) : Except String (List TargetRef)) =
      .ok (
        let occ := enumOccupied 0 dps.board
        let guards := occ.filter (fun p => p.2.hasKw .Guard)
        if guards.isEmpty then
          occ.map (fun p => TargetRef.creature_target d (p.1 : Int))
            ++ [TargetRef.player_target d]
        else
          guards.map (fun p => TargetRef.creature_target d (p.1 : Int))) := by
    intro dps d
    cases hg : has_guard dps with
    | true =>
      have hne : ((enumOccupied 0 dps.board).filter
          (fun p => p.2.hasKw .Guard)).isEmpty = false := by
        have h2 := (has_guard_eq dps).symm.trans hg
        simpa using h2
      dsimp only
      rw [boardAttackTargets_eq]
      simp [hg, hne, pure, Except.pure]
    | false =>
      have hne : ((enumOccupied 0 dps.board).filter
          (fun p => p.2.hasKw .Guard)).isEmpty = true := by
        have h2 := (has_guard_eq dps).symm.trans hg
        simpa using h2
      dsimp only
      rw [boardAttackTargets_eq]
      simp [hg, hne, pure, Except.pure]
  rcases h with h | h <;> subst h <;>
    simp only [valid_attack_targets, spec_valid_attack_targets, MatchState.opponent,
      getPlayerPure] <;>
    norm_num <;>
    simpa [playersGet, Bind.bind, Except.bind] using key _ _

/-- Witness for C6 on a concrete state whose defender has one Guard and
one non-Guard creature: the only legal target is the Guard slot. -/
theorem C6_witness :
    valid_attack_targets wState 0 = .ok [TargetRef.creature_target 1 0] := by
  have h := C6_attack_targets wState 0 (Or.inl rfl)
  exact h.trans (by decide)

/-- **C9, counterexample.**  For a spell whose only effect is damage
fixed to the enemy player (`zap`), the claim says the legal target set
is empty (resolution accepts a missing target); the code instead counts
such a spell as needing a target and returns both player identities. -/
theorem C9_counterexample :
    c9probe = .ok [TargetRef.player_target 0, TargetRef.player_target 1] ∧
    c9probe ≠ .ok [] := by
  constructor
  · rfl
  · intro h
    rw [show c9probe = .ok [TargetRef.player_target 0, TargetRef.player_target 1] from rfl] at h
    exact absurd h (by decide)

theorem boardCreatureTargets_eq (o : Int) (b : List (Option CreatureInstance)) :
    ∀ k, boardCreatureTargets o k b =
      (enumOccupied k b).map (fun p => TargetRef.creature_target o (p.1 : Int)) := by
  induction b with
  | nil => intro k; rfl
  | cons c rest ih =>
    intro k
    cases c with
    | none => simp [boardCreatureTargets, enumOccupied, ih]
    | some c => simp [boardCreatureTargets, enumOccupied, ih]

/-- **C9, amended.**  `get_valid_targets_for_play` returns the empty
list iff the card needs no target — every creature card, and every
spell none of whose effects is a damage effect (of any of the three
damage target forms, *including* damage fixed to the enemy player, even
though resolution accepts such a spell with no target), a self-creature
heal, or a buff; otherwise it returns exactly every occupied friendly
creature slot, every occupied enemy creature slot, and both player
identities, in that order. -/
theorem C9_amended (s : MatchState) (player : Int) (cid : String)
    (card : CardDefinition) (hp : player = 0 ∨ player = 1)
    (hcard : s.cards.get cid = .ok card) :
    get_valid_targets_for_play s player cid = .ok (spec_valid_play_targets s player card) := by
  have hneed : needsTarget card.effects = card.effects.any spec_needs_target := by
    unfold needsTarget
    congr 1
    funext e
    cases e with
    | damage a t => cases t <;> rfl
    | heal a t => cases t <;> rfl
    | draw c => rfl
    | buff a b t => cases t <;> rfl
    | summon i c => rfl
  rcases hp with hp | hp <;> subst hp
  · simp only [get_valid_targets_for_play, spec_valid_play_targets, hcard,
      Bind.bind, Except.bind, hneed, MatchState.opponent, getPlayerPure]
    split
    · rfl
    · split
      · rfl
      · norm_num [playersGet, Bind.bind, Except.bind, pure, Except.pure,
          boardCreatureTargets_eq]
  · simp only [get_valid_targets_for_play, spec_valid_play_targets, hcard,
      Bind.bind, Except.bind, hneed, MatchState.opponent, getPlayerPure]
    split
    · rfl
    · split
      · rfl
      · norm_num [playersGet, Bind.bind, Except.bind, pure, Except.pure,
          boardCreatureTargets_eq]

/-- Witness for C9 on a concrete state: `bolt` (enemy-creature damage)
enumerates boards and both players; a creature card yields the empty
set. -/
theorem C9_witness :
    get_valid_targets_for_play wState 0 "bolt" =
      .ok [TargetRef.creature_target 0 0, TargetRef.creature_target 1 0,
           TargetRef.creature_target 1 2, TargetRef.player_target 0,
           TargetRef.player_target 1] := by
  have h := C9_amended wState 0 "bolt" (mkSpellCard "bolt" 1 [.damage 2 .enemy_creature])
    (Or.inl rfl) (by rfl)
  exact h.trans (by decide)

/-- An effect whose targeting check fails resolves to the corresponding
failure `StepResult` without touching the state. -/
theorem applyEffect_fail {player enemy : Int} {target : Option TargetRef}
    (s : MatchState) {e : Effect}
    (hfail : effTargetCheckFails player enemy target e = true) :
    applyEffect player enemy target s e = .ok (s, some (failResult (effFailMsg e))) := by
  cases e with
  | damage amount dt =>
    cases dt <;> cases target <;>
      simp_all [applyEffect, effTargetCheckFails, effFailMsg, pure, Except.pure] <;>
      tauto
  | heal amount ht =>
    cases ht <;> cases target <;>
      simp_all [applyEffect, effTargetCheckFails, effFailMsg, pure, Except.pure] <;>
      tauto
  | draw count => simp [effTargetCheckFails] at hfail
  | buff ad hd bt =>
    cases bt <;> cases target <;>
      simp_all [applyEffect, effTargetCheckFails, effFailMsg, pure, Except.pure] <;>
      first
        | tauto
        | rw [if_neg (by tauto)]
  | summon tid count => simp [effTargetCheckFails] at hfail

/-- Resolution of a spell whose *first* effect fails its targeting check
reports the failure with the state untouched. -/
theorem resolve_spell_head_fail {s : MatchState} {player : Int} {card : CardDefinition}
    {target : Option TargetRef} {e : Effect} {rest : List Effect}
    (heffs : card.effects = e :: rest)
    (hfail : effTargetCheckFails player (s.opponent player) target e = true) :
    resolve_spell s player card target = .ok (s, failResult (effFailMsg e)) := by
  unfold resolve_spell
  rw [heffs]
  unfold runEffects
  dsimp only
  rw [applyEffect_fail s hfail]
  simp [Bind.bind, Except.bind, pure, Except.pure, failResult]

/-- `_play_card` on a spell whose first effect fails its targeting
check: the play is fully rolled back — the state returned is the input
state, byte for byte — and the targeting error is reported with
`ok = false`. -/
theorem play_card_head_fail {u : MatchState} {player hand_index : Int}
    {target : Option TargetRef} {card : CardDefinition} {e : Effect} {rest : List Effect}
    (hpv : player = 0 ∨ player = 1)
    (hcur : player = u.current_player)
    (hidx0 : 0 ≤ hand_index)
    (hidxlt : hand_index < ((getPlayerPure u player).hand.length : Int))
    (hcard : u.cards.get ((getPlayerPure u player).hand.getD hand_index.toNat "") = .ok card)
    (hspell : card.type = .spell)
    (hcost : ¬card.cost > (getPlayerPure u player).energy)
    (heffs : card.effects = e :: rest)
    (hfail : effTargetCheckFails player (1 - player) target e = true) :
    play_card u player hand_index target = .ok (u, failResult (effFailMsg e)) := by
  rcases hpv with hpv | hpv <;> subst hpv
  · rw [show getPlayerPure u 0 = u.players.1 from rfl] at hidxlt hcard hcost
    have hidx : ¬(hand_index < 0 ∨ hand_index ≥ ((u.players.1.hand.length : Int))) := by
      omega
    have herase : (u.players.1.hand.eraseIdx hand_index.toNat).length =
        u.players.1.hand.length - 1 := by
      rw [List.length_eraseIdx]
      simp only [if_pos (show hand_index.toNat < u.players.1.hand.length by omega)]
    have hins : pyInsert (u.players.1.hand.eraseIdx hand_index.toNat) hand_index
        (u.players.1.hand.getD hand_index.toNat "") = u.players.1.hand := by
      unfold pyInsert
      rw [if_neg (by omega)]
      have hmin : min hand_index.toNat (u.players.1.hand.eraseIdx hand_index.toNat).length =
          hand_index.toNat := by
        rw [herase]; omega
      rw [hmin]
      exact insertIdx_eraseIdx_self _ _ _ (by omega)
    unfold play_card
    rw [if_neg (by simp [← hcur])]
    rw [playersGet_zero]
    simp only [Bind.bind, Except.bind]
    rw [if_neg hidx]
    rw [hcard]
    try dsimp only
    rw [if_neg hcost]
    rw [if_neg (by simp [hspell])]
    try dsimp only
    rw [playersSet_zero]
    try dsimp only
    rw [resolve_spell_head_fail heffs hfail]
    try dsimp only
    rw [if_pos (by simp [failResult])]
    simp only [modPlayer, playersGet, playersSet, pushEvent, Bind.bind, Except.bind,
      pure, Except.pure]
    norm_num
    have hins2 : pyInsert (u.players.1.hand.eraseIdx hand_index.toNat) hand_index
        (u.players.1.hand[hand_index.toNat]?.getD "") = u.players.1.hand := by
      simpa [List.getD] using hins
    rw [hins2]
  · rw [show getPlayerPure u 1 = u.players.2 from rfl] at hidxlt hcard hcost
    have hidx : ¬(hand_index < 0 ∨ hand_index ≥ ((u.players.2.hand.length : Int))) := by
      omega
    have herase : (u.players.2.hand.eraseIdx hand_index.toNat).length =
        u.players.2.hand.length - 1 := by
      rw [List.length_eraseIdx]
      simp only [if_pos (show hand_index.toNat < u.players.2.hand.length by omega)]
    have hins : pyInsert (u.players.2.hand.eraseIdx hand_index.toNat) hand_index
        (u.players.2.hand.getD hand_index.toNat "") = u.players.2.hand := by
      unfold pyInsert
      rw [if_neg (by omega)]
      have hmin : min hand_index.toNat (u.players.2.hand.eraseIdx hand_index.toNat).length =
          hand_index.toNat := by
        rw [herase]; omega
      rw [hmin]
      exact insertIdx_eraseIdx_self _ _ _ (by omega)
    unfold play_card
    rw [if_neg (by simp [← hcur])]
    rw [playersGet_one]
    simp only [Bind.bind, Except.bind]
    rw [if_neg hidx]
    rw [hcard]
    try dsimp only
    rw [if_neg hcost]
    rw [if_neg (by simp [hspell])]
    try dsimp only
    rw [playersSet_one]
    try dsimp only
    rw [resolve_spell_head_fail heffs hfail]
    try dsimp only
    rw [if_pos (by simp [failResult])]
    simp only [modPlayer, playersGet, playersSet, pushEvent, Bind.bind, Except.bind,
      pure, Except.pure]
    norm_num
    have hins2 : pyInsert (u.players.2.hand.eraseIdx hand_index.toNat) hand_index
        (u.players.2.hand[hand_index.toNat]?.getD "") = u.players.2.hand := by
      simpa [List.getD] using hins
    rw [hins2]

/-- **C2, counterexample.**  Playing the two-effect spell `combo`
(Draw 1, then Heal self-creature) with no target on a reachable state:
the heal's targeting check fails after the draw already resolved, so
`step` reports `ok = false` but the hand has 6 cards instead of the
pre-action 5 (the drawn card stays, the spell is re-inserted) and two
events (the card-played event and the draw event) remain appended —
the hand is not restored and the just-appended card-played event is
not removed. -/
theorem C2_counterexample : c2probe = .ok (false, 5, 6, 0, 2) := by
  rfl

/-- **C2, amended.**  For every Play action naming a spell card whose
*first* effect reports the targeting failure (so no earlier effect of
the spell has resolved — the case for all spells whose targeted effect
comes first, which includes every single-effect targeted spell), `step`
returns `ok = false` with the targeting error, and the resulting state
is byte-identical to the pre-action state except for the action-log
append: energy refunded, the spell back at its original hand index,
the discard pop undone, and the just-appended card-played event
removed. -/
theorem C2_amended (s : MatchState) (player hand_index : Int) (target : Option TargetRef)
    (card : CardDefinition) (e : Effect) (rest : List Effect)
    (hw : s.winner = none)
    (hpv : player = 0 ∨ player = 1)
    (hcur : player = s.current_player)
    (hidx0 : 0 ≤ hand_index)
    (hidxlt : hand_index < ((getPlayerPure s player).hand.length : Int))
    (hcard : s.cards.get ((getPlayerPure s player).hand.getD hand_index.toNat "") = .ok card)
    (hspell : card.type = .spell)
    (hcost : ¬card.cost > (getPlayerPure s player).energy)
    (heffs : card.effects = e :: rest)
    (hfail : effTargetCheckFails player (1 - player) target e = true) :
    step s (.play player hand_index target) =
      .ok ({ s with action_log := s.action_log ++ [Action.play player hand_index target] },
        failResult (effFailMsg e)) := by
  unfold step
  rw [hw]
  try dsimp only
  exact play_card_head_fail hpv hcur hidx0 hidxlt hcard hspell hcost heffs hfail

/-- Witness for C2: playing `bolt` (enemy-creature damage) with no
target on a concrete state rolls everything back except the action-log
append. -/
theorem C2_amended_witness :
    step wState (.play 0 0 none) =
      .ok ({ wState with action_log := [Action.play 0 0 none] },
        failResult "Target an enemy creature.") := by
  have h := C2_amended wState 0 0 none (mkSpellCard "bolt" 1 [.damage 2 .enemy_creature])
    (.damage 2 .enemy_creature) [] rfl (Or.inl rfl) rfl (by decide) (by decide)
    (by rfl) rfl (by decide) rfl (by decide)
  exact h.trans (by decide)

/-! ## Card-count preservation (claim C4) -/

theorem boardCount_nil : boardCount [] = 0 := rfl

theorem boardCount_cons (c : Option CreatureInstance) (b : List (Option CreatureInstance)) :
    boardCount (c :: b) = (if c.isSome then 1 else 0) + boardCount b := by
  cases c <;> simp [boardCount, List.filter] <;> try omega

theorem boardCount_set (b : List (Option CreatureInstance)) (j : Nat)
    (v : Option CreatureInstance) (h : j < b.length) :
    boardCount (b.set j v) + (if (b.getD j none).isSome then 1 else 0) =
      boardCount b + (if v.isSome then 1 else 0) := by
  induction b generalizing j with
  | nil => simp at h
  | cons c rest ih =>
    cases j with
    | zero =>
      simp only [List.set, List.getD_cons_zero, boardCount_cons]
      omega
    | succ j =>
      simp only [List.set, List.getD_cons_succ, boardCount_cons]
      have := ih j (by simpa using h)
      omega

theorem boardCount_map_refresh (f : CreatureInstance → CreatureInstance)
    (b : List (Option CreatureInstance)) :
    boardCount (b.map (fun c =>
      match c with
      | none => none
      | some c => some (f c))) = boardCount b := by
  induction b with
  | nil => rfl
  | cons c rest ih => cases c <;> simp [boardCount_cons, ih]

theorem pyListGet_shape {α : Type} [Inhabited α] {b : List α} {i : Int} {x : α}
    (hget : pyListGet b i = .ok x) :
    ∃ j, pyIdx i b.length = some j ∧ j < b.length ∧ b.getD j default = x := by
  unfold pyListGet at hget
  cases hj : pyIdx i b.length with
  | none => rw [hj] at hget; cases hget
  | some j =>
    rw [hj] at hget
    refine ⟨j, rfl, ?_, by cases hget; rfl⟩
    unfold pyIdx at hj
    split at hj
    · cases hj; omega
    · split at hj
      · cases hj; omega
      · cases hj

theorem pyGetSet_boardCount {b ys : List (Option CreatureInstance)} {i : Int}
    {c : CreatureInstance} {v : Option CreatureInstance}
    (hget : pyListGet b i = .ok (some c)) (hset : pyListSet b i v = .ok ys)
    (hv : v.isSome = true) : boardCount ys = boardCount b := by
  obtain ⟨j, hj, hlt, hel⟩ := pyListGet_shape hget
  unfold pyListSet at hset
  rw [hj] at hset
  cases hset
  have hel2 : b.getD j none = some c := hel
  have := boardCount_set b j v hlt
  rw [hel2] at this
  simp only [hv, Option.isSome_some, if_true] at this
  omega

theorem find_empty_slot_shape {b : List (Option CreatureInstance)} {j : Nat}
    (h : find_empty_slot b = some j) : j < b.length ∧ b.getD j none = none := by
  induction b generalizing j with
  | nil => cases h
  | cons c rest ih =>
    cases c with
    | none =>
      cases h
      simp
    | some c =>
      unfold find_empty_slot at h
      cases hrest : find_empty_slot rest with
      | none => rw [hrest] at h; cases h
      | some k =>
        rw [hrest] at h
        cases h
        have := ih hrest
        constructor
        · simpa using Nat.succ_lt_succ this.1
        · simpa using this.2

theorem removeDeadBoard_count (p_i : Int) (slot : Nat)
    (b : List (Option CreatureInstance)) :
    boardCount (removeDeadBoard p_i slot b).1 + (removeDeadBoard p_i slot b).2.1.length =
      boardCount b := by
  induction b generalizing slot with
  | nil => rfl
  | cons c rest ih =>
    cases c with
    | none => simp [removeDeadBoard, boardCount_cons, ih]
    | some c =>
      have ih1 := ih (slot + 1)
      by_cases hc : c.health ≤ 0 <;>
        simp [removeDeadBoard, hc, boardCount_cons] <;>
        omega

theorem remove_dead_totals (s : MatchState) : totals (remove_dead s) = totals s := by
  unfold totals totalCards remove_dead
  have h1 := removeDeadBoard_count 0 0 s.players.1.board
  have h2 := removeDeadBoard_count 1 0 s.players.2.board
  simp only [Prod.mk.injEq]
  constructor <;> simp [List.length_append] <;> omega

theorem check_winner_totals (s : MatchState) : totals (check_winner s) = totals s := by
  unfold check_winner
  split
  · rfl
  · dsimp only
    split
    · rfl
    · split
      · rfl
      · split
        · rfl
        · rfl

theorem totals_playersGetSet {s t : MatchState} {i : Int} {ps q : PlayerState}
    (hget : playersGet s i = .ok ps) (hset : playersSet s i q = .ok t)
    (hq : totalCards q = totalCards ps) : totals t = totals s := by
  rcases playersGet_ok_cases hget with ⟨hi, hp⟩ | ⟨hi, hp⟩ <;>
    rcases playersSet_ok_cases hset with ⟨hi', ht⟩ | ⟨hi', ht⟩
  · subst hp; rw [ht]; simp [totals, hq]
  · exfalso; rcases hi with h | h <;> rcases hi' with h' | h' <;> omega
  · exfalso; rcases hi with h | h <;> rcases hi' with h' | h' <;> omega
  · subst hp; rw [ht]; simp [totals, hq]

theorem pushEvent_totals (s : MatchState) (e : Event) : totals (pushEvent s e) = totals s :=
  rfl

theorem draw_one_totals {s t : MatchState} {player : Int}
    (h : draw_one s player = .ok t) : totals t = totals s := by
  unfold draw_one at h
  rw [except_bind_ok] at h
  obtain ⟨ps, hget, h⟩ := h
  split at h
  · rw [except_pure_ok] at h
    exact h ▸ rfl
  · rename_i hdeck
    rw [except_bind_ok] at h
    obtain ⟨s1, hset, h⟩ := h
    rw [except_pure_ok] at h
    subst h
    rw [pushEvent_totals]
    refine totals_playersGetSet hget hset ?_
    unfold totalCards
    simp only [List.length_dropLast, List.length_append, List.length_singleton]
    have : ps.deck.length ≠ 0 := by
      simpa [List.isEmpty_iff, List.length_eq_zero] using hdeck
    omega

theorem drawN_totals {s t : MatchState} {player : Int} {n : Nat}
    (h : drawN s player n = .ok t) : totals t = totals s := by
  induction n generalizing s with
  | zero => unfold drawN at h; cases h; rfl
  | succ n ih =>
    unfold drawN at h
    rw [except_bind_ok] at h
    obtain ⟨s1, h1, h2⟩ := h
    rw [ih h2, draw_one_totals h1]

theorem heal_player_totals {s t : MatchState} {player amount : Int}
    (h : heal_player s player amount = .ok t) : totals t = totals s := by
  unfold heal_player at h
  split at h
  · rw [except_pure_ok] at h
    exact h ▸ rfl
  · rw [except_bind_ok] at h
    obtain ⟨ps, hget, h⟩ := h
    rw [except_bind_ok] at h
    obtain ⟨s1, hset, h⟩ := h
    have t1 : totals s1 = totals s := totals_playersGetSet hget hset rfl
    try dsimp only at h
    split at h <;> rw [except_pure_ok] at h <;> subst h
    · rw [pushEvent_totals]; exact t1
    · exact t1

theorem damage_player_totals {s t : MatchState} {player amount dealt : Int}
    (h : damage_player s player amount = .ok (t, dealt)) : totals t = totals s := by
  unfold damage_player at h
  split at h
  · rw [except_pure_ok] at h
    cases h
    rfl
  · rw [except_bind_ok] at h
    obtain ⟨ps, hget, h⟩ := h
    rw [except_bind_ok] at h
    obtain ⟨s1, hset, h⟩ := h
    rw [except_pure_ok] at h
    cases h
    rw [pushEvent_totals]
    exact totals_playersGetSet hget hset rfl

theorem damage_creature_totals {s t : MatchState} {player slot amount dealt : Int}
    (h : damage_creature s player slot amount = .ok (t, dealt)) : totals t = totals s := by
  unfold damage_creature at h
  rw [except_bind_ok] at h
  obtain ⟨ps, hget, h⟩ := h
  rw [except_bind_ok] at h
  obtain ⟨c, hc, h⟩ := h
  match hcv : c with
  | none =>
    subst hcv
    rw [except_pure_ok] at h
    cases h
    rfl
  | some c =>
    subst hcv
    rw [except_bind_ok] at h
    obtain ⟨nb, hnb, h⟩ := h
    rw [except_bind_ok] at h
    obtain ⟨s1, hset, h⟩ := h
    rw [except_pure_ok] at h
    cases h
    rw [pushEvent_totals]
    refine totals_playersGetSet hget hset ?_
    unfold totalCards
    rw [pyGetSet_boardCount hc hnb rfl]

theorem modBoardCreature_totals {s t : MatchState} {player slot : Int}
    {f : CreatureInstance → CreatureInstance}
    (h : modBoardCreature s player slot f = .ok t) : totals t = totals s := by
  unfold modBoardCreature at h
  rw [except_bind_ok] at h
  obtain ⟨ps, hget, h⟩ := h
  rw [except_bind_ok] at h
  obtain ⟨c, hc, h⟩ := h
  match hcv : c with
  | none =>
    subst hcv
    rw [except_pure_ok] at h
    exact h ▸ rfl
  | some c =>
    subst hcv
    rw [except_bind_ok] at h
    obtain ⟨nb, hnb, hset⟩ := h
    refine totals_playersGetSet hget hset ?_
    unfold totalCards
    rw [pyGetSet_boardCount hc hnb rfl]

theorem modPlayer_totals {s t : MatchState} {i : Int} {f : PlayerState → PlayerState}
    (h : modPlayer s i f = .ok t) (hf : ∀ ps, totalCards (f ps) = totalCards ps) :
    totals t = totals s := by
  rcases modPlayer_ok_cases h with ⟨_, ht⟩ | ⟨_, ht⟩ <;> subst ht <;> simp [totals, hf]

theorem start_turn_totals {s t : MatchState} {player : Int}
    (h : start_turn s player = .ok t) : totals t = totals s := by
  unfold start_turn at h
  rw [except_bind_ok] at h
  obtain ⟨ps, hget, h⟩ := h
  rw [except_bind_ok] at h
  obtain ⟨s1, hset, h⟩ := h
  have t1 : totals s1 = totals s := by
    refine totals_playersGetSet hget hset ?_
    unfold totalCards
    simp [boardCount_map_refresh]
  split at h
  case isTrue =>
    rw [except_bind_ok] at h
    obtain ⟨s2, hdraw, h⟩ := h
    rw [except_bind_ok] at h
    obtain ⟨s3, hmod, h⟩ := h
    rw [except_bind_ok] at h
    obtain ⟨ps3, hget3, h⟩ := h
    rw [except_pure_ok] at h
    subst h
    rw [pushEvent_totals, modPlayer_totals hmod (fun ps => rfl), draw_one_totals hdraw, t1]
  case isFalse =>
    rw [except_bind_ok] at h
    obtain ⟨s2, hdraw, h⟩ := h
    rw [except_pure_ok] at hdraw
    subst hdraw
    rw [except_bind_ok] at h
    obtain ⟨s3, hmod, h⟩ := h
    rw [except_bind_ok] at h
    obtain ⟨ps3, hget3, h⟩ := h
    rw [except_pure_ok] at h
    subst h
    rw [pushEvent_totals, modPlayer_totals hmod (fun ps => rfl), t1]

theorem applyEffect_totals {player enemy : Int} {target : Option TargetRef}
    {s t : MatchState} {eff : Effect} {v : Option StepResult}
    (hns : eff.isSummon = false)
    (h : applyEffect player enemy target s eff = .ok (t, v)) : totals t = totals s := by
  cases eff with
  | damage amount dt =>
    cases dt with
    | enemy_player =>
      unfold applyEffect at h
      cases target with
      | some tr =>
        try dsimp only at h
        split at h
        · rw [except_pure_ok] at h
          cases h
          rfl
        · rw [except_bind_ok] at h
          obtain ⟨p, hdp, h⟩ := h
          rw [except_pure_ok] at h
          cases h
          exact damage_player_totals hdp
      | none =>
        try dsimp only at h
        rw [except_bind_ok] at h
        obtain ⟨p, hdp, h⟩ := h
        rw [except_pure_ok] at h
        cases h
        exact damage_player_totals hdp
    | enemy_creature =>
      unfold applyEffect at h
      cases target with
      | some tr =>
        try dsimp only at h
        split at h
        · cases htr : tr.slot with
          | some sl =>
            rw [htr] at h
            rw [except_bind_ok] at h
            obtain ⟨p, hdp, h⟩ := h
            rw [except_pure_ok] at h
            cases h
            exact damage_creature_totals hdp
          | none =>
            rw [htr] at h
            simp at h
        · rw [except_pure_ok] at h
          cases h
          rfl
      | none =>
        try dsimp only at h
        rw [except_pure_ok] at h
        cases h
        rfl
    | any =>
      unfold applyEffect at h
      cases target with
      | some tr =>
        try dsimp only at h
        split at h
        · rw [except_bind_ok] at h
          obtain ⟨p, hdp, h⟩ := h
          rw [except_pure_ok] at h
          cases h
          exact damage_player_totals hdp
        · cases htr : tr.slot with
          | some sl =>
            rw [htr] at h
            rw [except_bind_ok] at h
            obtain ⟨p, hdp, h⟩ := h
            rw [except_pure_ok] at h
            cases h
            exact damage_creature_totals hdp
          | none =>
            rw [htr] at h
            simp at h
      | none =>
        try dsimp only at h
        rw [except_pure_ok] at h
        cases h
        rfl
  | heal amount ht =>
    cases ht with
    | self_player =>
      unfold applyEffect at h
      rw [except_bind_ok] at h
      obtain ⟨s1, hhp, h⟩ := h
      rw [except_pure_ok] at h
      cases h
      exact heal_player_totals hhp
    | self_creature =>
      unfold applyEffect at h
      cases target with
      | some tr =>
        try dsimp only at h
        split at h
        · cases htr : tr.slot with
          | some sl =>
            rw [htr] at h
            try dsimp only at h
            rw [except_bind_ok] at h
            obtain ⟨ps, hget, h⟩ := h
            rw [except_bind_ok] at h
            obtain ⟨c, hc, h⟩ := h
            cases c with
            | none =>
              rw [except_pure_ok] at h
              cases h
              rfl
            | some c =>
              rw [except_bind_ok] at h
              obtain ⟨nb, hnb, h⟩ := h
              rw [except_bind_ok] at h
              obtain ⟨s1, hset, h⟩ := h
              have t1 : totals s1 = totals s := by
                refine totals_playersGetSet hget hset ?_
                unfold totalCards
                rw [pyGetSet_boardCount hc hnb rfl]
              try dsimp only at h
              split at h <;> rw [except_pure_ok] at h <;> cases h
              · rw [pushEvent_totals]; exact t1
              · exact t1
          | none =>
            rw [htr] at h
            simp at h
        · rw [except_pure_ok] at h
          cases h
          rfl
      | none =>
        try dsimp only at h
        rw [except_pure_ok] at h
        cases h
        rfl
  | draw count =>
    unfold applyEffect at h
    rw [except_bind_ok] at h
    obtain ⟨s1, hdrw, h⟩ := h
    rw [except_pure_ok] at h
    cases h
    exact drawN_totals hdrw
  | buff ad hd bt =>
    unfold applyEffect at h
    try dsimp only at h
    split at h
    · rw [except_pure_ok] at h
      cases h
      rfl
    · split at h
      · simp at h
      · split at h
        · simp at h
        · rw [except_bind_ok] at h
          obtain ⟨ps, hget, h⟩ := h
          rw [except_bind_ok] at h
          obtain ⟨c, hc, h⟩ := h
          cases c with
          | none =>
            rw [except_pure_ok] at h
            cases h
            rfl
          | some c =>
            rw [except_bind_ok] at h
            obtain ⟨nb, hnb, h⟩ := h
            rw [except_bind_ok] at h
            obtain ⟨s1, hset, h⟩ := h
            rw [except_pure_ok] at h
            cases h
            rw [pushEvent_totals]
            refine totals_playersGetSet hget hset ?_
            unfold totalCards
            rw [pyGetSet_boardCount hc hnb rfl]
  | summon tid count => simp [Effect.isSummon] at hns

theorem runEffects_totals {player enemy : Int} {target : Option TargetRef}
    {s t : MatchState} {effs : List Effect} {v : Option StepResult}
    (hns : ∀ e ∈ effs, e.isSummon = false)
    (h : runEffects player enemy target s effs = .ok (t, v)) : totals t = totals s := by
  induction effs generalizing s with
  | nil =>
    unfold runEffects at h
    cases h
    rfl
  | cons eff rest ih =>
    unfold runEffects at h
    rw [except_bind_ok] at h
    obtain ⟨p, happ, h⟩ := h
    have t1 : totals p.1 = totals s :=
      applyEffect_totals (v := p.2) (hns eff (by simp)) (by simpa using happ)
    split at h
    · rw [except_pure_ok] at h
      cases h
      exact t1
    · rw [ih (fun e he => hns e (by simp [he])) h, t1]

theorem resolve_spell_totals {s t : MatchState} {player : Int} {card : CardDefinition}
    {target : Option TargetRef} {r : StepResult}
    (hns : ∀ e ∈ card.effects, e.isSummon = false)
    (h : resolve_spell s player card target = .ok (t, r)) : totals t = totals s := by
  unfold resolve_spell at h
  rw [except_bind_ok] at h
  obtain ⟨p, hrun, h⟩ := h
  have t1 : totals p.1 = totals s := runEffects_totals (v := p.2) hns (by simpa using hrun)
  split at h
  · rw [except_pure_ok] at h
    cases h
    exact t1
  · rw [except_pure_ok] at h
    cases h
    rw [check_winner_totals, remove_dead_totals]
    exact t1

theorem pyInsert_length {α : Type} (xs : List α) (i : Int) (v : α) :
    (pyInsert xs i v).length = xs.length + 1 := by
  unfold pyInsert
  split
  · apply List.length_insertIdx
    omega
  · apply List.length_insertIdx
    omega

theorem lookup_mem {β : Type} {l : List (String × β)} {a : String} {b : β}
    (h : l.lookup a = some b) : (a, b) ∈ l := by
  induction l with
  | nil => cases h
  | cons p rest ih =>
    obtain ⟨k, v⟩ := p
    rw [List.lookup_cons] at h
    split at h
    · rename_i hbeq
      cases h
      have : a = k := by simpa using hbeq
      subst this
      exact List.mem_cons_self _ _
    · exact List.mem_cons_of_mem _ (ih h)

theorem db_get_effects_noSummon {db : CardDatabase} {cid : String} {card : CardDefinition}
    (hdb : noSummonDb db = true) (hget : db.get cid = .ok card) :
    ∀ e ∈ card.effects, e.isSummon = false := by
  unfold CardDatabase.get at hget
  cases hl : db.cards.lookup cid with
  | none => rw [hl] at hget; cases hget
  | some c =>
    rw [hl] at hget
    cases hget
    have hmem : (cid, card) ∈ db.cards := lookup_mem hl
    unfold noSummonDb at hdb
    rw [List.all_eq_true] at hdb
    have hall := hdb _ hmem
    rw [List.all_eq_true] at hall
    intro e he
    simpa using hall e he

theorem play_card_totals {s t : MatchState} {player hand_index : Int}
    {target : Option TargetRef} {r : StepResult}
    (hdb : noSummonDb s.cards = true)
    (h : play_card s player hand_index target = .ok (t, r)) : totals t = totals s := by
  unfold play_card at h
  split at h
  · rw [except_pure_ok] at h
    cases h
    rfl
  · rw [except_bind_ok] at h
    obtain ⟨ps, hget, h⟩ := h
    split at h
    · rw [except_pure_ok] at h
      cases h
      rfl
    · rename_i hidx
      rw [except_bind_ok] at h
      obtain ⟨card, hcard, h⟩ := h
      have hns := db_get_effects_noSummon hdb hcard
      split at h
      · rw [except_pure_ok] at h
        cases h
        rfl
      · split at h
        · -- creature branch
          split at h
          · rw [except_pure_ok] at h
            cases h
            rfl
          · rename_i slot hslot
            split at h
            · rw [except_pure_ok] at h
              cases h
              rfl
            · try dsimp only at h
              rw [except_bind_ok] at h
              obtain ⟨s1, hset, h⟩ := h
              rw [except_pure_ok] at h
              cases h
              rw [check_winner_totals, pushEvent_totals, pushEvent_totals]
              refine totals_playersGetSet hget hset ?_
              unfold totalCards
              obtain ⟨hlt, hnone⟩ := find_empty_slot_shape hslot
              have hbc : ∀ v : CreatureInstance,
                  boardCount (ps.board.set slot (some v)) = boardCount ps.board + 1 := by
                intro v
                have hb := boardCount_set ps.board slot (some v) hlt
                rw [hnone] at hb
                simpa using hb
              try dsimp only
              rw [hbc]
              have hhand : (ps.hand.eraseIdx hand_index.toNat).length = ps.hand.length - 1 := by
                rw [List.length_eraseIdx]
                simp only [if_pos (show hand_index.toNat < ps.hand.length by omega)]
              rw [hhand]
              have hhandpos : 0 < ps.hand.length := by omega
              omega
        · -- spell branch
          try dsimp only at h
          rw [except_bind_ok] at h
          obtain ⟨s1, hset, h⟩ := h
          have t1 : totals s1 = totals s := by
            refine totals_playersGetSet hget hset ?_
            unfold totalCards
            have hhand : (ps.hand.eraseIdx hand_index.toNat).length = ps.hand.length - 1 := by
              rw [List.length_eraseIdx]
              simp only [if_pos (show hand_index.toNat < ps.hand.length by omega)]
            simp only [List.length_append, List.length_singleton, hhand]
            have hhandpos : 0 < ps.hand.length := by omega
            omega
          rw [except_bind_ok] at h
          obtain ⟨p, hres, h⟩ := h
          have t2 : totals p.1 = totals s1 := by
            rw [← pushEvent_totals s1 (.card_played player (ps.hand.getD hand_index.toNat ""))]
            exact resolve_spell_totals (r := p.2) hns (by simpa using hres)
          split at h
          · rw [except_bind_ok] at h
            obtain ⟨s2, hmod, h⟩ := h
            rw [except_bind_ok] at h
            obtain ⟨ps2, hget2, h⟩ := h
            split at h
            · simp at h
            · rename_i hdisc
              rw [except_bind_ok] at h
              obtain ⟨s3, hset3, h⟩ := h
              have hdisc' : ps2.discard ≠ [] := by
                simpa [List.isEmpty_iff] using hdisc
              have t3 : totals s3 = totals p.1 := by
                rcases modPlayer_ok_cases hmod with ⟨hi, ht2⟩ | ⟨hi, ht2⟩
                · subst ht2
                  rcases playersGet_ok_cases hget2 with ⟨_, hp2⟩ | ⟨hi', hp2⟩
                  swap
                  · exfalso; rcases hi with hx | hx <;> rcases hi' with hy | hy <;> omega
                  rcases playersSet_ok_cases hset3 with ⟨_, ht3⟩ | ⟨hi'', ht3⟩
                  swap
                  · exfalso; rcases hi with hx | hx <;> rcases hi'' with hy | hy <;> omega
                  subst ht3
                  subst hp2
                  simp only [totals, totalCards, Prod.mk.injEq]
                  refine ⟨?_, trivial⟩
                  simp only [pyInsert_length, List.length_dropLast]
                  have hlen : p.1.players.1.discard.length ≠ 0 := by
                    simpa [List.length_eq_zero] using hdisc'
                  omega
                · subst ht2
                  rcases playersGet_ok_cases hget2 with ⟨hi', hp2⟩ | ⟨_, hp2⟩
                  · exfalso; rcases hi with hx | hx <;> rcases hi' with hy | hy <;> omega
                  rcases playersSet_ok_cases hset3 with ⟨hi'', ht3⟩ | ⟨_, ht3⟩
                  · exfalso; rcases hi with hx | hx <;> rcases hi'' with hy | hy <;> omega
                  subst ht3
                  subst hp2
                  simp only [totals, totalCards, Prod.mk.injEq]
                  refine ⟨trivial, ?_⟩
                  simp only [pyInsert_length, List.length_dropLast]
                  have hlen : p.1.players.2.discard.length ≠ 0 := by
                    simpa [List.length_eq_zero] using hdisc'
                  omega
              rw [except_pure_ok] at h
              cases h
              have t4 : ∀ u : MatchState,
                  totals (if hne : u.event_log ≠ [] then
                    match u.event_log.getLast hne with
                    | Event.card_played _ _ => { u with event_log := u.event_log.dropLast }
                    | _ => u
                  else u) = totals u := by
                intro u
                split
                · split <;> rfl
                · rfl
              rw [t4, t3, t2, t1]
          · rw [except_pure_ok] at h
            cases h
            rw [t2, t1]

theorem attackAction_totals {s t : MatchState} {player attacker_slot : Int}
    {target : TargetRef} {r : StepResult}
    (h : attackAction s player attacker_slot target = .ok (t, r)) : totals t = totals s := by
  unfold attackAction at h
  split at h
  · rw [except_pure_ok] at h
    cases h
    rfl
  · rw [except_bind_ok] at h
    obtain ⟨ps, hget, h⟩ := h
    split at h
    · rw [except_pure_ok] at h
      cases h
      rfl
    · split at h
      · rw [except_pure_ok] at h
        cases h
        rfl
      · rename_i attacker _
        split at h
        · rw [except_pure_ok] at h
          cases h
          rfl
        · split at h
          · rw [except_pure_ok] at h
            cases h
            rfl
          · rw [except_bind_ok] at h
            obtain ⟨valid, hvalid, h⟩ := h
            split at h
            · rw [except_pure_ok] at h
              cases h
              rfl
            · try dsimp only at h
              split at h
              · try dsimp only at h
                rw [except_bind_ok] at h
                obtain ⟨p, hdp, h⟩ := h
                have t1 : totals p.1 = totals s := damage_player_totals (by simpa using hdp)
                split at h <;>
                  rw [except_bind_ok] at h
                case isTrue =>
                  obtain ⟨s2, hheal, h⟩ := h
                  rw [except_bind_ok] at h
                  obtain ⟨s3, hmodb, h⟩ := h
                  rw [except_pure_ok] at h
                  cases h
                  rw [check_winner_totals, pushEvent_totals,
                    modBoardCreature_totals hmodb, heal_player_totals hheal, t1]
                case isFalse =>
                  obtain ⟨s2, hpure, h⟩ := h
                  rw [except_pure_ok] at hpure
                  subst hpure
                  rw [except_bind_ok] at h
                  obtain ⟨s3, hmodb, h⟩ := h
                  rw [except_pure_ok] at h
                  cases h
                  rw [check_winner_totals, pushEvent_totals,
                    modBoardCreature_totals hmodb, t1]
              · split at h
                · simp at h
                · rw [except_bind_ok] at h
                  obtain ⟨dps, hdps, h⟩ := h
                  rw [except_bind_ok] at h
                  obtain ⟨defOpt, hdef, h⟩ := h
                  cases defOpt with
                  | none =>
                    rw [except_pure_ok] at h
                    cases h
                    rfl
                  | some defender =>
                    try dsimp only at h
                    rw [except_bind_ok] at h
                    obtain ⟨p1, hd1, h⟩ := h
                    have t1 : totals p1.1 = totals s := damage_creature_totals (by simpa using hd1)
                    rw [except_bind_ok] at h
                    obtain ⟨p2, hd2, h⟩ := h
                    have t2 : totals p2.1 = totals p1.1 :=
                      damage_creature_totals (by simpa using hd2)
                    split at h <;>
                      rw [except_bind_ok] at h
                    case isTrue =>
                      obtain ⟨s4, hheal, h⟩ := h
                      rw [except_bind_ok] at h
                      obtain ⟨s5, hmodb, h⟩ := h
                      rw [except_pure_ok] at h
                      cases h
                      rw [check_winner_totals, remove_dead_totals, pushEvent_totals,
                        modBoardCreature_totals hmodb, heal_player_totals hheal, t2, t1]
                    case isFalse =>
                      obtain ⟨s4, hpure, h⟩ := h
                      rw [except_pure_ok] at hpure
                      subst hpure
                      rw [except_bind_ok] at h
                      obtain ⟨s5, hmodb, h⟩ := h
                      rw [except_pure_ok] at h
                      cases h
                      rw [check_winner_totals, remove_dead_totals, pushEvent_totals,
                        modBoardCreature_totals hmodb, t2, t1]

theorem end_turn_totals {s t : MatchState} {player : Int} {r : StepResult}
    (h : end_turn s player = .ok (t, r)) : totals t = totals s := by
  unfold end_turn at h
  split at h
  · rw [except_pure_ok] at h
    cases h
    rfl
  · try dsimp only at h
    rw [except_bind_ok] at h
    obtain ⟨s1, hst, h⟩ := h
    have t1 := start_turn_totals hst
    rw [except_pure_ok] at h
    cases h
    exact t1

theorem step_totals {s : MatchState} {a : Action} {out : MatchState × StepResult}
    (hdb : noSummonDb s.cards = true) (h : step s a = .ok out) :
    totals out.1 = totals s := by
  unfold step at h
  cases hw : s.winner with
  | some w =>
    rw [hw] at h
    try dsimp only at h
    cases h
    rfl
  | none =>
    rw [hw] at h
    try dsimp only at h
    have htot : totals { s with winner := none, action_log := s.action_log ++ [a] } = totals s := rfl
    have hdb2 : noSummonDb (MatchState.cards { s with winner := none, action_log := s.action_log ++ [a] }) = true := hdb
    obtain ⟨t, r⟩ := out
    cases a with
    | play player hand_index target =>
      try dsimp only at h
      exact (play_card_totals hdb2 h).trans htot
    | attack player attacker_slot target =>
      try dsimp only at h
      exact (attackAction_totals h).trans htot
    | endTurn player =>
      try dsimp only at h
      exact (end_turn_totals h).trans htot

theorem shuffleSwap_length (xs : List String) (i j : Nat) :
    (shuffleSwap xs i j).length = xs.length := by
  simp [shuffleSwap]

theorem shuffleGo_length (xs : List String) (r : Rng) (n : Nat) :
    (shuffleGo xs r n).1.length = xs.length := by
  induction n generalizing xs r with
  | zero => rfl
  | succ n ih =>
    unfold shuffleGo
    rw [ih, shuffleSwap_length]

theorem pyShuffle_length (r : Rng) (xs : List String) :
    (pyShuffle r xs).1.length = xs.length := by
  unfold pyShuffle
  exact shuffleGo_length xs r (xs.length - 1)

theorem boardCount_replicate_none (n : Nat) :
    boardCount (List.replicate n (none : Option CreatureInstance)) = 0 := by
  induction n with
  | zero => rfl
  | succ n ih => simp [List.replicate, boardCount_cons, ih]

theorem dealStartingHands_totals {s t : MatchState} {n : Nat}
    (h : dealStartingHands s n = .ok t) : totals t = totals s := by
  induction n generalizing s with
  | zero => unfold dealStartingHands at h; cases h; rfl
  | succ n ih =>
    unfold dealStartingHands at h
    rw [except_bind_ok] at h
    obtain ⟨s1, h1, h⟩ := h
    rw [except_bind_ok] at h
    obtain ⟨s2, h2, h⟩ := h
    rw [ih h, draw_one_totals h2, draw_one_totals h1]

theorem dealStartingHands_frame {s t : MatchState} {n : Nat}
    (h : dealStartingHands s n = .ok t) : Frame s t := by
  induction n generalizing s with
  | zero => unfold dealStartingHands at h; cases h; exact frame_refl t
  | succ n ih =>
    unfold dealStartingHands at h
    rw [except_bind_ok] at h
    obtain ⟨s1, h1, h⟩ := h
    rw [except_bind_ok] at h
    obtain ⟨s2, h2, h⟩ := h
    exact frame_trans (frame_trans (draw_one_frame h1) (draw_one_frame h2)) (ih h)

theorem new_match_ok {cards : CardDatabase} {deck0 deck1 : List String} {seed : Int}
    {config : Option MatchConfig} {s : MatchState}
    (h : new_match cards deck0 deck1 seed config = .ok s) :
    s.cards = cards ∧ s.config = config.getD {} ∧
    (deck0.length : Int) = (config.getD {}).deck_size ∧
    (deck1.length : Int) = (config.getD {}).deck_size ∧
    totals s = (deck0.length, deck1.length) := by
  unfold new_match at h
  try dsimp only at h
  split at h
  · cases h
  · rename_i hsz
    push_neg at hsz
    try dsimp only at h
    rw [except_bind_ok] at h
    obtain ⟨s1, hdeal, h⟩ := h
    rw [except_bind_ok] at h
    obtain ⟨s2, hstart, h⟩ := h
    rw [except_pure_ok] at h
    subst h
    have f1 := dealStartingHands_frame hdeal
    have f2 := start_turn_frame hstart
    have t1 := dealStartingHands_totals hdeal
    have t2 := start_turn_totals hstart
    refine ⟨?_, ?_, hsz.1, hsz.2, ?_⟩
    · rw [f2.cards, f1.cards]
    · rw [f2.config, f1.config]
    · have : totals s2 = totals s1 := t2
      rw [show totals { s2 with current_player := 0 } = totals s2 from rfl, t2, t1]
      unfold totals totalCards
      simp [pyShuffle_length, boardCount_replicate_none]

/-- **C4, counterexample.**  One accepted Play of the token-summoning
spell `spark` from a fresh 30-card match leaves player 0 with
`deck(25) + hand(4) + discard(1) + board(1) = 31` cards — more than the
`config.deck_size = 30` entries supplied at construction, because the
summoned token is a new board entry. -/
theorem C4_counterexample : c4probe = .ok (31, 30, true) := by
  rfl

/-- **C4, amended.**  Provided no card of the catalog carries a Summon
effect (a resolved Summon creates a token board entry beyond the cards
supplied at construction), every state reachable from `new_match` by
any sequence of completed `step` calls keeps, for each player,
`len(deck) + len(hand) + len(discard) + count(board)` at most — in
fact exactly equal to — `config.deck_size`. -/
theorem C4_amended (cards : CardDatabase) (deck0 deck1 : List String) (seed : Int)
    (config : Option MatchConfig) (s : MatchState)
    (hns : noSummonDb cards = true)
    (hreach : Reachable cards deck0 deck1 seed config s) :
    (totalCards s.players.1 : Int) ≤ s.config.deck_size ∧
    (totalCards s.players.2 : Int) ≤ s.config.deck_size := by
  suffices hinv : s.cards = cards ∧ (deck0.length : Int) = s.config.deck_size ∧
      (deck1.length : Int) = s.config.deck_size ∧
      totals s = (deck0.length, deck1.length) by
    obtain ⟨_, h0, h1, ht⟩ := hinv
    have e0 : totalCards s.players.1 = deck0.length := congrArg Prod.fst ht
    have e1 : totalCards s.players.2 = deck1.length := congrArg Prod.snd ht
    rw [e0, e1]
    exact ⟨le_of_eq h0, le_of_eq h1⟩
  induction hreach with
  | init s0 hnm =>
    obtain ⟨hc, hcfg, h0, h1, ht⟩ := new_match_ok hnm
    exact ⟨hc, by rw [hcfg]; exact h0, by rw [hcfg]; exact h1, ht⟩
  | next s0 a out hr hstep ih =>
    obtain ⟨hc, h0, h1, ht⟩ := ih
    have hdb : noSummonDb s0.cards = true := by rw [hc]; exact hns
    have htot := step_totals hdb hstep
    cases hw : s0.winner with
    | none =>
      have hfr := (step_log_frame hstep).1 hw
      refine ⟨hfr.2.1.trans hc, ?_, ?_, htot.trans ht⟩
      · rw [hfr.2.2.1]; exact h0
      · rw [hfr.2.2.1]; exact h1
    | some w =>
      have hout := (step_log_frame hstep).2 w hw
      rw [hout]
      exact ⟨hc, h0, h1, ht⟩

/-- Witness for C4: on a summon-free catalog, the state constructed by
`new_match` (reachable by the empty action sequence) satisfies the
card-count bound. -/
theorem C4_amended_witness :
    (new_match cexDbNS (deckOf "guy") (deckOf "guy") 7 none).map
      (fun s0 => decide ((totalCards s0.players.1 : Int) ≤ s0.config.deck_size ∧
        (totalCards s0.players.2 : Int) ≤ s0.config.deck_size)) = .ok true := by
  have hok : isOkE (new_match cexDbNS (deckOf "guy") (deckOf "guy") 7 none) = true := by
    decide
  cases hnm : new_match cexDbNS (deckOf "guy") (deckOf "guy") 7 none with
  | error e => rw [hnm] at hok; simp [isOkE] at hok
  | ok s0 =>
    have hr : Reachable cexDbNS (deckOf "guy") (deckOf "guy") 7 none s0 :=
      Reachable.init s0 hnm
    have h := C4_amended cexDbNS (deckOf "guy") (deckOf "guy") 7 none s0 (by decide) hr
    simp [Except.map, decide_eq_true_eq]
    exact h

/-! ## Energy invariant preservation (claim C10) -/

theorem energies_playersGetSet {s t : MatchState} {i : Int} {ps q : PlayerState}
    (hget : playersGet s i = .ok ps) (hset : playersSet s i q = .ok t)
    (hq : q.energy = ps.energy ∧ q.energy_max = ps.energy_max) : energies t = energies s := by
  rcases playersGet_ok_cases hget with ⟨hi, hp⟩ | ⟨hi, hp⟩ <;>
    rcases playersSet_ok_cases hset with ⟨hi', ht⟩ | ⟨hi', ht⟩
  · subst hp; rw [ht]; simp [energies, hq.1, hq.2]
  · exfalso; rcases hi with h | h <;> rcases hi' with h' | h' <;> omega
  · exfalso; rcases hi with h | h <;> rcases hi' with h' | h' <;> omega
  · subst hp; rw [ht]; simp [energies, hq.1, hq.2]

theorem draw_one_energies {s t : MatchState} {player : Int}
    (h : draw_one s player = .ok t) : energies t = energies s := by
  unfold draw_one at h
  rw [except_bind_ok] at h
  obtain ⟨ps, hget, h⟩ := h
  split at h
  · rw [except_pure_ok] at h
    exact h ▸ rfl
  · rw [except_bind_ok] at h
    obtain ⟨s1, hset, h⟩ := h
    rw [except_pure_ok] at h
    subst h
    have e1 := energies_playersGetSet hget hset ⟨rfl, rfl⟩
    exact e1

theorem drawN_energies {s t : MatchState} {player : Int} {n : Nat}
    (h : drawN s player n = .ok t) : energies t = energies s := by
  induction n generalizing s with
  | zero => unfold drawN at h; cases h; rfl
  | succ n ih =>
    unfold drawN at h
    rw [except_bind_ok] at h
    obtain ⟨s1, h1, h2⟩ := h
    rw [ih h2, draw_one_energies h1]

theorem heal_player_energies {s t : MatchState} {player amount : Int}
    (h : heal_player s player amount = .ok t) : energies t = energies s := by
  unfold heal_player at h
  split at h
  · rw [except_pure_ok] at h
    exact h ▸ rfl
  · rw [except_bind_ok] at h
    obtain ⟨ps, hget, h⟩ := h
    rw [except_bind_ok] at h
    obtain ⟨s1, hset, h⟩ := h
    have t1 : energies s1 = energies s := energies_playersGetSet hget hset ⟨rfl, rfl⟩
    try dsimp only at h
    split at h <;> rw [except_pure_ok] at h <;> subst h
    · exact t1
    · exact t1

theorem damage_player_energies {s t : MatchState} {player amount dealt : Int}
    (h : damage_player s player amount = .ok (t, dealt)) : energies t = energies s := by
  unfold damage_player at h
  split at h
  · rw [except_pure_ok] at h
    cases h
    rfl
  · rw [except_bind_ok] at h
    obtain ⟨ps, hget, h⟩ := h
    rw [except_bind_ok] at h
    obtain ⟨s1, hset, h⟩ := h
    rw [except_pure_ok] at h
    cases h
    have e1 := energies_playersGetSet hget hset ⟨rfl, rfl⟩
    exact e1

theorem damage_creature_energies {s t : MatchState} {player slot amount dealt : Int}
    (h : damage_creature s player slot amount = .ok (t, dealt)) : energies t = energies s := by
  unfold damage_creature at h
  rw [except_bind_ok] at h
  obtain ⟨ps, hget, h⟩ := h
  rw [except_bind_ok] at h
  obtain ⟨c, hc, h⟩ := h
  match hcv : c with
  | none =>
    subst hcv
    rw [except_pure_ok] at h
    cases h
    rfl
  | some c =>
    subst hcv
    rw [except_bind_ok] at h
    obtain ⟨nb, hnb, h⟩ := h
    rw [except_bind_ok] at h
    obtain ⟨s1, hset, h⟩ := h
    rw [except_pure_ok] at h
    cases h
    have e1 := energies_playersGetSet hget hset ⟨rfl, rfl⟩
    exact e1

theorem modBoardCreature_energies {s t : MatchState} {player slot : Int}
    {f : CreatureInstance → CreatureInstance}
    (h : modBoardCreature s player slot f = .ok t) : energies t = energies s := by
  unfold modBoardCreature at h
  rw [except_bind_ok] at h
  obtain ⟨ps, hget, h⟩ := h
  rw [except_bind_ok] at h
  obtain ⟨c, hc, h⟩ := h
  match hcv : c with
  | none =>
    subst hcv
    rw [except_pure_ok] at h
    exact h ▸ rfl
  | some c =>
    subst hcv
    rw [except_bind_ok] at h
    obtain ⟨nb, hnb, hset⟩ := h
    exact energies_playersGetSet hget hset ⟨rfl, rfl⟩

theorem remove_dead_energies (s : MatchState) : energies (remove_dead s) = energies s := rfl

theorem check_winner_energies (s : MatchState) : energies (check_winner s) = energies s := by
  unfold check_winner
  split
  · rfl
  · dsimp only
    split
    · rfl
    · split
      · rfl
      · split
        · rfl
        · rfl

theorem summonLoop_energies {player : Int} {token_card_id : String} {n : Nat}
    {s t : MatchState} (h : summonLoop player token_card_id s n = .ok t) :
    energies t = energies s := by
  induction n generalizing s with
  | zero => unfold summonLoop at h; cases h; rfl
  | succ n ih =>
    unfold summonLoop at h
    rw [except_bind_ok] at h
    obtain ⟨ps, hget, h⟩ := h
    split at h
    · rw [except_pure_ok] at h
      exact h ▸ rfl
    · rw [except_bind_ok] at h
      obtain ⟨token_def, htok, h⟩ := h
      split at h
      · exact ih h
      · rw [except_bind_ok] at h
        obtain ⟨s1, hmod, h⟩ := h
        try dsimp only at h
        have e1 : energies s1 = energies s := by
          rcases modPlayer_ok_cases hmod with ⟨_, ht⟩ | ⟨_, ht⟩ <;> subst ht <;>
            simp [energies]
        exact (ih h).trans e1

theorem applyEffect_energies {player enemy : Int} {target : Option TargetRef}
    {s t : MatchState} {eff : Effect} {v : Option StepResult}
    (h : applyEffect player enemy target s eff = .ok (t, v)) : energies t = energies s := by
  cases eff with
  | damage amount dt =>
    cases dt with
    | enemy_player =>
      unfold applyEffect at h
      cases target with
      | some tr =>
        try dsimp only at h
        split at h
        · rw [except_pure_ok] at h
          cases h
          rfl
        · rw [except_bind_ok] at h
          obtain ⟨p, hdp, h⟩ := h
          rw [except_pure_ok] at h
          cases h
          exact damage_player_energies hdp
      | none =>
        try dsimp only at h
        rw [except_bind_ok] at h
        obtain ⟨p, hdp, h⟩ := h
        rw [except_pure_ok] at h
        cases h
        exact damage_player_energies hdp
    | enemy_creature =>
      unfold applyEffect at h
      cases target with
      | some tr =>
        try dsimp only at h
        split at h
        · cases htr : tr.slot with
          | some sl =>
            rw [htr] at h
            rw [except_bind_ok] at h
            obtain ⟨p, hdp, h⟩ := h
            rw [except_pure_ok] at h
            cases h
            exact damage_creature_energies hdp
          | none =>
            rw [htr] at h
            simp at h
        · rw [except_pure_ok] at h
          cases h
          rfl
      | none =>
        try dsimp only at h
        rw [except_pure_ok] at h
        cases h
        rfl
    | any =>
      unfold applyEffect at h
      cases target with
      | some tr =>
        try dsimp only at h
        split at h
        · rw [except_bind_ok] at h
          obtain ⟨p, hdp, h⟩ := h
          rw [except_pure_ok] at h
          cases h
          exact damage_player_energies hdp
        · cases htr : tr.slot with
          | some sl =>
            rw [htr] at h
            rw [except_bind_ok] at h
            obtain ⟨p, hdp, h⟩ := h
            rw [except_pure_ok] at h
            cases h
            exact damage_creature_energies hdp
          | none =>
            rw [htr] at h
            simp at h
      | none =>
        try dsimp only at h
        rw [except_pure_ok] at h
        cases h
        rfl
  | heal amount ht =>
    cases ht with
    | self_player =>
      unfold applyEffect at h
      rw [except_bind_ok] at h
      obtain ⟨s1, hhp, h⟩ := h
      rw [except_pure_ok] at h
      cases h
      exact heal_player_energies hhp
    | self_creature =>
      unfold applyEffect at h
      cases target with
      | some tr =>
        try dsimp only at h
        split at h
        · cases htr : tr.slot with
          | some sl =>
            rw [htr] at h
            try dsimp only at h
            rw [except_bind_ok] at h
            obtain ⟨ps, hget, h⟩ := h
            rw [except_bind_ok] at h
            obtain ⟨c, hc, h⟩ := h
            cases c with
            | none =>
              rw [except_pure_ok] at h
              cases h
              rfl
            | some c =>
              rw [except_bind_ok] at h
              obtain ⟨nb, hnb, h⟩ := h
              rw [except_bind_ok] at h
              obtain ⟨s1, hset, h⟩ := h
              have e1 : energies s1 = energies s :=
                energies_playersGetSet hget hset ⟨rfl, rfl⟩
              try dsimp only at h
              split at h <;> rw [except_pure_ok] at h <;> cases h
              · exact e1
              · exact e1
          | none =>
            rw [htr] at h
            simp at h
        · rw [except_pure_ok] at h
          cases h
          rfl
      | none =>
        try dsimp only at h
        rw [except_pure_ok] at h
        cases h
        rfl
  | draw count =>
    unfold applyEffect at h
    rw [except_bind_ok] at h
    obtain ⟨s1, hdrw, h⟩ := h
    rw [except_pure_ok] at h
    cases h
    exact drawN_energies hdrw
  | buff ad hd bt =>
    unfold applyEffect at h
    try dsimp only at h
    split at h
    · rw [except_pure_ok] at h
      cases h
      rfl
    · split at h
      · simp at h
      · split at h
        · simp at h
        · rw [except_bind_ok] at h
          obtain ⟨ps, hget, h⟩ := h
          rw [except_bind_ok] at h
          obtain ⟨c, hc, h⟩ := h
          cases c with
          | none =>
            rw [except_pure_ok] at h
            cases h
            rfl
          | some c =>
            rw [except_bind_ok] at h
            obtain ⟨nb, hnb, h⟩ := h
            rw [except_bind_ok] at h
            obtain ⟨s1, hset, h⟩ := h
            rw [except_pure_ok] at h
            cases h
            have e1 := energies_playersGetSet hget hset ⟨rfl, rfl⟩
            exact e1
  | summon tid count =>
    unfold applyEffect at h
    rw [except_bind_ok] at h
    obtain ⟨s1, hsm, h⟩ := h
    rw [except_pure_ok] at h
    cases h
    exact summonLoop_energies hsm

theorem runEffects_energies {player enemy : Int} {target : Option TargetRef}
    {s t : MatchState} {effs : List Effect} {v : Option StepResult}
    (h : runEffects player enemy target s effs = .ok (t, v)) : energies t = energies s := by
  induction effs generalizing s with
  | nil => unfold runEffects at h; cases h; rfl
  | cons eff rest ih =>
    unfold runEffects at h
    rw [except_bind_ok] at h
    obtain ⟨p, happ, h⟩ := h
    have e1 : energies p.1 = energies s := applyEffect_energies (v := p.2) (by simpa using happ)
    split at h
    · rw [except_pure_ok] at h
      cases h
      exact e1
    · rw [ih h, e1]

theorem resolve_spell_energies {s t : MatchState} {player : Int} {card : CardDefinition}
    {target : Option TargetRef} {r : StepResult}
    (h : resolve_spell s player card target = .ok (t, r)) : energies t = energies s := by
  unfold resolve_spell at h
  rw [except_bind_ok] at h
  obtain ⟨p, hrun, h⟩ := h
  have e1 : energies p.1 = energies s := runEffects_energies (v := p.2) (by simpa using hrun)
  split at h
  · rw [except_pure_ok] at h
    cases h
    exact e1
  · rw [except_pure_ok] at h
    cases h
    rw [check_winner_energies, remove_dead_energies]
    exact e1

theorem energyInv_of_energies {s t : MatchState} (he : energies t = energies s)
    (hc : t.config.max_energy = s.config.max_energy) (h : EnergyInv s) : EnergyInv t := by
  unfold EnergyInv at *
  unfold energies at he
  simp only [Prod.mk.injEq] at he
  obtain ⟨e1, e2, e3, e4⟩ := he
  rw [e1, e2, e3, e4, hc]
  exact h

theorem energyInv_playersGetSet {s t : MatchState} {i : Int} {ps q : PlayerState}
    (hget : playersGet s i = .ok ps) (hset : playersSet s i q = .ok t)
    (hinv : EnergyInv s)
    (hq : 0 ≤ q.energy ∧ q.energy ≤ q.energy_max ∧ q.energy_max ≤ s.config.max_energy) :
    EnergyInv t := by
  rcases playersGet_ok_cases hget with ⟨hi, hp⟩ | ⟨hi, hp⟩ <;>
    rcases playersSet_ok_cases hset with ⟨hi', ht⟩ | ⟨hi', ht⟩
  · subst ht
    exact ⟨hq, hinv.2⟩
  · exfalso; rcases hi with h | h <;> rcases hi' with h' | h' <;> omega
  · exfalso; rcases hi with h | h <;> rcases hi' with h' | h' <;> omega
  · subst ht
    exact ⟨hinv.1, hq⟩

theorem start_turn_energyInv {s t : MatchState} {player : Int}
    (hinv : EnergyInv s) (h : start_turn s player = .ok t) : EnergyInv t := by
  have hframe := start_turn_frame h
  unfold start_turn at h
  rw [except_bind_ok] at h
  obtain ⟨ps, hget, h⟩ := h
  rw [except_bind_ok] at h
  obtain ⟨s1, hset, h⟩ := h
  have hpsb : 0 ≤ ps.energy ∧ ps.energy ≤ ps.energy_max ∧
      ps.energy_max ≤ s.config.max_energy := by
    rcases playersGet_ok_cases hget with ⟨_, hp⟩ | ⟨_, hp⟩ <;> subst hp
    · exact hinv.1
    · exact hinv.2
  have hmax0 : 0 ≤ s.config.max_energy := by
    obtain ⟨h1, h2, h3⟩ := hpsb
    omega
  have hinv1 : EnergyInv s1 := by
    refine energyInv_playersGetSet hget hset hinv ?_
    refine ⟨le_min hmax0 (by omega), le_refl _, min_le_left _ _⟩
  have hc1 : s1.config = s.config := by
    rcases playersSet_ok_cases hset with ⟨_, ht⟩ | ⟨_, ht⟩ <;> subst ht <;> rfl
  split at h
  case isTrue =>
    rw [except_bind_ok] at h
    obtain ⟨s2, hdraw, h⟩ := h
    rw [except_bind_ok] at h
    obtain ⟨s3, hmod, h⟩ := h
    rw [except_bind_ok] at h
    obtain ⟨ps3, hget3, h⟩ := h
    rw [except_pure_ok] at h
    subst h
    have hinv2 : EnergyInv s2 :=
      energyInv_of_energies (draw_one_energies hdraw)
        (congrArg MatchConfig.max_energy (draw_one_frame hdraw).config) hinv1
    have e3 : energies s3 = energies s2 := by
      rcases modPlayer_ok_cases hmod with ⟨_, ht⟩ | ⟨_, ht⟩ <;> subst ht <;> simp [energies]
    have hinv3 : EnergyInv s3 :=
      energyInv_of_energies e3
        (congrArg MatchConfig.max_energy (modPlayer_frame hmod (fun _ => rfl)).config) hinv2
    exact energyInv_of_energies rfl rfl hinv3
  case isFalse =>
    rw [except_bind_ok] at h
    obtain ⟨s2, hdraw, h⟩ := h
    rw [except_pure_ok] at hdraw
    subst hdraw
    rw [except_bind_ok] at h
    obtain ⟨s3, hmod, h⟩ := h
    rw [except_bind_ok] at h
    obtain ⟨ps3, hget3, h⟩ := h
    rw [except_pure_ok] at h
    subst h
    have e3 : energies s3 = energies s1 := by
      rcases modPlayer_ok_cases hmod with ⟨_, ht⟩ | ⟨_, ht⟩ <;> subst ht <;> simp [energies]
    have hinv3 : EnergyInv s3 :=
      energyInv_of_energies e3
        (congrArg MatchConfig.max_energy (modPlayer_frame hmod (fun _ => rfl)).config) hinv1
    exact energyInv_of_energies rfl rfl hinv3

theorem db_get_cost_nonneg {db : CardDatabase} {cid : String} {card : CardDefinition}
    (hdb : costsNonnegDb db = true) (hget : db.get cid = .ok card) : 0 ≤ card.cost := by
  unfold CardDatabase.get at hget
  cases hl : db.cards.lookup cid with
  | none => rw [hl] at hget; cases hget
  | some c =>
    rw [hl] at hget
    cases hget
    have hmem : (cid, card) ∈ db.cards := lookup_mem hl
    unfold costsNonnegDb at hdb
    rw [List.all_eq_true] at hdb
    simpa using hdb _ hmem

theorem play_card_energyInv {s t : MatchState} {player hand_index : Int}
    {target : Option TargetRef} {r : StepResult}
    (hdbc : costsNonnegDb s.cards = true) (hinv : EnergyInv s)
    (h : play_card s player hand_index target = .ok (t, r)) : EnergyInv t := by
  have hconf : t.config = s.config := (play_card_frame h).config
  unfold play_card at h
  split at h
  · rw [except_pure_ok] at h
    cases h
    exact hinv
  · rw [except_bind_ok] at h
    obtain ⟨ps, hget, h⟩ := h
    have hpsb : 0 ≤ ps.energy ∧ ps.energy ≤ ps.energy_max ∧
        ps.energy_max ≤ s.config.max_energy := by
      rcases playersGet_ok_cases hget with ⟨_, hp⟩ | ⟨_, hp⟩ <;> subst hp
      · exact hinv.1
      · exact hinv.2
    split at h
    · rw [except_pure_ok] at h
      cases h
      exact hinv
    · rw [except_bind_ok] at h
      obtain ⟨card, hcard, h⟩ := h
      have hcost0 : 0 ≤ card.cost := db_get_cost_nonneg hdbc hcard
      split at h
      · rw [except_pure_ok] at h
        cases h
        exact hinv
      · rename_i hcost
        rw [not_lt] at hcost
        split at h
        · -- creature branch
          split at h
          · rw [except_pure_ok] at h
            cases h
            exact hinv
          · split at h
            · rw [except_pure_ok] at h
              cases h
              exact hinv
            · try dsimp only at h
              rw [except_bind_ok] at h
              obtain ⟨s1, hset, h⟩ := h
              rw [except_pure_ok] at h
              cases h
              have hinv1 : EnergyInv s1 := by
                refine energyInv_playersGetSet hget hset hinv ?_
                dsimp only
                exact ⟨by omega, by omega, hpsb.2.2⟩
              refine energyInv_of_energies ?_ ?_ hinv1
              · rw [check_winner_energies]
                rfl
              · exact congrArg MatchConfig.max_energy
                  (frame_trans (frame_trans (pushEvent_frame s1 _) (pushEvent_frame _ _))
                    (check_winner_frame _)).config
        · -- spell branch
          try dsimp only at h
          rw [except_bind_ok] at h
          obtain ⟨s1, hset, h⟩ := h
          have hinv1 : EnergyInv s1 := by
            refine energyInv_playersGetSet hget hset hinv ?_
            dsimp only
            exact ⟨by omega, by omega, hpsb.2.2⟩
          have hc1 : s1.config = s.config := by
            rcases playersSet_ok_cases hset with ⟨_, ht⟩ | ⟨_, ht⟩ <;> subst ht <;> rfl
          rw [except_bind_ok] at h
          obtain ⟨p, hres, h⟩ := h
          have hres_en : energies p.1 = energies s1 := by
            have hx := resolve_spell_energies (r := p.2) (by simpa using hres)
            exact hx
          have hres_cf : p.1.config = s1.config := by
            have hx := (resolve_spell_frame (r := p.2) (by simpa using hres)).config
            exact hx
          split at h
          · -- rollback
            rw [except_bind_ok] at h
            obtain ⟨s2, hmod, h⟩ := h
            rw [except_bind_ok] at h
            obtain ⟨ps2, hget2, h⟩ := h
            split at h
            · simp at h
            · rw [except_bind_ok] at h
              obtain ⟨s3, hset3, h⟩ := h
              rw [except_pure_ok] at h
              cases h
              have efin : energies s3 = energies s := by
                rcases playersGet_ok_cases hget with ⟨hi, hp⟩ | ⟨hi, hp⟩ <;> subst hp <;>
                  rcases playersSet_ok_cases hset with ⟨hi0, ht1⟩ | ⟨hi0, ht1⟩ <;>
                  first
                  | (exfalso; rcases hi with hx | hx <;> rcases hi0 with hy | hy <;> omega)
                  | (subst ht1
                     rcases modPlayer_ok_cases hmod with ⟨hi1, ht2⟩ | ⟨hi1, ht2⟩ <;>
                       first
                       | (exfalso; rcases hi with hx | hx <;> rcases hi1 with hy | hy <;> omega)
                       | (subst ht2
                          rcases playersGet_ok_cases hget2 with ⟨hi2, hp2⟩ | ⟨hi2, hp2⟩ <;>
                            first
                            | (exfalso
                               rcases hi with hx | hx <;> rcases hi2 with hy | hy <;> omega)
                            | (subst hp2
                               rcases playersSet_ok_cases hset3 with ⟨hi3, ht3⟩ | ⟨hi3, ht3⟩ <;>
                                 first
                                 | (exfalso
                                    rcases hi with hx | hx <;> rcases hi3 with hy | hy <;> omega)
                                 | (subst ht3
                                    simp only [energies, Prod.mk.injEq] at hres_en ⊢
                                    try dsimp only at hres_en
                                    try dsimp only
                                    omega))))
              have cfin : s3.config = s.config := by
                rcases playersSet_ok_cases hset3 with ⟨_, ht3⟩ | ⟨_, ht3⟩ <;> subst ht3 <;>
                  rcases modPlayer_ok_cases hmod with ⟨_, ht2⟩ | ⟨_, ht2⟩ <;> subst ht2 <;>
                  simpa [hc1] using hres_cf
              have hrest : EnergyInv s3 := energyInv_of_energies efin
                (congrArg MatchConfig.max_energy cfin) hinv
              refine energyInv_of_energies ?_ ?_ hrest
              · split
                · split <;> rfl
                · rfl
              · split
                · split <;> rfl
                · rfl
          · rw [except_pure_ok] at h
            cases h
            exact energyInv_of_energies hres_en
              (congrArg MatchConfig.max_energy hres_cf) hinv1

theorem attackAction_energies {s t : MatchState} {player attacker_slot : Int}
    {target : TargetRef} {r : StepResult}
    (h : attackAction s player attacker_slot target = .ok (t, r)) :
    energies t = energies s := by
  unfold attackAction at h
  split at h
  · rw [except_pure_ok] at h
    cases h
    rfl
  · rw [except_bind_ok] at h
    obtain ⟨ps, hget, h⟩ := h
    split at h
    · rw [except_pure_ok] at h
      cases h
      rfl
    · split at h
      · rw [except_pure_ok] at h
        cases h
        rfl
      · rename_i attacker _
        split at h
        · rw [except_pure_ok] at h
          cases h
          rfl
        · split at h
          · rw [except_pure_ok] at h
            cases h
            rfl
          · rw [except_bind_ok] at h
            obtain ⟨valid, hvalid, h⟩ := h
            split at h
            · rw [except_pure_ok] at h
              cases h
              rfl
            · try dsimp only at h
              split at h
              · try dsimp only at h
                rw [except_bind_ok] at h
                obtain ⟨p, hdp, h⟩ := h
                have e1 : energies p.1 = energies s :=
                  damage_player_energies (by simpa using hdp)
                split at h <;>
                  rw [except_bind_ok] at h
                case isTrue =>
                  obtain ⟨s2, hheal, h⟩ := h
                  have e2 := heal_player_energies hheal
                  rw [except_bind_ok] at h
                  obtain ⟨s3, hmodb, h⟩ := h
                  have e3 := modBoardCreature_energies hmodb
                  rw [except_pure_ok] at h
                  cases h
                  rw [check_winner_energies]
                  exact (e3.trans e2).trans e1
                case isFalse =>
                  obtain ⟨s2, hpure, h⟩ := h
                  rw [except_pure_ok] at hpure
                  subst hpure
                  rw [except_bind_ok] at h
                  obtain ⟨s3, hmodb, h⟩ := h
                  have e3 := modBoardCreature_energies hmodb
                  rw [except_pure_ok] at h
                  cases h
                  rw [check_winner_energies]
                  exact e3.trans e1
              · split at h
                · simp at h
                · rw [except_bind_ok] at h
                  obtain ⟨dps, hdps, h⟩ := h
                  rw [except_bind_ok] at h
                  obtain ⟨defOpt, hdef, h⟩ := h
                  cases defOpt with
                  | none =>
                    rw [except_pure_ok] at h
                    cases h
                    rfl
                  | some defender =>
                    try dsimp only at h
                    rw [except_bind_ok] at h
                    obtain ⟨p1, hd1, h⟩ := h
                    have e1 : energies p1.1 = energies s :=
                      damage_creature_energies (by simpa using hd1)
                    rw [except_bind_ok] at h
                    obtain ⟨p2, hd2, h⟩ := h
                    have e2 : energies p2.1 = energies p1.1 :=
                      damage_creature_energies (by simpa using hd2)
                    split at h <;>
                      rw [except_bind_ok] at h
                    case isTrue =>
                      obtain ⟨s4, hheal, h⟩ := h
                      have e3 := heal_player_energies hheal
                      rw [except_bind_ok] at h
                      obtain ⟨s5, hmodb, h⟩ := h
                      have e4 := modBoardCreature_energies hmodb
                      rw [except_pure_ok] at h
                      cases h
                      rw [check_winner_energies, remove_dead_energies]
                      exact ((e4.trans e3).trans e2).trans e1
                    case isFalse =>
                      obtain ⟨s4, hpure, h⟩ := h
                      rw [except_pure_ok] at hpure
                      subst hpure
                      rw [except_bind_ok] at h
                      obtain ⟨s5, hmodb, h⟩ := h
                      have e4 := modBoardCreature_energies hmodb
                      rw [except_pure_ok] at h
                      cases h
                      rw [check_winner_energies, remove_dead_energies]
                      exact (e4.trans e2).trans e1

theorem attackAction_energyInv {s t : MatchState} {player attacker_slot : Int}
    {target : TargetRef} {r : StepResult} (hinv : EnergyInv s)
    (h : attackAction s player attacker_slot target = .ok (t, r)) : EnergyInv t :=
  energyInv_of_energies (attackAction_energies h)
    (congrArg MatchConfig.max_energy (attackAction_frame h).config) hinv

theorem end_turn_energyInv {s t : MatchState} {player : Int} {r : StepResult}
    (hinv : EnergyInv s) (h : end_turn s player = .ok (t, r)) : EnergyInv t := by
  unfold end_turn at h
  split at h
  · rw [except_pure_ok] at h
    cases h
    exact hinv
  · try dsimp only at h
    rw [except_bind_ok] at h
    obtain ⟨s1, hst, h⟩ := h
    rw [except_pure_ok] at h
    cases h
    refine start_turn_energyInv ?_ hst
    exact hinv

theorem step_energyInv {s : MatchState} {a : Action} {out : MatchState × StepResult}
    (hdbc : costsNonnegDb s.cards = true) (hinv : EnergyInv s)
    (h : step s a = .ok out) : EnergyInv out.1 := by
  unfold step at h
  split at h
  · cases h
    exact hinv
  · obtain ⟨t, r2⟩ := out
    try dsimp only at h
    cases a with
    | play player hand_index target =>
      try dsimp only at h
      exact play_card_energyInv (by exact hdbc) (by exact hinv) h
    | attack player attacker_slot target =>
      try dsimp only at h
      exact attackAction_energyInv (by exact hinv) h
    | endTurn player =>
      try dsimp only at h
      exact end_turn_energyInv (by exact hinv) h

theorem dealStartingHands_energies {s t : MatchState} {n : Nat}
    (h : dealStartingHands s n = .ok t) : energies t = energies s := by
  induction n generalizing s with
  | zero =>
    unfold dealStartingHands at h
    cases h
    rfl
  | succ n ih =>
    unfold dealStartingHands at h
    rw [except_bind_ok] at h
    obtain ⟨s1, h1, h⟩ := h
    rw [except_bind_ok] at h
    obtain ⟨s2, h2, h⟩ := h
    rw [ih h, draw_one_energies h2, draw_one_energies h1]

theorem new_match_energyInv {cards : CardDatabase} {deck0 deck1 : List String}
    {seed : Int} {config : Option MatchConfig} {s : MatchState}
    (hmax : 0 ≤ (config.getD {}).max_energy)
    (h : new_match cards deck0 deck1 seed config = .ok s) : EnergyInv s := by
  unfold new_match at h
  try dsimp only at h
  split at h
  · cases h
  · try dsimp only at h
    rw [except_bind_ok] at h
    obtain ⟨s1, hdeal, h⟩ := h
    rw [except_bind_ok] at h
    obtain ⟨s2, hstart, h⟩ := h
    rw [except_pure_ok] at h
    subst h
    have hinv1 : EnergyInv s1 := by
      refine energyInv_of_energies (dealStartingHands_energies hdeal)
        (congrArg MatchConfig.max_energy (dealStartingHands_frame hdeal).config) ?_
      exact ⟨⟨le_refl 0, le_refl 0, hmax⟩, le_refl 0, le_refl 0, hmax⟩
    have h2 := start_turn_energyInv hinv1 hstart
    exact h2

/-- **C10.**  For every state reachable from `new_match` by any sequence of
completed `step` calls, both players satisfy
`0 <= energy <= energy_max <= config.max_energy`, provided the catalog
satisfies the validated-catalog contract (every card cost is non-negative)
and the configured energy cap is non-negative (true of the default
configuration): energy is only debited when the cost fits, start-of-turn
sets `energy` to the capped `energy_max`, and the spell rollback refunds
exactly the debited cost. -/
theorem C10_energy_bounds (cards : CardDatabase) (deck0 deck1 : List String)
    (seed : Int) (config : Option MatchConfig) (s : MatchState)
    (hdbc : costsNonnegDb cards = true)
    (hmax : 0 ≤ (config.getD {}).max_energy)
    (hreach : Reachable cards deck0 deck1 seed config s) :
    EnergyInv s := by
  suffices hinv : s.cards = cards ∧ EnergyInv s from hinv.2
  induction hreach with
  | init s0 hnm =>
    exact ⟨(new_match_ok hnm).1, new_match_energyInv hmax hnm⟩
  | next s0 a out hr hstep ih =>
    obtain ⟨hc, hinv⟩ := ih
    have hdb : costsNonnegDb s0.cards = true := by rw [hc]; exact hdbc
    constructor
    · cases hw : s0.winner with
      | none => exact ((step_log_frame hstep).1 hw).2.1.trans hc
      | some w => rw [(step_log_frame hstep).2 w hw]; exact hc
    · exact step_energyInv hdb hinv hstep

/-- Witness for C10: the state built by `new_match` on the concrete
summon-free catalog (reachable by the empty action sequence) satisfies the
energy bounds for both players. -/
theorem C10_witness :
    (new_match cexDbNS (deckOf "guy") (deckOf "guy") 11 none).map
      (fun s0 => decide ((0 ≤ s0.players.1.energy ∧
        s0.players.1.energy ≤ s0.players.1.energy_max ∧
        s0.players.1.energy_max ≤ s0.config.max_energy) ∧
        (0 ≤ s0.players.2.energy ∧
        s0.players.2.energy ≤ s0.players.2.energy_max ∧
        s0.players.2.energy_max ≤ s0.config.max_energy))) = .ok true := by
  have hok : isOkE (new_match cexDbNS (deckOf "guy") (deckOf "guy") 11 none) = true := by
    decide
  cases hnm : new_match cexDbNS (deckOf "guy") (deckOf "guy") 11 none with
  | error e => rw [hnm] at hok; simp [isOkE] at hok
  | ok s0 =>
    have hr : Reachable cexDbNS (deckOf "guy") (deckOf "guy") 11 none s0 :=
      Reachable.init s0 hnm
    have h := C10_energy_bounds cexDbNS (deckOf "guy") (deckOf "guy") 11 none s0
      (by decide) (by decide) hr
    simp [Except.map, decide_eq_true_eq]
    exact h

theorem discards_playersGetSet {s t : MatchState} {i : Int} {ps q : PlayerState}
    (hget : playersGet s i = .ok ps) (hset : playersSet s i q = .ok t)
    (hq : q.discard = ps.discard) : discards t = discards s := by
  rcases playersGet_ok_cases hget with ⟨hi, hp⟩ | ⟨hi, hp⟩ <;>
    rcases playersSet_ok_cases hset with ⟨hi', ht⟩ | ⟨hi', ht⟩
  · subst hp; rw [ht]; simp [discards, hq]
  · exfalso; rcases hi with h | h <;> rcases hi' with h' | h' <;> omega
  · exfalso; rcases hi with h | h <;> rcases hi' with h' | h' <;> omega
  · subst hp; rw [ht]; simp [discards, hq]

theorem draw_one_discards {s t : MatchState} {player : Int}
    (h : draw_one s player = .ok t) : discards t = discards s := by
  unfold draw_one at h
  rw [except_bind_ok] at h
  obtain ⟨ps, hget, h⟩ := h
  split at h
  · rw [except_pure_ok] at h
    exact h ▸ rfl
  · rw [except_bind_ok] at h
    obtain ⟨s1, hset, h⟩ := h
    rw [except_pure_ok] at h
    subst h
    have e1 := discards_playersGetSet hget hset rfl
    exact e1

theorem drawN_discards {s t : MatchState} {player : Int} {n : Nat}
    (h : drawN s player n = .ok t) : discards t = discards s := by
  induction n generalizing s with
  | zero => unfold drawN at h; cases h; rfl
  | succ n ih =>
    unfold drawN at h
    rw [except_bind_ok] at h
    obtain ⟨s1, h1, h2⟩ := h
    rw [ih h2, draw_one_discards h1]

theorem heal_player_discards {s t : MatchState} {player amount : Int}
    (h : heal_player s player amount = .ok t) : discards t = discards s := by
  unfold heal_player at h
  split at h
  · rw [except_pure_ok] at h
    exact h ▸ rfl
  · rw [except_bind_ok] at h
    obtain ⟨ps, hget, h⟩ := h
    rw [except_bind_ok] at h
    obtain ⟨s1, hset, h⟩ := h
    have t1 : discards s1 = discards s := discards_playersGetSet hget hset rfl
    try dsimp only at h
    split at h <;> rw [except_pure_ok] at h <;> subst h
    · exact t1
    · exact t1

theorem damage_player_discards {s t : MatchState} {player amount dealt : Int}
    (h : damage_player s player amount = .ok (t, dealt)) : discards t = discards s := by
  unfold damage_player at h
  split at h
  · rw [except_pure_ok] at h
    cases h
    rfl
  · rw [except_bind_ok] at h
    obtain ⟨ps, hget, h⟩ := h
    rw [except_bind_ok] at h
    obtain ⟨s1, hset, h⟩ := h
    rw [except_pure_ok] at h
    cases h
    have e1 := discards_playersGetSet hget hset rfl
    exact e1

theorem damage_creature_discards {s t : MatchState} {player slot amount dealt : Int}
    (h : damage_creature s player slot amount = .ok (t, dealt)) : discards t = discards s := by
  unfold damage_creature at h
  rw [except_bind_ok] at h
  obtain ⟨ps, hget, h⟩ := h
  rw [except_bind_ok] at h
  obtain ⟨c, hc, h⟩ := h
  match hcv : c with
  | none =>
    subst hcv
    rw [except_pure_ok] at h
    cases h
    rfl
  | some c =>
    subst hcv
    rw [except_bind_ok] at h
    obtain ⟨nb, hnb, h⟩ := h
    rw [except_bind_ok] at h
    obtain ⟨s1, hset, h⟩ := h
    rw [except_pure_ok] at h
    cases h
    have e1 := discards_playersGetSet hget hset rfl
    exact e1

theorem modBoardCreature_discards {s t : MatchState} {player slot : Int}
    {f : CreatureInstance → CreatureInstance}
    (h : modBoardCreature s player slot f = .ok t) : discards t = discards s := by
  unfold modBoardCreature at h
  rw [except_bind_ok] at h
  obtain ⟨ps, hget, h⟩ := h
  rw [except_bind_ok] at h
  obtain ⟨c, hc, h⟩ := h
  match hcv : c with
  | none =>
    subst hcv
    rw [except_pure_ok] at h
    exact h ▸ rfl
  | some c =>
    subst hcv
    rw [except_bind_ok] at h
    obtain ⟨nb, hnb, hset⟩ := h
    exact discards_playersGetSet hget hset rfl

theorem summonLoop_discards {player : Int} {token_card_id : String} {n : Nat}
    {s t : MatchState} (h : summonLoop player token_card_id s n = .ok t) :
    discards t = discards s := by
  induction n generalizing s with
  | zero => unfold summonLoop at h; cases h; rfl
  | succ n ih =>
    unfold summonLoop at h
    rw [except_bind_ok] at h
    obtain ⟨ps, hget, h⟩ := h
    split at h
    · rw [except_pure_ok] at h
      exact h ▸ rfl
    · rw [except_bind_ok] at h
      obtain ⟨token_def, htok, h⟩ := h
      split at h
      · exact ih h
      · rw [except_bind_ok] at h
        obtain ⟨s1, hmod, h⟩ := h
        try dsimp only at h
        have e1 : discards s1 = discards s := by
          rcases modPlayer_ok_cases hmod with ⟨_, ht⟩ | ⟨_, ht⟩ <;> subst ht <;>
            simp [discards]
        exact (ih h).trans e1

theorem applyEffect_discards {player enemy : Int} {target : Option TargetRef}
    {s t : MatchState} {eff : Effect} {v : Option StepResult}
    (h : applyEffect player enemy target s eff = .ok (t, v)) : discards t = discards s := by
  cases eff with
  | damage amount dt =>
    cases dt with
    | enemy_player =>
      unfold applyEffect at h
      cases target with
      | some tr =>
        try dsimp only at h
        split at h
        · rw [except_pure_ok] at h
          cases h
          rfl
        · rw [except_bind_ok] at h
          obtain ⟨p, hdp, h⟩ := h
          rw [except_pure_ok] at h
          cases h
          exact damage_player_discards hdp
      | none =>
        try dsimp only at h
        rw [except_bind_ok] at h
        obtain ⟨p, hdp, h⟩ := h
        rw [except_pure_ok] at h
        cases h
        exact damage_player_discards hdp
    | enemy_creature =>
      unfold applyEffect at h
      cases target with
      | some tr =>
        try dsimp only at h
        split at h
        · cases htr : tr.slot with
          | some sl =>
            rw [htr] at h
            rw [except_bind_ok] at h
            obtain ⟨p, hdp, h⟩ := h
            rw [except_pure_ok] at h
            cases h
            exact damage_creature_discards hdp
          | none =>
            rw [htr] at h
            simp at h
        · rw [except_pure_ok] at h
          cases h
          rfl
      | none =>
        try dsimp only at h
        rw [except_pure_ok] at h
        cases h
        rfl
    | any =>
      unfold applyEffect at h
      cases target with
      | some tr =>
        try dsimp only at h
        split at h
        · rw [except_bind_ok] at h
          obtain ⟨p, hdp, h⟩ := h
          rw [except_pure_ok] at h
          cases h
          exact damage_player_discards hdp
        · cases htr : tr.slot with
          | some sl =>
            rw [htr] at h
            rw [except_bind_ok] at h
            obtain ⟨p, hdp, h⟩ := h
            rw [except_pure_ok] at h
            cases h
            exact damage_creature_discards hdp
          | none =>
            rw [htr] at h
            simp at h
      | none =>
        try dsimp only at h
        rw [except_pure_ok] at h
        cases h
        rfl
  | heal amount ht =>
    cases ht with
    | self_player =>
      unfold applyEffect at h
      rw [except_bind_ok] at h
      obtain ⟨s1, hhp, h⟩ := h
      rw [except_pure_ok] at h
      cases h
      exact heal_player_discards hhp
    | self_creature =>
      unfold applyEffect at h
      cases target with
      | some tr =>
        try dsimp only at h
        split at h
        · cases htr : tr.slot with
          | some sl =>
            rw [htr] at h
            try dsimp only at h
            rw [except_bind_ok] at h
            obtain ⟨ps, hget, h⟩ := h
            rw [except_bind_ok] at h
            obtain ⟨c, hc, h⟩ := h
            cases c with
            | none =>
              rw [except_pure_ok] at h
              cases h
              rfl
            | some c =>
              rw [except_bind_ok] at h
              obtain ⟨nb, hnb, h⟩ := h
              rw [except_bind_ok] at h
              obtain ⟨s1, hset, h⟩ := h
              have e1 : discards s1 = discards s :=
                discards_playersGetSet hget hset rfl
              try dsimp only at h
              split at h <;> rw [except_pure_ok] at h <;> cases h
              · exact e1
              · exact e1
          | none =>
            rw [htr] at h
            simp at h
        · rw [except_pure_ok] at h
          cases h
          rfl
      | none =>
        try dsimp only at h
        rw [except_pure_ok] at h
        cases h
        rfl
  | draw count =>
    unfold applyEffect at h
    rw [except_bind_ok] at h
    obtain ⟨s1, hdrw, h⟩ := h
    rw [except_pure_ok] at h
    cases h
    exact drawN_discards hdrw
  | buff ad hd bt =>
    unfold applyEffect at h
    try dsimp only at h
    split at h
    · rw [except_pure_ok] at h
      cases h
      rfl
    · split at h
      · simp at h
      · split at h
        · simp at h
        · rw [except_bind_ok] at h
          obtain ⟨ps, hget, h⟩ := h
          rw [except_bind_ok] at h
          obtain ⟨c, hc, h⟩ := h
          cases c with
          | none =>
            rw [except_pure_ok] at h
            cases h
            rfl
          | some c =>
            rw [except_bind_ok] at h
            obtain ⟨nb, hnb, h⟩ := h
            rw [except_bind_ok] at h
            obtain ⟨s1, hset, h⟩ := h
            rw [except_pure_ok] at h
            cases h
            have e1 := discards_playersGetSet hget hset rfl
            exact e1
  | summon tid count =>
    unfold applyEffect at h
    rw [except_bind_ok] at h
    obtain ⟨s1, hsm, h⟩ := h
    rw [except_pure_ok] at h
    cases h
    exact summonLoop_discards hsm

theorem runEffects_discards {player enemy : Int} {target : Option TargetRef}
    {s t : MatchState} {effs : List Effect} {v : Option StepResult}
    (h : runEffects player enemy target s effs = .ok (t, v)) : discards t = discards s := by
  induction effs generalizing s with
  | nil => unfold runEffects at h; cases h; rfl
  | cons eff rest ih =>
    unfold runEffects at h
    rw [except_bind_ok] at h
    obtain ⟨p, happ, h⟩ := h
    have e1 : discards p.1 = discards s := applyEffect_discards (v := p.2) (by simpa using happ)
    split at h
    · rw [except_pure_ok] at h
      cases h
      exact e1
    · rw [ih h, e1]

theorem resolve_spell_fail_discards {s t : MatchState} {player : Int}
    {card : CardDefinition} {target : Option TargetRef} {r : StepResult}
    (h : resolve_spell s player card target = .ok (t, r)) (hr : r.ok = false) :
    discards t = discards s := by
  unfold resolve_spell at h
  rw [except_bind_ok] at h
  obtain ⟨p, hrun, h⟩ := h
  split at h
  · rw [except_pure_ok] at h
    cases h
    exact runEffects_discards (v := p.2) (by simpa using hrun)
  · rw [except_pure_ok] at h
    cases h
    simp at hr

theorem bind_ok_eq {α β : Type} {g : Except String α} {f : α → Except String β} {a : α}
    (hg : g = .ok a) : g >>= f = f a := by
  rw [hg]
  rfl

theorem playersGet_ok01 {s : MatchState} {i : Int} (h : i = 0 ∨ i = 1) :
    ∃ p, playersGet s i = .ok p := by
  rcases h with rfl | rfl
  · exact ⟨_, playersGet_zero s⟩
  · exact ⟨_, playersGet_one s⟩

theorem playersSet_ok01 {s : MatchState} {i : Int} (p : PlayerState) (h : i = 0 ∨ i = 1) :
    ∃ t, playersSet s i p = .ok t := by
  rcases h with rfl | rfl
  · exact ⟨_, playersSet_zero s p⟩
  · exact ⟨_, playersSet_one s p⟩

theorem modPlayer_ok (s : MatchState) (f : PlayerState → PlayerState) {i : Int}
    (h : i = 0 ∨ i = 1) : ∃ t, modPlayer s i f = .ok t := by
  rcases h with rfl | rfl
  · exact ⟨_, by unfold modPlayer; rw [bind_ok_eq (playersGet_zero s)]; exact playersSet_zero s _⟩
  · exact ⟨_, by unfold modPlayer; rw [bind_ok_eq (playersGet_one s)]; exact playersSet_one s _⟩

theorem pyListGet_ok {α : Type} [Inhabited α] {xs : List α} {i : Int}
    (h0 : 0 ≤ i) (h1 : i < (xs.length : Int)) :
    pyListGet xs i = .ok (xs.getD i.toNat default) := by
  unfold pyListGet pyIdx
  rw [if_pos ⟨h0, h1⟩]

theorem pyListSet_ok {α : Type} {xs : List α} {i : Int} (v : α)
    (h0 : 0 ≤ i) (h1 : i < (xs.length : Int)) :
    pyListSet xs i v = .ok (xs.set i.toNat v) := by
  unfold pyListSet pyIdx
  rw [if_pos ⟨h0, h1⟩]

theorem draw_one_ok {s : MatchState} {player : Int}
    (hp : player = 0 ∨ player = 1) : ∃ t, draw_one s player = .ok t := by
  unfold draw_one
  obtain ⟨ps, hget⟩ := playersGet_ok01 hp
  rw [bind_ok_eq hget]
  try dsimp only
  split
  · exact ⟨s, rfl⟩
  · obtain ⟨s1, hset⟩ := playersSet_ok01 _ hp
    rw [bind_ok_eq hset]
    exact ⟨_, rfl⟩

theorem drawN_ok {s : MatchState} {player : Int} {n : Nat}
    (hp : player = 0 ∨ player = 1) : ∃ t, drawN s player n = .ok t := by
  induction n generalizing s with
  | zero => exact ⟨s, rfl⟩
  | succ n ih =>
    unfold drawN
    obtain ⟨s1, h1⟩ := draw_one_ok hp
    rw [bind_ok_eq h1]
    exact ih

theorem heal_player_ok {s : MatchState} {player amount : Int}
    (hp : player = 0 ∨ player = 1) : ∃ t, heal_player s player amount = .ok t := by
  unfold heal_player
  split
  · exact ⟨s, rfl⟩
  · obtain ⟨ps, hget⟩ := playersGet_ok01 hp
    rw [bind_ok_eq hget]
    try dsimp only
    obtain ⟨s1, hset⟩ := playersSet_ok01 _ hp
    rw [bind_ok_eq hset]
    try dsimp only
    split
    · exact ⟨_, rfl⟩
    · exact ⟨_, rfl⟩

theorem damage_player_ok {s : MatchState} {player amount : Int}
    (hp : player = 0 ∨ player = 1) : ∃ out, damage_player s player amount = .ok out := by
  unfold damage_player
  split
  · exact ⟨_, rfl⟩
  · obtain ⟨ps, hget⟩ := playersGet_ok01 hp
    rw [bind_ok_eq hget]
    try dsimp only
    obtain ⟨s1, hset⟩ := playersSet_ok01 _ hp
    rw [bind_ok_eq hset]
    exact ⟨_, rfl⟩

theorem damage_creature_ok {s : MatchState} {player slot amount : Int}
    (hp : player = 0 ∨ player = 1) (h0 : 0 ≤ slot)
    (hl : slot < (boardLen s player : Int)) :
    ∃ out, damage_creature s player slot amount = .ok out := by
  unfold damage_creature
  obtain ⟨ps, hget⟩ := playersGet_ok01 hp
  have hlen : slot < (ps.board.length : Int) := by
    rcases hp with rfl | rfl <;>
      rcases playersGet_ok_cases hget with ⟨hi, hq⟩ | ⟨hi, hq⟩ <;>
        first
        | (exfalso; rcases hi with hx | hx <;> omega)
        | (subst hq; unfold boardLen at hl; simpa using hl)
  rw [bind_ok_eq hget]
  try dsimp only
  rw [bind_ok_eq (pyListGet_ok h0 hlen)]
  try dsimp only
  cases hc : ps.board.getD slot.toNat default with
  | none => exact ⟨_, rfl⟩
  | some c =>
    try dsimp only
    rw [bind_ok_eq (pyListSet_ok _ h0 hlen)]
    try dsimp only
    obtain ⟨s1, hset⟩ := playersSet_ok01 _ hp
    rw [bind_ok_eq hset]
    exact ⟨_, rfl⟩

theorem modBoardCreature_ok {s : MatchState} {player slot : Int}
    {f : CreatureInstance → CreatureInstance}
    (hp : player = 0 ∨ player = 1) (h0 : 0 ≤ slot)
    (hl : slot < (boardLen s player : Int)) :
    ∃ t, modBoardCreature s player slot f = .ok t := by
  unfold modBoardCreature
  obtain ⟨ps, hget⟩ := playersGet_ok01 hp
  have hlen : slot < (ps.board.length : Int) := by
    rcases hp with rfl | rfl <;>
      rcases playersGet_ok_cases hget with ⟨hi, hq⟩ | ⟨hi, hq⟩ <;>
        first
        | (exfalso; rcases hi with hx | hx <;> omega)
        | (subst hq; unfold boardLen at hl; simpa using hl)
  rw [bind_ok_eq hget]
  try dsimp only
  rw [bind_ok_eq (pyListGet_ok h0 hlen)]
  try dsimp only
  cases hc : ps.board.getD slot.toNat default with
  | none => exact ⟨_, rfl⟩
  | some c =>
    try dsimp only
    rw [bind_ok_eq (pyListSet_ok _ h0 hlen)]
    exact playersSet_ok01 _ hp

theorem summonLoop_ok {player : Int} {tid : String} {n : Nat} {s : MatchState}
    (hp : player = 0 ∨ player = 1)
    (htok : (s.cards.cards.lookup tid).isSome = true) :
    ∃ t, summonLoop player tid s n = .ok t := by
  induction n generalizing s with
  | zero => exact ⟨s, rfl⟩
  | succ n ih =>
    unfold summonLoop
    obtain ⟨ps, hget⟩ := playersGet_ok01 hp
    rw [bind_ok_eq hget]
    try dsimp only
    cases hslot : find_empty_slot ps.board with
    | none => exact ⟨s, rfl⟩
    | some slot =>
      try dsimp only
      obtain ⟨cdef, hc⟩ : ∃ c, s.cards.cards.lookup tid = some c := by
        cases hlk : s.cards.cards.lookup tid with
        | none => rw [hlk] at htok; simp at htok
        | some c => exact ⟨c, rfl⟩
      have hget2 : s.cards.get tid = .ok cdef := by
        unfold CardDatabase.get
        rw [hc]
      rw [bind_ok_eq hget2]
      try dsimp only
      cases hcs : cdef.creature_stats with
      | none => exact ih htok
      | some stats =>
        try dsimp only
        obtain ⟨s1, hmod⟩ := modPlayer_ok s _ hp
        rw [bind_ok_eq hmod]
        try dsimp only
        refine ih ?_
        show (s1.cards.cards.lookup tid).isSome = true
        rw [(modPlayer_frame hmod (fun q => by simp)).cards]
        exact htok

theorem boardLen_bound {s : MatchState} {i sl : Int} (hi : i = 0 ∨ i = 1)
    (h1 : sl < (s.players.1.board.length : Int))
    (h2 : sl < (s.players.2.board.length : Int)) :
    sl < (boardLen s i : Int) := by
  rcases hi with rfl | rfl
  · simpa [boardLen] using h1
  · simpa [boardLen] using h2

theorem applyEffect_ok {player enemy : Int} {target : Option TargetRef} {s : MatchState}
    {eff : Effect}
    (hp : player = 0 ∨ player = 1) (he : enemy = 0 ∨ enemy = 1)
    (htgt : ∀ t, target = some t → (t.player = 0 ∨ t.player = 1) ∧
      (t.kind = .creature → ∃ sl, t.slot = some sl ∧ 0 ≤ sl ∧
        sl < (s.players.1.board.length : Int) ∧ sl < (s.players.2.board.length : Int)))
    (htok : ∀ tid cnt, eff = .summon tid cnt → (s.cards.cards.lookup tid).isSome = true) :
    ∃ out, applyEffect player enemy target s eff = .ok out := by
  cases eff with
  | damage amount dt =>
    cases dt with
    | enemy_player =>
      unfold applyEffect
      cases target with
      | some tr =>
        try dsimp only
        split
        · exact ⟨_, rfl⟩
        · obtain ⟨p, hdp⟩ := damage_player_ok he
          rw [bind_ok_eq hdp]
          exact ⟨_, rfl⟩
      | none =>
        try dsimp only
        obtain ⟨p, hdp⟩ := damage_player_ok he
        rw [bind_ok_eq hdp]
        exact ⟨_, rfl⟩
    | enemy_creature =>
      unfold applyEffect
      cases target with
      | none => exact ⟨_, rfl⟩
      | some tr =>
        try dsimp only
        split
        · rename_i hcond
          obtain ⟨hT, hsl⟩ := htgt tr rfl
          obtain ⟨sl, hslot, h0, hb1, hb2⟩ := hsl hcond.1
          rw [hslot]
          try dsimp only
          obtain ⟨p, hdp⟩ := damage_creature_ok he h0 (boardLen_bound he hb1 hb2)
          rw [bind_ok_eq hdp]
          exact ⟨_, rfl⟩
        · exact ⟨_, rfl⟩
    | any =>
      unfold applyEffect
      cases target with
      | none => exact ⟨_, rfl⟩
      | some tr =>
        try dsimp only
        obtain ⟨hT, hsl⟩ := htgt tr rfl
        split
        · obtain ⟨p, hdp⟩ := damage_player_ok hT
          rw [bind_ok_eq hdp]
          exact ⟨_, rfl⟩
        · rename_i hknp
          have hkc : tr.kind = .creature := by
            cases hk : tr.kind
            · exact absurd hk hknp
            · rfl
          obtain ⟨sl, hslot, h0, hb1, hb2⟩ := hsl hkc
          rw [hslot]
          try dsimp only
          obtain ⟨p, hdp⟩ := damage_creature_ok hT h0 (boardLen_bound hT hb1 hb2)
          rw [bind_ok_eq hdp]
          exact ⟨_, rfl⟩
  | heal amount ht =>
    cases ht with
    | self_player =>
      unfold applyEffect
      try dsimp only
      obtain ⟨s1, hhp⟩ := heal_player_ok hp
      rw [bind_ok_eq hhp]
      exact ⟨_, rfl⟩
    | self_creature =>
      unfold applyEffect
      cases target with
      | none => exact ⟨_, rfl⟩
      | some tr =>
        try dsimp only
        split
        · rename_i hcond
          obtain ⟨hT, hsl⟩ := htgt tr rfl
          obtain ⟨sl, hslot, h0, hb1, hb2⟩ := hsl hcond.1
          rw [hslot]
          try dsimp only
          obtain ⟨ps, hget⟩ : ∃ p, playersGet s player = .ok p := playersGet_ok01 hp
          have hlen : sl < (ps.board.length : Int) := by
            rcases hp with rfl | rfl <;>
              rcases playersGet_ok_cases hget with ⟨hi, hq⟩ | ⟨hi, hq⟩ <;>
                first
                | (exfalso; rcases hi with hx | hx <;> omega)
                | (subst hq; first | exact hb1 | exact hb2)
          rw [bind_ok_eq hget]
          try dsimp only
          rw [bind_ok_eq (pyListGet_ok h0 hlen)]
          try dsimp only
          cases hc : ps.board.getD sl.toNat default with
          | none => exact ⟨_, rfl⟩
          | some c =>
            try dsimp only
            rw [bind_ok_eq (pyListSet_ok _ h0 hlen)]
            try dsimp only
            obtain ⟨s1, hset⟩ := playersSet_ok01 _ hp
            rw [bind_ok_eq hset]
            try dsimp only
            split
            · exact ⟨_, rfl⟩
            · exact ⟨_, rfl⟩
        · exact ⟨_, rfl⟩
  | draw count =>
    unfold applyEffect
    try dsimp only
    obtain ⟨s1, hdrw⟩ := drawN_ok hp
    rw [bind_ok_eq hdrw]
    exact ⟨_, rfl⟩
  | buff ad hd bt =>
    unfold applyEffect
    cases bt with
    | self_creature =>
      cases target with
      | none => exact ⟨_, rfl⟩
      | some tr =>
        try dsimp only
        split
        · exact ⟨_, rfl⟩
        · rename_i hnone
          split at hnone
          case isFalse => simp at hnone
          rename_i hcond
          try dsimp only
          obtain ⟨hT, hsl⟩ := htgt tr rfl
          obtain ⟨sl, hslot, h0, hb1, hb2⟩ := hsl hcond.1
          rw [hslot]
          try dsimp only
          obtain ⟨ps, hget⟩ : ∃ p, playersGet s tr.player = .ok p := playersGet_ok01 hT
          have hlen : sl < (ps.board.length : Int) := by
            rcases hT with h01 | h01 <;> rw [h01] at hget <;>
              rcases playersGet_ok_cases hget with ⟨hi, hq⟩ | ⟨hi, hq⟩ <;>
                first
                | (exfalso; rcases hi with hx | hx <;> omega)
                | (subst hq; first | exact hb1 | exact hb2)
          rw [bind_ok_eq hget]
          try dsimp only
          rw [bind_ok_eq (pyListGet_ok h0 hlen)]
          try dsimp only
          cases hc : ps.board.getD sl.toNat default with
          | none => exact ⟨_, rfl⟩
          | some c =>
            try dsimp only
            rw [bind_ok_eq (pyListSet_ok _ h0 hlen)]
            try dsimp only
            obtain ⟨s1, hset⟩ := playersSet_ok01 _ hT
            rw [bind_ok_eq hset]
            exact ⟨_, rfl⟩
    | any_creature =>
      cases target with
      | none => exact ⟨_, rfl⟩
      | some tr =>
        try dsimp only
        split
        · exact ⟨_, rfl⟩
        · rename_i hnone
          split at hnone
          case isFalse => simp at hnone
          rename_i hkc
          try dsimp only
          obtain ⟨hT, hsl⟩ := htgt tr rfl
          obtain ⟨sl, hslot, h0, hb1, hb2⟩ := hsl hkc
          rw [hslot]
          try dsimp only
          obtain ⟨ps, hget⟩ : ∃ p, playersGet s tr.player = .ok p := playersGet_ok01 hT
          have hlen : sl < (ps.board.length : Int) := by
            rcases hT with h01 | h01 <;> rw [h01] at hget <;>
              rcases playersGet_ok_cases hget with ⟨hi, hq⟩ | ⟨hi, hq⟩ <;>
                first
                | (exfalso; rcases hi with hx | hx <;> omega)
                | (subst hq; first | exact hb1 | exact hb2)
          rw [bind_ok_eq hget]
          try dsimp only
          rw [bind_ok_eq (pyListGet_ok h0 hlen)]
          try dsimp only
          cases hc : ps.board.getD sl.toNat default with
          | none => exact ⟨_, rfl⟩
          | some c =>
            try dsimp only
            rw [bind_ok_eq (pyListSet_ok _ h0 hlen)]
            try dsimp only
            obtain ⟨s1, hset⟩ := playersSet_ok01 _ hT
            rw [bind_ok_eq hset]
            exact ⟨_, rfl⟩
  | summon tid cnt =>
    unfold applyEffect
    try dsimp only
    obtain ⟨s1, hsm⟩ := summonLoop_ok hp (htok tid cnt rfl)
    rw [bind_ok_eq hsm]
    exact ⟨_, rfl⟩

theorem runEffects_ok {player enemy : Int} {target : Option TargetRef} {s : MatchState}
    {effs : List Effect}
    (hp : player = 0 ∨ player = 1) (he : enemy = 0 ∨ enemy = 1)
    (htgt : ∀ t, target = some t → (t.player = 0 ∨ t.player = 1) ∧
      (t.kind = .creature → ∃ sl, t.slot = some sl ∧ 0 ≤ sl ∧
        sl < (s.players.1.board.length : Int) ∧ sl < (s.players.2.board.length : Int)))
    (htok : ∀ tid cnt, Effect.summon tid cnt ∈ effs →
      (s.cards.cards.lookup tid).isSome = true) :
    ∃ out, runEffects player enemy target s effs = .ok out := by
  induction effs generalizing s with
  | nil => exact ⟨(s, none), rfl⟩
  | cons eff rest ih =>
    unfold runEffects
    obtain ⟨p, happ⟩ := applyEffect_ok hp he htgt
      (fun tid cnt heq => htok tid cnt (by rw [← heq]; exact List.mem_cons_self _ _))
    rw [bind_ok_eq happ]
    try dsimp only
    have fr := applyEffect_frame (v := p.2) (by simpa using happ)
    cases hp2 : p.2 with
    | some res => exact ⟨_, rfl⟩
    | none =>
      refine ih ?_ ?_
      · intro t ht
        obtain ⟨hT, hsl⟩ := htgt t ht
        refine ⟨hT, fun hkc => ?_⟩
        obtain ⟨sl, h1, h2, h3, h4⟩ := hsl hkc
        exact ⟨sl, h1, h2, by rw [fr.board1]; exact h3, by rw [fr.board2]; exact h4⟩
      · intro tid cnt hmem
        rw [fr.cards]
        exact htok tid cnt (List.mem_cons_of_mem _ hmem)

theorem resolve_spell_ok {s : MatchState} {player : Int} {card : CardDefinition}
    {target : Option TargetRef}
    (hp : player = 0 ∨ player = 1)
    (htgt : ∀ t, target = some t → (t.player = 0 ∨ t.player = 1) ∧
      (t.kind = .creature → ∃ sl, t.slot = some sl ∧ 0 ≤ sl ∧
        sl < (s.players.1.board.length : Int) ∧ sl < (s.players.2.board.length : Int)))
    (htok : ∀ tid cnt, Effect.summon tid cnt ∈ card.effects →
      (s.cards.cards.lookup tid).isSome = true) :
    ∃ out, resolve_spell s player card target = .ok out := by
  unfold resolve_spell
  try dsimp only
  have he : s.opponent player = 0 ∨ s.opponent player = 1 := by
    rcases hp with rfl | rfl
    · right; rfl
    · left; rfl
  obtain ⟨p, hrun⟩ := runEffects_ok hp he htgt htok
  rw [bind_ok_eq hrun]
  try dsimp only
  cases hp2 : p.2 with
  | some res => exact ⟨_, rfl⟩
  | none => exact ⟨_, rfl⟩

theorem exists_ok_bind {α β : Type} {g : Except String α} {f : α → Except String β}
    (hg : ∃ a, g = .ok a) (hf : ∀ a, g = .ok a → ∃ b, f a = .ok b) :
    ∃ b, (g >>= f) = .ok b := by
  obtain ⟨a, ha⟩ := hg
  obtain ⟨b, hb⟩ := hf a ha
  exact ⟨b, by rw [bind_ok_eq ha]; exact hb⟩

theorem boardLen_frame {s t : MatchState} (fr : Frame s t) (i : Int) :
    boardLen t i = boardLen s i := by
  unfold boardLen
  rw [fr.board1, fr.board2]

theorem start_turn_ok {s : MatchState} {player : Int}
    (hp : player = 0 ∨ player = 1) : ∃ t, start_turn s player = .ok t := by
  unfold start_turn
  refine exists_ok_bind (playersGet_ok01 hp) (fun ps hget => ?_)
  try dsimp only
  refine exists_ok_bind (playersSet_ok01 _ hp) (fun s1 hset => ?_)
  try dsimp only
  split
  · refine exists_ok_bind (draw_one_ok hp) (fun s2 hdr => ?_)
    try dsimp only
    refine exists_ok_bind (modPlayer_ok s2 _ hp) (fun s3 hmod => ?_)
    try dsimp only
    refine exists_ok_bind (playersGet_ok01 hp) (fun ps3 hget3 => ?_)
    exact ⟨_, rfl⟩
  · refine exists_ok_bind ⟨s1, rfl⟩ (fun s2 hdr => ?_)
    try dsimp only
    refine exists_ok_bind (modPlayer_ok s2 _ hp) (fun s3 hmod => ?_)
    try dsimp only
    refine exists_ok_bind (playersGet_ok01 hp) (fun ps3 hget3 => ?_)
    exact ⟨_, rfl⟩

theorem end_turn_ok (s : MatchState) (player : Int)
    (hcur : s.current_player = 0 ∨ s.current_player = 1) :
    ∃ out, end_turn s player = .ok out := by
  unfold end_turn
  split
  · exact ⟨_, rfl⟩
  · try dsimp only
    refine exists_ok_bind (start_turn_ok ?_) (fun s1 h1 => ⟨_, rfl⟩)
    show 1 - s.current_player = 0 ∨ 1 - s.current_player = 1
    omega

theorem valid_attack_targets_ok {s : MatchState} {ap : Int}
    (hd : s.opponent ap = 0 ∨ s.opponent ap = 1) :
    ∃ v, valid_attack_targets s ap = .ok v := by
  unfold valid_attack_targets
  try dsimp only
  refine exists_ok_bind (playersGet_ok01 hd) (fun dps hdps => ?_)
  try dsimp only
  split
  · exact ⟨_, rfl⟩
  · exact ⟨_, rfl⟩

theorem boardAttackTargets_shape {d : Int} {g : Bool} {k : Nat}
    {b : List (Option CreatureInstance)} {tr : TargetRef}
    (h : tr ∈ boardAttackTargets d g k b) :
    tr.kind = .creature ∧ ∃ n : Nat, tr.slot = some ((n : Nat) : Int) ∧ k ≤ n ∧ n < k + b.length := by
  induction b generalizing k with
  | nil => cases h
  | cons c rest ih =>
    cases c with
    | none =>
      obtain ⟨hk, n, h1, h2, h3⟩ := ih h
      exact ⟨hk, n, h1, by omega, by simp only [List.length_cons]; omega⟩
    | some cr =>
      unfold boardAttackTargets at h
      split at h
      · obtain ⟨hk, n, h1, h2, h3⟩ := ih h
        exact ⟨hk, n, h1, by omega, by simp only [List.length_cons]; omega⟩
      · rcases List.mem_cons.mp h with rfl | h
        · exact ⟨rfl, k, rfl, le_refl k, by simp only [List.length_cons]; omega⟩
        · obtain ⟨hk, n, h1, h2, h3⟩ := ih h
          exact ⟨hk, n, h1, by omega, by simp only [List.length_cons]; omega⟩

theorem attack_target_creature_shape {s : MatchState} {ap : Int} {v : List TargetRef}
    {tr : TargetRef} (he : s.opponent ap = 0 ∨ s.opponent ap = 1)
    (hv : valid_attack_targets s ap = .ok v) (hm : tr ∈ v) (hk : ¬tr.kind = .player) :
    ∃ n : Nat, tr.slot = some ((n : Nat) : Int) ∧ n < boardLen s (s.opponent ap) := by
  unfold valid_attack_targets at hv
  try dsimp only at hv
  rw [except_bind_ok] at hv
  obtain ⟨dps, hdps, hv⟩ := hv
  have hlen : dps.board.length = boardLen s (s.opponent ap) := by
    rcases he with h01 | h01 <;> rw [h01] at hdps ⊢ <;>
      rcases playersGet_ok_cases hdps with ⟨hi, hq⟩ | ⟨hi, hq⟩ <;>
        first
        | (exfalso; rcases hi with hx | hx <;> omega)
        | (subst hq; simp [boardLen])
  try dsimp only at hv
  split at hv
  · rw [except_pure_ok] at hv
    subst hv
    rcases List.mem_append.mp hm with h | h
    · obtain ⟨_, n, h1, h2, h3⟩ := boardAttackTargets_shape h
      exact ⟨n, h1, by omega⟩
    · exfalso
      rcases List.mem_singleton.mp h with rfl
      exact hk rfl
  · rw [except_pure_ok] at hv
    subst hv
    obtain ⟨_, n, h1, h2, h3⟩ := boardAttackTargets_shape hm
    exact ⟨n, h1, by omega⟩

theorem db_get_tokensClosed {db : CardDatabase} {cid : String} {card : CardDefinition}
    (hdb : tokensClosedDb db = true) (hget : db.get cid = .ok card) :
    ∀ tid cnt, Effect.summon tid cnt ∈ card.effects →
      (db.cards.lookup tid).isSome = true := by
  intro tid cnt hmem
  unfold CardDatabase.get at hget
  cases hl : db.cards.lookup cid with
  | none => rw [hl] at hget; cases hget
  | some c =>
    rw [hl] at hget
    cases hget
    have hmm : (cid, card) ∈ db.cards := lookup_mem hl
    unfold tokensClosedDb at hdb
    rw [List.all_eq_true] at hdb
    have h2 := hdb _ hmm
    rw [List.all_eq_true] at h2
    have h3 := h2 _ hmem
    simpa using h3

theorem attackAction_ok (s : MatchState) (player attacker_slot : Int) (target : TargetRef)
    (hcur : s.current_player = 0 ∨ s.current_player = 1) :
    ∃ out, attackAction s player attacker_slot target = .ok out := by
  unfold attackAction
  split
  · exact ⟨_, rfl⟩
  · rename_i hne
    push_neg at hne
    have hp : player = 0 ∨ player = 1 := by rw [hne]; exact hcur
    have he : s.opponent player = 0 ∨ s.opponent player = 1 := by
      unfold MatchState.opponent
      omega
    refine exists_ok_bind (playersGet_ok01 hp) (fun ps hget => ?_)
    try dsimp only
    split
    · exact ⟨_, rfl⟩
    · rename_i hrange
      push_neg at hrange
      obtain ⟨h0, hlt⟩ := hrange
      have hbl : attacker_slot < (boardLen s player : Int) := by
        rcases hp with rfl | rfl <;>
          rcases playersGet_ok_cases hget with ⟨hi, hq⟩ | ⟨hi, hq⟩ <;>
            first
            | (exfalso; rcases hi with hx | hx <;> omega)
            | (subst hq; simpa [boardLen] using hlt)
      cases hatt : ps.board.getD attacker_slot.toNat none with
      | none => exact ⟨_, rfl⟩
      | some attacker =>
        try dsimp only
        split
        · exact ⟨_, rfl⟩
        · split
          · exact ⟨_, rfl⟩
          · refine exists_ok_bind (valid_attack_targets_ok he) (fun valid hvalid => ?_)
            try dsimp only
            split
            · exact ⟨_, rfl⟩
            · rename_i hmem
              rw [not_not] at hmem
              try dsimp only
              split
              · -- attack the defending player
                refine exists_ok_bind (damage_player_ok he) (fun p hdp => ?_)
                try dsimp only
                have fr1 : Frame s p.1 := damage_player_frame (by simpa using hdp)
                split
                · refine exists_ok_bind (heal_player_ok hp) (fun s2 hheal => ?_)
                  try dsimp only
                  refine exists_ok_bind (modBoardCreature_ok hp h0 ?_)
                    (fun s3 hmod => ⟨_, rfl⟩)
                  rw [boardLen_frame (frame_trans fr1 (heal_player_frame hheal))]
                  exact hbl
                · refine exists_ok_bind ⟨p.1, rfl⟩ (fun s2 hpure => ?_)
                  have hs2 : p.1 = s2 := by cases hpure; rfl
                  subst hs2
                  refine exists_ok_bind (modBoardCreature_ok hp h0 ?_)
                    (fun s3 hmod => ⟨_, rfl⟩)
                  rw [boardLen_frame fr1]
                  exact hbl
              · -- attack a defending creature
                rename_i hknp
                obtain ⟨n, hslot, hnlen⟩ :=
                  attack_target_creature_shape he hvalid hmem hknp
                rw [hslot]
                try dsimp only
                refine exists_ok_bind (playersGet_ok01 he) (fun dps hdps => ?_)
                try dsimp only
                have hnb : (n : Int) < (dps.board.length : Int) := by
                  rcases he with h01 | h01 <;> rw [h01] at hdps <;>
                    rcases playersGet_ok_cases hdps with ⟨hi, hq⟩ | ⟨hi, hq⟩ <;>
                      first
                      | (exfalso; rcases hi with hx | hx <;> omega)
                      | (subst hq
                         rw [h01] at hnlen
                         simp only [boardLen, if_true, if_false] at hnlen
                         exact_mod_cast hnlen)
                refine exists_ok_bind ⟨_, pyListGet_ok (by positivity) hnb⟩
                  (fun defOpt hdef => ?_)
                cases defOpt with
                | none => exact ⟨_, rfl⟩
                | some defender =>
                  try dsimp only
                  refine exists_ok_bind
                    (damage_creature_ok he (by positivity) ?_) (fun p1 hd1 => ?_)
                  · rcases he with h01 | h01 <;> rw [h01] at hnlen ⊢ <;> exact_mod_cast hnlen
                  · try dsimp only
                    have fr1 : Frame s p1.1 := damage_creature_frame (by simpa using hd1)
                    refine exists_ok_bind
                      (damage_creature_ok hp h0 ?_) (fun p2 hd2 => ?_)
                    · rw [boardLen_frame fr1]
                      exact hbl
                    · try dsimp only
                      have fr2 : Frame s p2.1 :=
                        frame_trans fr1 (damage_creature_frame (by simpa using hd2))
                      split
                      · refine exists_ok_bind (heal_player_ok hp) (fun s4 hheal => ?_)
                        try dsimp only
                        refine exists_ok_bind (modBoardCreature_ok hp h0 ?_)
                          (fun s5 hmod => ⟨_, rfl⟩)
                        rw [boardLen_frame (frame_trans fr2 (heal_player_frame hheal))]
                        exact hbl
                      · refine exists_ok_bind ⟨p2.1, rfl⟩ (fun s4 hpure => ?_)
                        have hs4 : p2.1 = s4 := by cases hpure; rfl
                        subst hs4
                        refine exists_ok_bind (modBoardCreature_ok hp h0 ?_)
                          (fun s5 hmod => ⟨_, rfl⟩)
                        rw [boardLen_frame fr2]
                        exact hbl

theorem play_card_ok (s : MatchState) (player hand_index : Int) (target : Option TargetRef)
    (hwf : WfState s) (htok : tokensClosedDb s.cards = true)
    (hwa : ∀ t, target = some t → WfTarget s.config t) :
    ∃ out, play_card s player hand_index target = .ok out := by
  unfold play_card
  split
  · exact ⟨_, rfl⟩
  · rename_i hne
    push_neg at hne
    have hp : player = 0 ∨ player = 1 := by rw [hne]; exact hwf.1
    refine exists_ok_bind (playersGet_ok01 hp) (fun ps hget => ?_)
    try dsimp only
    split
    · exact ⟨_, rfl⟩
    · rename_i hidx
      push_neg at hidx
      have htoNat : hand_index.toNat < ps.hand.length := by omega
      have hmemh : ps.hand.getD hand_index.toNat "" ∈ ps.hand := by
        rw [List.getD_eq_getElem ps.hand "" htoNat]
        exact List.getElem_mem htoNat
      have hsome : (s.cards.cards.lookup (ps.hand.getD hand_index.toNat "")).isSome = true := by
        rcases hp with rfl | rfl <;>
          rcases playersGet_ok_cases hget with ⟨hi, hq⟩ | ⟨hi, hq⟩ <;>
            first
            | (exfalso; rcases hi with hx | hx <;> omega)
            | (subst hq
               first
               | exact hwf.2.2.2.1 _ hmemh
               | exact hwf.2.2.2.2 _ hmemh)
      obtain ⟨card, hlk⟩ := Option.isSome_iff_exists.mp hsome
      have hcget : s.cards.get (ps.hand.getD hand_index.toNat "") = .ok card := by
        unfold CardDatabase.get
        rw [hlk]
      rw [bind_ok_eq hcget]
      try dsimp only
      split
      · exact ⟨_, rfl⟩
      · split
        · -- creature branch
          cases hfe : find_empty_slot ps.board with
          | none => exact ⟨_, rfl⟩
          | some slot =>
            try dsimp only
            cases hcs : card.creature_stats with
            | none => exact ⟨_, rfl⟩
            | some stats =>
              try dsimp only
              refine exists_ok_bind (playersSet_ok01 _ hp) (fun s1 hset => ⟨_, rfl⟩)
        · -- spell branch
          try dsimp only
          refine exists_ok_bind (playersSet_ok01 _ hp) (fun s1 hset => ?_)
          try dsimp only
          have fr01 : Frame s s1 := playersGetSet_frame hget hset rfl
          refine exists_ok_bind (resolve_spell_ok hp ?_ ?_) (fun p hres => ?_)
          · intro t ht
            obtain ⟨hT, hcr⟩ := hwa t ht
            refine ⟨hT, fun hkc => ?_⟩
            obtain ⟨sl, hsl, h0sl, hslt⟩ := hcr hkc
            refine ⟨sl, hsl, h0sl, ?_, ?_⟩
            · show sl < (s1.players.1.board.length : Int)
              rw [fr01.board1, hwf.2.1]
              omega
            · show sl < (s1.players.2.board.length : Int)
              rw [fr01.board2, hwf.2.2.1]
              omega
          · intro tid cnt hm
            show ((s1.cards).cards.lookup tid).isSome = true
            rw [fr01.cards]
            exact db_get_tokensClosed htok hcget tid cnt hm
          · try dsimp only
            split
            · -- targeting failure: the rollback path
              rename_i hnok
              refine exists_ok_bind (modPlayer_ok p.1 _ hp) (fun s3 hmod => ?_)
              try dsimp only
              refine exists_ok_bind (playersGet_ok01 hp) (fun ps3 hget3 => ?_)
              try dsimp only
              split
              · -- the popped discard pile cannot be empty
                rename_i hemp
                exfalso
                have hd3 : discards s3 = discards p.1 := by
                  rcases modPlayer_ok_cases hmod with ⟨hi, ht⟩ | ⟨hi, ht⟩ <;> subst ht <;>
                    simp [discards]
                have hdr := resolve_spell_fail_discards (by simpa using hres)
                  (by simpa using hnok)
                have hdr1 : discards p.1 = discards s1 := hdr
                rcases hp with rfl | rfl
                · have hq3 : ps3 = s3.players.1 := by
                    rcases playersGet_ok_cases hget3 with ⟨hi, hq⟩ | ⟨hi, hq⟩
                    · exact hq
                    · exfalso; rcases hi with hx | hx <;> omega
                  have hs1 : s1.players.1.discard.isEmpty = false := by
                    rcases playersSet_ok_cases hset with ⟨hi, ht⟩ | ⟨hi, ht⟩
                    · subst ht; simp
                    · exfalso; rcases hi with hx | hx <;> omega
                  have e3 : s3.players.1.discard = p.1.players.1.discard :=
                    congrArg Prod.fst hd3
                  have e2 : p.1.players.1.discard = s1.players.1.discard :=
                    congrArg Prod.fst hdr1
                  rw [hq3, e3, e2] at hemp
                  rw [hemp] at hs1
                  cases hs1
                · have hq3 : ps3 = s3.players.2 := by
                    rcases playersGet_ok_cases hget3 with ⟨hi, hq⟩ | ⟨hi, hq⟩
                    · exfalso; rcases hi with hx | hx <;> omega
                    · exact hq
                  have hs1 : s1.players.2.discard.isEmpty = false := by
                    rcases playersSet_ok_cases hset with ⟨hi, ht⟩ | ⟨hi, ht⟩
                    · exfalso; rcases hi with hx | hx <;> omega
                    · subst ht; simp
                  have e3 : s3.players.2.discard = p.1.players.2.discard :=
                    congrArg Prod.snd hd3
                  have e2 : p.1.players.2.discard = s1.players.2.discard :=
                    congrArg Prod.snd hdr1
                  rw [hq3, e3, e2] at hemp
                  rw [hemp] at hs1
                  cases hs1
              · refine exists_ok_bind (playersSet_ok01 _ hp) (fun s4 hset4 => ⟨_, rfl⟩)
            · exact ⟨_, rfl⟩

/-- **C5, counterexample.**  A Play action for the `bolt` damage spell whose
creature-kind target carries the out-of-range slot 7 makes `step` raise an
uncaught `IndexError` inside `_damage_creature` (the Python list indexing
`ps.board[slot]`), instead of returning a structured `StepResult`. -/
theorem C5_counterexample : c5probe = .error "IndexError: list index out of range" := by
  rfl

/-- **C5, amended.**  On a structurally well-formed state (0/1 current
player, boards of the configured length, hand card ids bound in the
catalog), with a catalog whose Summon effects only name bound token ids,
`step` never raises for any action whose Play target — if present — is a
0/1 player reference carrying, for a creature-kind target, an in-range
slot: every rule violation comes back as a structured `StepResult`. -/
theorem C5_amended (s : MatchState) (a : Action)
    (hwf : WfState s) (htok : tokensClosedDb s.cards = true)
    (hwa : WfAction s.config a) :
    isOkE (step s a) = true := by
  unfold step
  split
  · rfl
  · try dsimp only
    cases a with
    | play player hand_index target =>
      try dsimp only
      have hwa2 : ∀ t, target = some t → WfTarget s.config t := by
        intro t ht
        rw [ht] at hwa
        exact hwa
      obtain ⟨out, hout⟩ :=
        play_card_ok { s with action_log := s.action_log ++ [Action.play player hand_index target] }
          player hand_index target (by exact hwf) (by exact htok) (by exact hwa2)
      rw [hout]
      rfl
    | attack player attacker_slot target =>
      try dsimp only
      obtain ⟨out, hout⟩ :=
        attackAction_ok { s with action_log := s.action_log ++ [Action.attack player attacker_slot target] }
          player attacker_slot target (by exact hwf.1)
      rw [hout]
      rfl
    | endTurn player =>
      try dsimp only
      obtain ⟨out, hout⟩ :=
        end_turn_ok { s with action_log := s.action_log ++ [Action.endTurn player] }
          player (by exact hwf.1)
      rw [hout]
      rfl

/-- Witness for C5: on the concrete well-formed fixture state, a Play of
the targeted `bolt` spell at the occupied enemy slot 0 completes without
an exception. -/
theorem C5_amended_witness :
    isOkE (step wState (.play 0 0 (some (TargetRef.creature_target 1 0)))) = true :=
  C5_amended wState (.play 0 0 (some (TargetRef.creature_target 1 0)))
    (by refine ⟨?_, ?_, ?_, ?_, ?_⟩ <;> decide)
    (by decide)
    ⟨Or.inr rfl, fun _ => ⟨0, rfl, by decide, by decide⟩⟩

end CineTCG
